import Mathlib

/-!
# mPagerDuty: the real client adapter and the fake client

A shallow embedding of `pkg/mPagerDuty.go`, `pkg/mPagerDuty_fake.go`,
`pkg/fake_data.go` and `pkg/helpers.go`.

* A Go `string` is a Lean `String` (a sequence of runes; byte sequences that
  are not valid UTF-8 are outside the model).
* A Go slice is an `Option (List α)`: `none` is the nil slice, `some xs` a
  non-nil slice with the elements `xs`.
* A Go pointer result is an `Option`, `none` being nil; a Go `error` is an
  `Option String` holding the message, `none` being nil.
* A Go `uint` is a `Nat` below `uintSize`, additions are taken modulo `uintSize`.
* The wrapped SDK client is a record of handlers over an explicit backend
  state; every SDK call made by the adapter is appended to a trace.
* Unbounded `for` loops take a fuel argument bounding the number of
  iterations and yield `none` when the fuel runs out.
-/

namespace MPagerDuty

/-! ## Strings (Go packages `unicode` and `strings`) -/

/-- Go `unicode.IsSpace`: the Latin-1 space characters and the runes with the
Unicode White_Space property. -/
def IsSpace (r : Char) : Bool :=
  if r.toNat ≤ 0xFF then
    r.toNat == 0x09 || r.toNat == 0x0A || r.toNat == 0x0B || r.toNat == 0x0C ||
      r.toNat == 0x0D || r.toNat == 0x20 || r.toNat == 0x85 || r.toNat == 0xA0
  else
    r.toNat == 0x1680 || (0x2000 ≤ r.toNat && r.toNat ≤ 0x200A) || r.toNat == 0x2028 ||
      r.toNat == 0x2029 || r.toNat == 0x202F || r.toNat == 0x205F || r.toNat == 0x3000

/-- Go `strings.TrimSpace`: the string without its leading and trailing white space. -/
def TrimSpace (s : String) : String :=
  String.mk ((s.data.dropWhile IsSpace).reverse.dropWhile IsSpace).reverse

/-- A string that is empty or consists only of white space. -/
def Blank (s : String) : Prop := ∀ c ∈ s.data, IsSpace c = true

instance (s : String) : Decidable (Blank s) := by
  unfold Blank; infer_instance

/-- The tables of the Unicode libraries the package relies on (`unicode`,
`golang.org/x/text/unicode/norm`), which are not part of the repository. -/
structure Unicode where
  /-- Case orbit: `caseOrbit lo hi` holds when `hi` is reached from `lo` by `unicode.SimpleFold`,
  for runes `lo < hi` with `hi` outside ASCII. -/
  caseOrbit : Char → Char → Bool
  /-- Canonical decomposition `norm.NFD`. -/
  NFD : List Char → List Char
  /-- Membership in the category `unicode.Mn` (nonspacing marks). -/
  Mn : Char → Bool
  /-- Canonical composition `norm.NFC`. -/
  NFC : List Char → List Char

/-- One step of Go `strings.EqualFold`: the runes `sr` and `tr` are equal under simple case folding. -/
def foldEq (u : Unicode) (sr tr : Char) : Bool :=
  if tr = sr then true
  else
    let lo := if tr.toNat < sr.toNat then tr else sr
    let hi := if tr.toNat < sr.toNat then sr else tr
    if hi.toNat < 0x80 then
      0x41 ≤ lo.toNat && lo.toNat ≤ 0x5A && hi.toNat == lo.toNat + 0x20
    else
      u.caseOrbit lo hi

/-- The rune-by-rune comparison of Go `strings.EqualFold`. -/
def equalFoldRunes (u : Unicode) : List Char → List Char → Bool
  | [], [] => true
  | sr :: s, tr :: t => foldEq u sr tr && equalFoldRunes u s t
  | _, _ => false

/-- Go `strings.EqualFold`. -/
def EqualFold (u : Unicode) (s t : String) : Bool :=
  equalFoldRunes u s.data t.data

/-- Whether `sub` occurs in `s` starting at some position. -/
def containsRunes (sub : List Char) : List Char → Bool
  | [] => sub.isEmpty
  | c :: s => sub.isPrefixOf (c :: s) || containsRunes sub s

/-- Go `strings.Contains`. -/
def Contains (s substr : String) : Bool :=
  containsRunes substr.data s.data

/-- The `runes.Remove(runes.In(unicode.Mn))` transformer. -/
def removeMn (u : Unicode) (rs : List Char) : List Char :=
  rs.filter (fun r => !u.Mn r)

/-- The helper `normalizeString`: the chain NFD, removal of nonspacing marks, NFC.
The three transformers are total, so `transform.String` reports no error. -/
def normalizeString (u : Unicode) (text : String) : String × Option String :=
  (String.mk (u.NFC (removeMn u (u.NFD text.data))), none)

/-! ## Machine integers -/

/-- The number of values of Go `uint` on a 64-bit platform. -/
def uintSize : Nat := 2 ^ 64

/-- Addition of Go `uint` values. -/
def uintAdd (a b : Nat) : Nat := (a + b) % uintSize

/-- Go `append(s, xs...)`: a nil slice stays nil when nothing is appended. -/
def goAppend {α : Type} (s : Option (List α)) (xs : List α) : Option (List α) :=
  match xs with
  | [] => s
  | x :: rest => some (s.getD [] ++ x :: rest)

/-- Go `len` of a string: its number of bytes. -/
def strLen (s : String) : Nat := s.utf8ByteSize

/-- The elements of a slice. -/
def elems {α : Type} (s : Option (List α)) : List α := s.getD []

/-! ## The SDK's data types (the fields the package reads or writes) -/

structure APIObject where
  ID : String := ""
  Type_ : String := ""
  Summary : String := ""
  Self : String := ""
  HTMLURL : String := ""
  deriving DecidableEq, Repr

structure APIReference where
  ID : String := ""
  Type_ : String := ""
  deriving DecidableEq, Repr

structure APIDetails where
  Type_ : String := ""
  Details : String := ""
  deriving DecidableEq, Repr

structure APIListObject where
  Limit : Nat := 0
  Offset : Nat := 0
  More : Bool := false
  Total : Nat := 0
  deriving DecidableEq, Repr

structure Team extends APIObject where
  deriving DecidableEq, Repr

structure User extends APIObject where
  Name : String := ""
  Email : String := ""
  Timezone : String := ""
  Role : String := ""
  Teams : Option (List Team) := none
  deriving DecidableEq, Repr

structure Schedule extends APIObject where
  Name : String := ""
  TimeZone : String := ""
  deriving DecidableEq, Repr

structure EscalationRule where
  Delay : Nat := 0
  Targets : Option (List APIObject) := none
  deriving DecidableEq, Repr

structure EscalationPolicy extends APIObject where
  EscalationRules : Option (List EscalationRule) := none
  Services : Option (List APIObject) := none
  Teams : Option (List APIReference) := none
  deriving DecidableEq, Repr

structure OnCall where
  User : MPagerDuty.User := {}
  Schedule : MPagerDuty.Schedule := {}
  EscalationPolicy : MPagerDuty.EscalationPolicy := {}
  EscalationLevel : Nat := 0
  Start : String := ""
  End : String := ""
  deriving DecidableEq, Repr

structure Override where
  ID : String := ""
  Start : String := ""
  End : String := ""
  User : APIObject := {}
  deriving DecidableEq, Repr

structure Incident extends APIObject where
  IncidentNumber : Nat := 0
  Title : String := ""
  Description : String := ""
  CreatedAt : String := ""
  Status : String := ""
  Urgency : String := ""
  Service : MPagerDuty.APIObject := {}
  EscalationPolicy : MPagerDuty.APIObject := {}
  deriving DecidableEq, Repr

structure Tag extends APIObject where
  Label : String := ""
  deriving DecidableEq, Repr

structure LogEntry extends APIObject where
  deriving DecidableEq, Repr

structure ListOnCallsResponse extends APIListObject where
  OnCalls : List OnCall := []
  deriving DecidableEq, Repr

structure ListSchedulesResponse where
  Schedules : List Schedule := []
  deriving DecidableEq, Repr

structure ListUsersResponse where
  Users : List User := []
  deriving DecidableEq, Repr

structure ListOverridesResponse where
  Overrides : List Override := []
  deriving DecidableEq, Repr

structure ListIncidentsResponse where
  Incidents : List Incident := []
  deriving DecidableEq, Repr

structure ListIncidentLogEntriesResponse where
  LogEntries : List LogEntry := []
  deriving DecidableEq, Repr

structure ListEPResponse where
  EscalationPolicies : List APIObject := []
  deriving DecidableEq, Repr

structure ListTagResponse where
  Tags : List Tag := []
  deriving DecidableEq, Repr

/-! ## The SDK's option types -/

structure ListOnCallOptions where
  Limit : Nat := 0
  Offset : Nat := 0
  Total : Bool := false
  TimeZone : String := ""
  ScheduleIDs : Option (List String) := none
  deriving DecidableEq, Repr

structure ListSchedulesOptions where
  Limit : Nat := 0
  Offset : Nat := 0
  Query : String := ""
  deriving DecidableEq, Repr

structure ListUsersOptions where
  Limit : Nat := 0
  Offset : Nat := 0
  Query : String := ""
  TeamIDs : Option (List String) := none
  deriving DecidableEq, Repr

structure GetUserOptions where
  Includes : Option (List String) := none
  deriving DecidableEq, Repr

structure ListOverridesOptions where
  Since : String := ""
  Until : String := ""
  Overflow : Bool := false
  deriving DecidableEq, Repr

structure ListIncidentsOptions where
  Limit : Nat := 0
  Offset : Nat := 0
  Since : String := ""
  TimeZone : String := ""
  deriving DecidableEq, Repr

structure ListIncidentLogEntriesOptions where
  Limit : Nat := 0
  Offset : Nat := 0
  IsOverview : Bool := false
  deriving DecidableEq, Repr

structure ListTagOptions where
  Limit : Nat := 0
  Offset : Nat := 0
  Query : String := ""
  deriving DecidableEq, Repr

structure CreateIncidentOptions where
  Type_ : String := ""
  Title : String := ""
  Service : Option APIReference := none
  Urgency : String := ""
  Body : Option APIDetails := none
  EscalationPolicy : Option APIReference := none
  deriving DecidableEq, Repr

/-! ## `pkg/fake_data.go` -/

def getFakedUser : User :=
  { ID := "PJ6XOVE",
    Self := "https://api.pagerduty.com/users/PJ6XOVE",
    HTMLURL := "https://twitchoncall.pagerduty.com/users/PJ6XOVE",
    Name := "Timur Kalandarov",
    Email := "tikaland@justin.tv",
    Timezone := "America/New_York",
    Role := "user",
    Teams := some [{ ID := "P83EOFI", Type_ := "team_reference", Summary := "GSOC" }] }

def getFakedSchedule : Schedule :=
  { ID := "PUHMCXV", Name := "" }

def getFakedEscalationPolicy : EscalationPolicy := {}

def getFakedOnCalls : ListOnCallsResponse :=
  { Limit := 100, Offset := 0, More := false, Total := 0,
    OnCalls := [
      { User := getFakedUser,
        Schedule := getFakedSchedule,
        EscalationPolicy := getFakedEscalationPolicy,
        EscalationLevel := 1,
        Start := "2021-07-21T14:54:39Z",
        End := "2022-12-30T14:04:11Z" }] }

def getFakedOverridesList : ListOverridesResponse :=
  { Overrides := [
      { ID := "Q3WU06FHSCYOHG",
        Start := "2022-08-31T14:00:00-06:00",
        End := "2022-09-01T00:00:00-06:00",
        User := getFakedUser.toAPIObject },
      { ID := "Q1NF06I8X9HJAK",
        Start := "2022-09-01T14:00:00-06:00",
        End := "2022-09-02T00:00:00-06:00",
        User := getFakedUser.toAPIObject },
      { ID := "Q3BMMAACX0LQDM",
        Start := "2022-09-03T14:00:00-06:00",
        End := "2022-09-04T00:00:00-06:00",
        User := getFakedUser.toAPIObject }] }

def getFakedTags : ListTagResponse :=
  { Tags := [
      { ID := "PRXFVK3", Summary := "ETS", Label := "ETS" },
      { ID := "P74RRGF", Summary := "GSOC", Label := "GSOC" },
      { ID := "PMRPRRZ", Summary := "VIDOPS", Label := "VIDOPS" },
      { ID := "P3V3R4S", Summary := "VOR", Label := "VOR" }] }

def getFakedIncidents : List Incident :=
  [ { IncidentNumber := 2024046,
      Title := "Twilight Automation Test Failure",
      Description := "Twilight Automation Test Failure",
      CreatedAt := "2022-09-06T03:00:15Z",
      Status := "resolved",
      Urgency := "low",
      ID := "Q3XZW6AK6GZ3TZ" },
    { IncidentNumber := 2024049,
      Title := "Input Errors > 1000 over 1M",
      Description := "cr01.sin04 tengige0/0/0/2/0 COLO:tm:cr01.bkk01:te0/0/0/1/0:US021-161:10G:::",
      CreatedAt := "2022-09-06T03:04:51Z",
      Status := "resolved",
      Urgency := "low",
      ID := "Q0FDXK79NN127I" },
    { IncidentNumber := 2024046,
      Title := "BatchGetCheckoutPrice primary p99 Latency > 0.8s",
      Description := "BatchGetCheckoutPrice primary p99 Latency > 0.8s",
      CreatedAt := "2022-09-06T03:18:04Z",
      Status := "resolved",
      Urgency := "low",
      ID := "Q0HV1FERSUO36A" } ]

/-! ## `pkg/mPagerDuty_fake.go` -/

def existingUserID : String := "PJ6XOVE"
def existingUserName : String := "Timur Kalandarov"
def existingScheduleID : String := "PUHMCXV"
def existingScheduleName : String := "Caleb Young TESTING"

/-- The validation loop over a list parameter: some entry has `len(strings.TrimSpace(x)) == 0`. -/
def hasEmptyEntry (xs : List String) : Bool :=
  xs.any (fun x => strLen (TrimSpace x) == 0)

namespace FakePDClient

def GetOnCallsByScheduleIDs (scheduleIDs : Option (List String)) :
    Option (List OnCall) × Option String :=
  match scheduleIDs with
  | none => (none, some "array of scheduleIDs must be defined")
  | some ids =>
    if ids.length < 1 then
      (none, some "could not get on-calls because scheduleIDs was empty")
    else if hasEmptyEntry ids then
      (none, some "could not get on-calls because the passed array had empty string(s)")
    else
      (some getFakedOnCalls.OnCalls, none)

def GetOnCallsWithOptions (_options : Option ListOnCallOptions) :
    Option ListOnCallsResponse × Option String :=
  (some getFakedOnCalls, none)

def GetScheduleIDbyName (name : String) : String × String × Option String :=
  if TrimSpace name = "" then
    ("", "", some "passed parameter 'name' must be specified")
  else
    (existingScheduleID, "America/Denver", none)

def GetUserIDbyName (name : String) : String × Option String :=
  if TrimSpace name = "" then
    ("", some "passed parameter 'name' must be specified")
  else
    (existingUserID, none)

def GetUserByID (id : String) (_options : GetUserOptions) : Option User × Option String :=
  if TrimSpace id = "" then
    (none, some "passed parameter 'id' must be specified")
  else
    (some getFakedUser, none)

def ListAllUsers (_options : ListUsersOptions) : Option (List User) × Option String :=
  (some [getFakedUser, getFakedUser, getFakedUser], none)

def GetOverrides (scheduleID since until_ : String) (_includeOverflow : Bool) :
    Option ListOverridesResponse × Option String :=
  if TrimSpace scheduleID = "" then
    (none, some "passed parameter 'scheduleID' must be specified")
  else if TrimSpace since = "" || TrimSpace until_ = "" then
    (none, some "passed parameters 'since' and 'until' dates must be specified")
  else
    (some getFakedOverridesList, none)

def CreateOverride (scheduleID userID start end_ : String) : Option Override × Option String :=
  if TrimSpace scheduleID = "" then
    (none, some "passed parameter 'scheduleID' must be specified")
  else if TrimSpace userID = "" then
    (none, some "passed parameter 'userID' must be specified")
  else if TrimSpace start = "" then
    (none, some "passed parameter 'start' must be specified")
  else if TrimSpace end_ = "" then
    (none, some "passed parameter 'end' must be specified")
  else
    (some { ID := "TEST", Start := start, End := end_, User := { ID := userID } }, none)

def RemoveOverride (scheduleID overrideID : String) : Option String :=
  if TrimSpace scheduleID = "" then
    some "passed parameter 'scheduleID' must be specified"
  else if TrimSpace overrideID = "" then
    some "passed parameter 'overrideID' must be specified"
  else
    none

def GetIndicentsByTag (tagName : String) (_timeRange : Int) :
    Option (List Incident) × Option String :=
  if TrimSpace tagName = "" then
    (none, some "passed parameter 'tagName' must be specified")
  else
    (some getFakedIncidents, none)

def CreateIncident (title serviceID urgency _details escalationPolicyID : String) :
    Option Incident × Option String :=
  if TrimSpace title = "" then
    (none, some "passed parameter 'title' must be specified")
  else if TrimSpace serviceID = "" then
    (none, some "passed parameter 'serviceID' must be specified")
  else
    (some { Title := title,
            Service := { ID := serviceID },
            Urgency := urgency,
            EscalationPolicy := { ID := escalationPolicyID } }, none)

/-- The body of the `range` loop of `SearchIncidents`: the loop variable is a copy of
the element, and the assignment changes that copy only. -/
def SearchIncidents.rangeBody (serviceQuery : String) (incident : Incident) : Incident :=
  { incident with Service := { incident.Service with Summary := incident.Service.Summary ++ serviceQuery } }

/-- The `range` loop of `SearchIncidents` over `incidents`: every iteration updates its own
copy of the element, the slice is left as it was. -/
def SearchIncidents.rangeLoop (serviceQuery : String) (incidents : List Incident) :
    List Incident → List Incident
  | [] => incidents
  | incident :: rest =>
    let _copy := SearchIncidents.rangeBody serviceQuery incident
    SearchIncidents.rangeLoop serviceQuery incidents rest

def SearchIncidents (serviceQuery : String) (_timeRange : Int) :
    Option (List Incident) × Option String :=
  if serviceQuery = "" then
    (some [], none)
  else
    let incidents := getFakedIncidents
    (some (SearchIncidents.rangeLoop serviceQuery incidents incidents), none)

def SearchIncidentLogs (incidentID logType : String) : Option String × Option String :=
  if TrimSpace incidentID = "" then
    (none, some "passed parameter 'incidentID' must be specified")
  else if TrimSpace logType = "" then
    (none, some "passed parameter 'logType' must be specified")
  else if logType = "resolve_log_entry" then
    (some "Resolved through the API.", none)
  else if logType = "assign_log_entry" then
    (some "Assigned to Timur Kalandarov.", none)
  else if logType = "trigger_log_entry" then
    (some "Triggered through the API.", none)
  else
    (none, none)

def GetIndicentsByEscalationPolicy (escalationPolicyID : String) (_timeRange : Int) :
    Option (List Incident) × Option String :=
  if TrimSpace escalationPolicyID = "" then
    (none, some "passed parameter 'escalationPolicyID' must be specified")
  else
    (some getFakedIncidents, none)

/-- The loop `for i := 0; i < len(names); i++ { resp = append(resp, existingUserID) }`. -/
def GetUsersIDsByNames.fill : List String → Option (List String) → Option (List String)
  | [], resp => resp
  | _ :: rest, resp => GetUsersIDsByNames.fill rest (goAppend resp [existingUserID])

def GetUsersIDsByNames (names : Option (List String)) : Option (List String) × Option String :=
  match names with
  | none => (none, some "array of names must be defined")
  | some ns =>
    if ns.length < 1 then
      (none, some "array of names cannot be empty")
    else if hasEmptyEntry ns then
      (none, some "could not get user names because the passed array had empty string(s)")
    else
      (GetUsersIDsByNames.fill ns none, none)

def UpdateEscalationPolicy (id userID serviceID teamID : String)
    (escalation : Option (List APIObject)) : Option EscalationPolicy × Option String :=
  if TrimSpace id = "" then
    (none, some "passed parameter 'id' must be specified")
  else if TrimSpace userID = "" then
    (none, some "passed parameter 'userID' must be specified")
  else if escalation = none then
    (none, some "passed parameter 'escalation' cannot be nil")
  else
    (some { ID := id,
            Services := some [{ ID := serviceID }],
            Teams := some [{ ID := teamID }] }, none)

def GetEscalationPoliciesByTag (tagID : String) : Option ListEPResponse × Option String :=
  if TrimSpace tagID = "" then
    (none, some "passed parameter 'tagID' must be specified")
  else
    (some { EscalationPolicies := [
              { ID := "PP2PMMD", Summary := "Ad Server Escalation" },
              { ID := "PKR3E6F", Summary := "App code validation" },
              { ID := "PGPQHZF", Summary := "Browser Grid" }] }, none)

def ListAllTags (_options : ListTagOptions) : Option (List Tag) × Option String :=
  (some getFakedTags.Tags, none)

end FakePDClient

/-! ## The wrapped SDK client, the backend and the package-level declarations -/

/-- The package-level declarations that `pkg/mPagerDuty.go` uses and that are declared in a
file outside the repository sources, together with the library tables. -/
structure Env where
  /-- The page size `limit`, a `uint` value. -/
  limit : Nat
  /-- The step `increase` by which the offset advances, a `uint` value. -/
  increase : Nat
  /-- The label `pdScheduleTitlePrefix` put in front of schedule names. -/
  pdScheduleTitlePrefix : String
  /-- The team scope `pgGSOCTeamID` of the user lookup. -/
  pgGSOCTeamID : Option (List String)
  /-- The Unicode tables. -/
  unicode : Unicode
  /-- The instant `t` (nanoseconds since the epoch) rendered by
  `t.In(UTC).Format("2006-01-02T15:04:05")`. -/
  formatUTC : Int → String

/-- A call of the wrapped SDK client. -/
inductive Request where
  | ListOnCalls (o : ListOnCallOptions)
  | ListSchedules (o : ListSchedulesOptions)
  | ListUsers (o : ListUsersOptions)
  | GetUser (id : String) (o : GetUserOptions)
  | ListOverrides (scheduleID : String) (o : ListOverridesOptions)
  | CreateOverride (scheduleID : String) (o : Override)
  | DeleteOverride (scheduleID overrideID : String)
  | ListIncidents (o : ListIncidentsOptions)
  | CreateIncident (sender : String) (o : CreateIncidentOptions)
  | ListIncidentLogEntries (id : String) (o : ListIncidentLogEntriesOptions)
  | UpdateEscalationPolicy (id : String) (ep : EscalationPolicy)
  | GetEscalationPoliciesByTag (tagID : String)
  | ListTags (o : ListTagOptions)
  deriving DecidableEq, Repr

/-- The wrapped `pagerduty.Client` over a backend with states `σ`: every method answers a
request in a state with either an error message or a response, and a next state.
`now` is the reading of the system clock in a state (nanoseconds since the epoch). -/
structure Backend (σ : Type) where
  ListOnCallsWithContext : ListOnCallOptions → σ → Except String ListOnCallsResponse × σ
  ListSchedulesWithContext : ListSchedulesOptions → σ → Except String ListSchedulesResponse × σ
  ListUsersWithContext : ListUsersOptions → σ → Except String ListUsersResponse × σ
  GetUserWithContext : String → GetUserOptions → σ → Except String User × σ
  ListOverridesWithContext : String → ListOverridesOptions → σ → Except String ListOverridesResponse × σ
  CreateOverrideWithContext : String → Override → σ → Except String Override × σ
  DeleteOverrideWithContext : String → String → σ → Option String × σ
  ListIncidentsWithContext : ListIncidentsOptions → σ → Except String ListIncidentsResponse × σ
  CreateIncidentWithContext : String → CreateIncidentOptions → σ → Except String Incident × σ
  ListIncidentLogEntriesWithContext :
    String → ListIncidentLogEntriesOptions → σ → Except String ListIncidentLogEntriesResponse × σ
  UpdateEscalationPolicyWithContext : String → EscalationPolicy → σ → Except String EscalationPolicy × σ
  GetEscalationPoliciesByTag : String → σ → Except String ListEPResponse × σ
  ListTags : ListTagOptions → σ → Except String ListTagResponse × σ
  now : σ → Int

/-- The backend state together with the requests issued so far, oldest first. -/
structure World (σ : Type) where
  state : σ
  trace : List Request

/-- What an operation leaves behind when it returns: its results, its error and the world. -/
abbrev Ret (σ α : Type) : Type := (α × Option String) × World σ

/-- An operation either returns or stops with a run-time panic. -/
inductive Outcome (α : Type) where
  | returned (a : α)
  | panicked (msg : String)
  deriving DecidableEq, Repr

/-- Issue one request: the handler `h` runs on the backend state and the request is recorded. -/
def issue {σ α : Type} (req : Request) (h : σ → α × σ) (w : World σ) : α × World σ :=
  ((h w.state).1, { state := (h w.state).2, trace := w.trace ++ [req] })

/-- The pointer and the error of a Go result pair that an SDK method hands back. -/
def resultPair {α : Type} : Except String α → Option α × Option String
  | .ok r => (some r, none)
  | .error err => (none, some err)

/-- Go `time.LoadLocation("UTC")`: the name UTC is answered without a lookup, the error is nil. -/
def LoadLocationUTC : Option String := none

/-- Wrap-around of a Go `int64` (`time.Duration`) value. -/
def wrapInt64 (x : Int) : Int := (x + 2 ^ 63) % 2 ^ 64 - 2 ^ 63

/-- Go `time.Minute`, in nanoseconds. -/
def Minute : Int := 60000000000

/-- The expression `time.Now().Add(timeRange * time.Minute).In(UTC).Format("2006-01-02T15:04:05")`. -/
def querySince {σ : Type} (env : Env) (b : Backend σ) (timeRange : Int) (w : World σ) : String :=
  env.formatUTC (b.now w.state + wrapInt64 (timeRange * Minute))

/-! ## `pkg/mPagerDuty.go` -/

namespace client

variable {σ : Type}

/-- The options that `GetOnCallsByScheduleIDs` passes to the SDK at `offset`. -/
def GetOnCallsByScheduleIDs.options (env : Env) (scheduleIDs : Option (List String))
    (offset : Nat) : ListOnCallOptions :=
  { TimeZone := "UTC", ScheduleIDs := scheduleIDs, Limit := env.limit, Total := true,
    Offset := offset }

/-- The pagination loop of `GetOnCallsByScheduleIDs`. -/
def GetOnCallsByScheduleIDs.loop (env : Env) (b : Backend σ) (scheduleIDs : Option (List String)) :
    Nat → Option (List OnCall) → Nat → World σ → Option (Ret σ (Option (List OnCall)))
  | 0, _, _, _ => none
  | fuel + 1, onCalls, offset, w =>
    let o := GetOnCallsByScheduleIDs.options env scheduleIDs offset
    match issue (Request.ListOnCalls o) (b.ListOnCallsWithContext o) w with
    | (Except.error err, w1) => some ((none, some ("failed to list on calls: " ++ err)), w1)
    | (Except.ok response, w1) =>
      if response.OnCalls.length < 1 then
        some ((goAppend onCalls response.OnCalls, none), w1)
      else
        GetOnCallsByScheduleIDs.loop env b scheduleIDs fuel (goAppend onCalls response.OnCalls)
          (uintAdd offset env.increase) w1

def GetOnCallsByScheduleIDs (env : Env) (b : Backend σ) (scheduleIDs : Option (List String))
    (fuel : Nat) (w : World σ) : Option (Ret σ (Option (List OnCall))) :=
  match scheduleIDs with
  | none => some ((none, some "array of scheduleIDs must be defined"), w)
  | some ids =>
    if ids.length < 1 then
      some ((none, some "could not get on-calls because scheduleIDs was empty"), w)
    else if hasEmptyEntry ids then
      some ((none, some "could not get on-calls because the passed array had empty string(s)"), w)
    else
      GetOnCallsByScheduleIDs.loop env b scheduleIDs fuel none 0 w

/-- The operation dereferences `options`, a nil pointer makes it panic. -/
def GetOnCallsWithOptions (b : Backend σ) (options : Option ListOnCallOptions) (w : World σ) :
    Outcome (Option ListOnCallsResponse × Option String) × World σ :=
  match options with
  | none => (Outcome.panicked "invalid memory address or nil pointer dereference", w)
  | some o =>
    match issue (Request.ListOnCalls o) (b.ListOnCallsWithContext o) w with
    | (r, w1) => (Outcome.returned (resultPair r), w1)

/-- The inner `range` loop of `GetScheduleIDbyName` over one page: the first schedule whose
name matches sets `resp` and `tz`. -/
def GetScheduleIDbyName.scan (env : Env) (name : String) :
    List Schedule → String × String → String × String
  | [], acc => acc
  | sch :: rest, acc =>
    if EqualFold env.unicode sch.Name (env.pdScheduleTitlePrefix ++ " " ++ name) then
      (sch.ID, sch.TimeZone)
    else
      GetScheduleIDbyName.scan env name rest acc

/-- The options that `GetScheduleIDbyName` passes to the SDK at `offset`. -/
def GetScheduleIDbyName.options (env : Env) (offset : Nat) : ListSchedulesOptions :=
  { Limit := env.limit, Offset := offset, Query := "" }

/-- The pagination loop of `GetScheduleIDbyName`; `acc` holds `resp` and `tz`. -/
def GetScheduleIDbyName.loop (env : Env) (b : Backend σ) (name : String) :
    Nat → String × String → Nat → World σ → Option ((String × String × Option String) × World σ)
  | 0, _, _, _ => none
  | fuel + 1, acc, offset, w =>
    let o := GetScheduleIDbyName.options env offset
    match issue (Request.ListSchedules o) (b.ListSchedulesWithContext o) w with
    | (Except.error err, w1) =>
      some ((acc.1, acc.2, some ("error in getting schedules from PagerDuty: " ++ err)), w1)
    | (Except.ok schedules, w1) =>
      if schedules.Schedules.length < 1 then
        some ((acc.1, acc.2, none), w1)
      else
        let acc1 := GetScheduleIDbyName.scan env name schedules.Schedules acc
        if acc1.1 ≠ "" then
          some ((acc1.1, acc1.2, none), w1)
        else
          GetScheduleIDbyName.loop env b name fuel acc1 (uintAdd offset env.increase) w1

def GetScheduleIDbyName (env : Env) (b : Backend σ) (name : String) (fuel : Nat) (w : World σ) :
    Option ((String × String × Option String) × World σ) :=
  if TrimSpace name = "" then
    some (("", "", some "passed parameter 'name' must be specified"), w)
  else
    GetScheduleIDbyName.loop env b name fuel ("", "") 0 w

/-- The inner `range` loop of `GetUserIDbyName` over one page: the new `id`, or the error
that makes the operation return. -/
def GetUserIDbyName.scan (env : Env) (name : String) : List User → String → String × Option String
  | [], id => (id, none)
  | usr :: rest, id =>
    match normalizeString env.unicode usr.Name with
    | (_, some err) =>
      ("", some ("error while normalizing user name '" ++ usr.Name ++ "': " ++ err))
    | (normalizedName, none) =>
      if EqualFold env.unicode normalizedName name then
        (usr.ID, none)
      else
        GetUserIDbyName.scan env name rest id

/-- The options that `GetUserIDbyName` passes to the SDK at `offset`. -/
def GetUserIDbyName.options (env : Env) (offset : Nat) : ListUsersOptions :=
  { Limit := env.limit, Offset := offset, TeamIDs := env.pgGSOCTeamID }

/-- The pagination loop of `GetUserIDbyName`. -/
def GetUserIDbyName.loop (env : Env) (b : Backend σ) (name : String) :
    Nat → String → Nat → World σ → Option (Ret σ String)
  | 0, _, _, _ => none
  | fuel + 1, id, offset, w =>
    let o := GetUserIDbyName.options env offset
    match issue (Request.ListUsers o) (b.ListUsersWithContext o) w with
    | (Except.error err, w1) =>
      some (("", some ("error in getting userID from PagerDuty: " ++ err)), w1)
    | (Except.ok users, w1) =>
      if users.Users.length < 1 then
        some ((id, none), w1)
      else
        match GetUserIDbyName.scan env name users.Users id with
        | (_, some err) => some (("", some err), w1)
        | (id1, none) =>
          if id1 ≠ "" then
            some ((id1, none), w1)
          else
            GetUserIDbyName.loop env b name fuel id1 (uintAdd offset env.increase) w1

def GetUserIDbyName (env : Env) (b : Backend σ) (name : String) (fuel : Nat) (w : World σ) :
    Option (Ret σ String) :=
  if TrimSpace name = "" then
    some (("", some "passed parameter 'name' must be specified"), w)
  else
    GetUserIDbyName.loop env b name fuel "" 0 w

def GetUserByID (b : Backend σ) (id : String) (options : GetUserOptions) (w : World σ) :
    Ret σ (Option User) :=
  if TrimSpace id = "" then
    ((none, some "passed parameter 'id' must be specified"), w)
  else
    match issue (Request.GetUser id options) (b.GetUserWithContext id options) w with
    | (Except.error err, w1) => ((none, some ("failed to get pagerduty user: " ++ err)), w1)
    | (Except.ok user, w1) => ((some user, none), w1)

/-- The pagination loop of `ListAllUsers`: every request carries the same `options`; the
local `offset` is advanced and not used. -/
def ListAllUsers.loop (env : Env) (b : Backend σ) (options : ListUsersOptions) :
    Nat → Option (List User) → Nat → World σ → Option (Ret σ (Option (List User)))
  | 0, _, _, _ => none
  | fuel + 1, users, offset, w =>
    match issue (Request.ListUsers options) (b.ListUsersWithContext options) w with
    | (Except.error err, w1) => some ((none, some ("failed to list users: " ++ err)), w1)
    | (Except.ok response, w1) =>
      if response.Users.length < 1 then
        some ((goAppend users response.Users, none), w1)
      else
        ListAllUsers.loop env b options fuel (goAppend users response.Users)
          (uintAdd offset env.increase) w1

def ListAllUsers (env : Env) (b : Backend σ) (options : ListUsersOptions) (fuel : Nat)
    (w : World σ) : Option (Ret σ (Option (List User))) :=
  let options1 : ListUsersOptions := { options with Limit := env.limit, Offset := 0 }
  ListAllUsers.loop env b options1 fuel none 0 w

def GetOverrides (b : Backend σ) (scheduleID since until_ : String) (includeOverflow : Bool)
    (w : World σ) : Ret σ (Option ListOverridesResponse) :=
  if TrimSpace scheduleID = "" then
    ((none, some "passed parameter 'scheduleID' must be specified"), w)
  else if TrimSpace since = "" || TrimSpace until_ = "" then
    ((none, some "passed parameters 'since' and 'until' dates must be specified"), w)
  else
    let o : ListOverridesOptions := { Since := since, Until := until_, Overflow := includeOverflow }
    match issue (Request.ListOverrides scheduleID o) (b.ListOverridesWithContext scheduleID o) w with
    | (Except.error err, w1) => ((none, some err), w1)
    | (Except.ok overrides, w1) => ((some overrides, none), w1)

def CreateOverride (b : Backend σ) (scheduleID userID start end_ : String) (w : World σ) :
    Ret σ (Option Override) :=
  if TrimSpace scheduleID = "" then
    ((none, some "passed parameter 'scheduleID' must be specified"), w)
  else if TrimSpace userID = "" then
    ((none, some "passed parameter 'userID' must be specified"), w)
  else if TrimSpace start = "" then
    ((none, some "passed parameter 'start' must be specified"), w)
  else if TrimSpace end_ = "" then
    ((none, some "passed parameter 'end' must be specified"), w)
  else
    let o : Override := { Start := start, End := end_, User := { ID := userID, Type_ := "user" } }
    match issue (Request.CreateOverride scheduleID o) (b.CreateOverrideWithContext scheduleID o) w with
    | (Except.error err, w1) =>
      ((none, some ("error while creating override on PagerDuty: " ++ err)), w1)
    | (Except.ok newOverride, w1) => ((some newOverride, none), w1)

def RemoveOverride (b : Backend σ) (scheduleID overrideID : String) (w : World σ) :
    Option String × World σ :=
  if TrimSpace scheduleID = "" then
    (some "passed parameter 'scheduleID' must be specified", w)
  else if TrimSpace overrideID = "" then
    (some "passed parameter 'overrideID' must be specified", w)
  else
    match issue (Request.DeleteOverride scheduleID overrideID)
        (b.DeleteOverrideWithContext scheduleID overrideID) w with
    | (some err, w1) => (some ("error while removing override on PagerDuty: " ++ err), w1)
    | (none, w1) => (none, w1)

/-- The inner `range` loop of `GetIndicentsByEscalationPolicy` over one page; the state is
`incidentList` and `since`. -/
def GetIndicentsByEscalationPolicy.scan (escalationPolicyID : String) :
    List Incident → Option (List Incident) × String → Option (List Incident) × String
  | [], acc => acc
  | incident :: rest, acc =>
    let incidentList :=
      if incident.EscalationPolicy.ID = escalationPolicyID then goAppend acc.1 [incident] else acc.1
    GetIndicentsByEscalationPolicy.scan escalationPolicyID rest (incidentList, incident.CreatedAt)

/-- The options that `GetIndicentsByEscalationPolicy` passes to the SDK at `offset` with the
cursor `since`. -/
def GetIndicentsByEscalationPolicy.options (env : Env) (offset : Nat) (since : String) :
    ListIncidentsOptions :=
  { Limit := env.limit, Offset := offset, Since := since, TimeZone := "UTC" }

/-- The pagination loop of `GetIndicentsByEscalationPolicy`. -/
def GetIndicentsByEscalationPolicy.loop (env : Env) (b : Backend σ) (escalationPolicyID : String) :
    Nat → Option (List Incident) × String → Nat → World σ → Option (Ret σ (Option (List Incident)))
  | 0, _, _, _ => none
  | fuel + 1, acc, offset, w =>
    let options := GetIndicentsByEscalationPolicy.options env offset acc.2
    match issue (Request.ListIncidents options) (b.ListIncidentsWithContext options) w with
    | (Except.error err, w1) => some ((none, some ("failed to list incidents: " ++ err)), w1)
    | (Except.ok response, w1) =>
      if response.Incidents.length < 1 then
        some ((acc.1, none), w1)
      else
        GetIndicentsByEscalationPolicy.loop env b escalationPolicyID fuel
          (GetIndicentsByEscalationPolicy.scan escalationPolicyID response.Incidents acc)
          (uintAdd offset env.increase) w1

def GetIndicentsByEscalationPolicy (env : Env) (b : Backend σ) (escalationPolicyID : String)
    (timeRange : Int) (fuel : Nat) (w : World σ) : Option (Ret σ (Option (List Incident))) :=
  if TrimSpace escalationPolicyID = "" then
    some ((none, some "passed parameter 'escalationPolicyID' must be specified"), w)
  else
    match LoadLocationUTC with
    | some err => some ((none, some err), w)
    | none =>
      GetIndicentsByEscalationPolicy.loop env b escalationPolicyID fuel
        (none, querySince env b timeRange w) 0 w

/-- The pagination loop of `ListAllTags`: every request carries the same `options`; the
local `offset` is advanced and not used. -/
def ListAllTags.loop (env : Env) (b : Backend σ) (options : ListTagOptions) :
    Nat → Option (List Tag) → Nat → World σ → Option (Ret σ (Option (List Tag)))
  | 0, _, _, _ => none
  | fuel + 1, tags, offset, w =>
    match issue (Request.ListTags options) (b.ListTags options) w with
    | (Except.error err, w1) => some ((none, some ("failed to list tags: " ++ err)), w1)
    | (Except.ok response, w1) =>
      if response.Tags.length < 1 then
        some ((goAppend tags response.Tags, none), w1)
      else
        ListAllTags.loop env b options fuel (goAppend tags response.Tags)
          (uintAdd offset env.increase) w1

def ListAllTags (env : Env) (b : Backend σ) (options : ListTagOptions) (fuel : Nat)
    (w : World σ) : Option (Ret σ (Option (List Tag))) :=
  let options1 : ListTagOptions := { options with Limit := env.limit, Offset := 0 }
  ListAllTags.loop env b options1 fuel none 0 w

def GetEscalationPoliciesByTag (b : Backend σ) (tagID : String) (w : World σ) :
    Ret σ (Option ListEPResponse) :=
  if TrimSpace tagID = "" then
    ((none, some "passed parameter 'tagID' must be specified"), w)
  else
    match issue (Request.GetEscalationPoliciesByTag tagID) (b.GetEscalationPoliciesByTag tagID) w with
    | (Except.error err, w1) => ((none, some err), w1)
    | (Except.ok response, w1) => ((some response, none), w1)

/-- The `range` loop of `GetIndicentsByTag` over the escalation policies. -/
def GetIndicentsByTag.loop (env : Env) (b : Backend σ) (timeRange : Int) (fuel : Nat) :
    List APIObject → Option (List Incident) → World σ → Option (Ret σ (Option (List Incident)))
  | [], incidentList, w => some ((incidentList, none), w)
  | ep :: rest, incidentList, w =>
    match GetIndicentsByEscalationPolicy env b ep.ID timeRange fuel w with
    | none => none
    | some ((_, some err), w1) => some ((none, some err), w1)
    | some ((incidents, none), w1) =>
      GetIndicentsByTag.loop env b timeRange fuel rest (goAppend incidentList (elems incidents)) w1

/-- The operation indexes the first tag of the lookup without a length check: an empty
tag list makes it panic. -/
def GetIndicentsByTag (env : Env) (b : Backend σ) (tagName : String) (timeRange : Int)
    (fuel : Nat) (w : World σ) :
    Option (Outcome (Option (List Incident) × Option String) × World σ) :=
  if TrimSpace tagName = "" then
    some (Outcome.returned (none, some "passed parameter 'tagName' must be specified"), w)
  else
    match ListAllTags env b { Query := tagName } fuel w with
    | none => none
    | some ((_, some err), w1) => some (Outcome.returned (none, some err), w1)
    | some ((tags, none), w1) =>
      match elems tags with
      | [] => some (Outcome.panicked "index out of range [0] with length 0", w1)
      | tag0 :: _ =>
        match GetEscalationPoliciesByTag b tag0.ID w1 with
        | ((_, some err), w2) => some (Outcome.returned (none, some err), w2)
        | ((none, none), w2) =>
          some (Outcome.panicked "invalid memory address or nil pointer dereference", w2)
        | ((some epResponse, none), w2) =>
          match GetIndicentsByTag.loop env b timeRange fuel epResponse.EscalationPolicies none w2 with
          | none => none
          | some (r, w3) => some (Outcome.returned r, w3)

def CreateIncident (b : Backend σ) (title serviceID urgency details escalationPolicyID : String)
    (w : World σ) : Ret σ (Option Incident) :=
  if TrimSpace title = "" then
    ((none, some "passed parameter 'title' must be specified"), w)
  else if TrimSpace serviceID = "" then
    ((none, some "passed parameter 'serviceID' must be specified"), w)
  else
    let options : CreateIncidentOptions :=
      { Type_ := "incident", Title := title,
        Service := some { ID := serviceID, Type_ := "service_reference" } }
    let options : CreateIncidentOptions :=
      if strLen urgency > 0 then { options with Urgency := urgency } else options
    let options : CreateIncidentOptions :=
      if strLen details > 0 then
        { options with Body := some { Type_ := "incident_body", Details := details } }
      else options
    let options : CreateIncidentOptions :=
      if strLen escalationPolicyID > 0 then
        { options with
          EscalationPolicy := some { ID := escalationPolicyID, Type_ := "escalation_policy_reference" } }
      else options
    match issue (Request.CreateIncident "nobody@justin.tv" options)
        (b.CreateIncidentWithContext "nobody@justin.tv" options) w with
    | (Except.error err, w1) =>
      ((none, some ("API request to create an incident failed: " ++ err)), w1)
    | (Except.ok incident, w1) => ((some incident, none), w1)

/-- The inner `range` loop of `SearchIncidents` over one page; the state is `searchResults`
and `since`. -/
def SearchIncidents.scan (serviceQuery : String) :
    List Incident → Option (List Incident) × String → Option (List Incident) × String
  | [], acc => acc
  | incident :: rest, acc =>
    let searchResults :=
      if Contains incident.Service.Summary serviceQuery then goAppend acc.1 [incident] else acc.1
    SearchIncidents.scan serviceQuery rest (searchResults, incident.CreatedAt)

/-- The options that `SearchIncidents` passes to the SDK at `offset` with the cursor `since`. -/
def SearchIncidents.options (env : Env) (offset : Nat) (since : String) : ListIncidentsOptions :=
  { Limit := env.limit, Offset := offset, Since := since, TimeZone := "UTC" }

/-- The pagination loop of `SearchIncidents`. -/
def SearchIncidents.loop (env : Env) (b : Backend σ) (serviceQuery : String) :
    Nat → Option (List Incident) × String → Nat → World σ → Option (Ret σ (Option (List Incident)))
  | 0, _, _, _ => none
  | fuel + 1, acc, offset, w =>
    let options := SearchIncidents.options env offset acc.2
    match issue (Request.ListIncidents options) (b.ListIncidentsWithContext options) w with
    | (Except.error err, w1) => some ((none, some ("failed to list incidents: " ++ err)), w1)
    | (Except.ok response, w1) =>
      if response.Incidents.length < 1 then
        some ((acc.1, none), w1)
      else
        SearchIncidents.loop env b serviceQuery fuel
          (SearchIncidents.scan serviceQuery response.Incidents acc)
          (uintAdd offset env.increase) w1

def SearchIncidents (env : Env) (b : Backend σ) (serviceQuery : String) (timeRange : Int)
    (fuel : Nat) (w : World σ) : Option (Ret σ (Option (List Incident))) :=
  match LoadLocationUTC with
  | some err => some ((none, some ("failed to load time location: " ++ err)), w)
  | none =>
    SearchIncidents.loop env b serviceQuery fuel (none, querySince env b timeRange w) 0 w

/-- The inner `range` loop of `SearchIncidentLogs` over one page: the summary of the first
entry of the given type. -/
def SearchIncidentLogs.scan (logType : String) : List LogEntry → Option String
  | [] => none
  | logEntry :: rest =>
    if logEntry.Type_ = logType then some logEntry.Summary
    else SearchIncidentLogs.scan logType rest

/-- The loop of `SearchIncidentLogs`: `offset` is never advanced. -/
def SearchIncidentLogs.loop (env : Env) (b : Backend σ) (incidentID logType : String) :
    Nat → Nat → World σ → Option (Ret σ (Option String))
  | 0, _, _ => none
  | fuel + 1, offset, w =>
    let options : ListIncidentLogEntriesOptions :=
      { Limit := env.limit, Offset := offset, IsOverview := false }
    match issue (Request.ListIncidentLogEntries incidentID options)
        (b.ListIncidentLogEntriesWithContext incidentID options) w with
    | (Except.error err, w1) => some ((none, some ("error getting incident log: " ++ err)), w1)
    | (Except.ok incidentLog, w1) =>
      if incidentLog.LogEntries.length < 1 then
        some ((none, none), w1)
      else
        match SearchIncidentLogs.scan logType incidentLog.LogEntries with
        | some summary => some ((some summary, none), w1)
        | none => SearchIncidentLogs.loop env b incidentID logType fuel offset w1

def SearchIncidentLogs (env : Env) (b : Backend σ) (incidentID logType : String) (fuel : Nat)
    (w : World σ) : Option (Ret σ (Option String)) :=
  if TrimSpace incidentID = "" then
    some ((none, some "passed parameter 'incidentID' must be specified"), w)
  else if TrimSpace logType = "" then
    some ((none, some "passed parameter 'logType' must be specified"), w)
  else
    SearchIncidentLogs.loop env b incidentID logType fuel 0 w

/-- The inner `range` loop of `GetUsersIDsByNames` over the users listed for one name. -/
def GetUsersIDsByNames.find (env : Env) (name : String) :
    List User → Option (List String) → Option (List String)
  | [], resp => resp
  | usr :: rest, resp =>
    if EqualFold env.unicode usr.Name name then goAppend resp [usr.ID]
    else GetUsersIDsByNames.find env name rest resp

/-- The `range` loop of `GetUsersIDsByNames` over the names. -/
def GetUsersIDsByNames.loop (env : Env) (b : Backend σ) (fuel : Nat) :
    List String → Option (List String) → World σ → Option (Ret σ (Option (List String)))
  | [], resp, w => some ((resp, none), w)
  | name :: rest, resp, w =>
    match ListAllUsers env b { Query := name } fuel w with
    | none => none
    | some ((_, some err), w1) =>
      some ((some [], some ("error getting users from PagerDuty: " ++ err)), w1)
    | some ((users, none), w1) =>
      let resp1 := GetUsersIDsByNames.find env name (elems users) resp
      if (elems resp1).length > 0 then
        some ((resp1, none), w1)
      else
        GetUsersIDsByNames.loop env b fuel rest resp1 w1

def GetUsersIDsByNames (env : Env) (b : Backend σ) (names : Option (List String)) (fuel : Nat)
    (w : World σ) : Option (Ret σ (Option (List String))) :=
  match names with
  | none => some ((none, some "array of names must be defined"), w)
  | some ns =>
    if ns.length < 1 then
      some ((none, some "array of names cannot be empty"), w)
    else if hasEmptyEntry ns then
      some ((none, some "could not get user names because the passed array had empty string(s)"), w)
    else
      GetUsersIDsByNames.loop env b fuel ns none w

def UpdateEscalationPolicy (b : Backend σ) (id userID serviceID teamID : String)
    (escalation : Option (List APIObject)) (w : World σ) : Ret σ (Option EscalationPolicy) :=
  if TrimSpace id = "" then
    ((none, some "passed parameter 'id' must be specified"), w)
  else if TrimSpace userID = "" then
    ((none, some "passed parameter 'userID' must be specified"), w)
  else if escalation = none then
    ((none, some "passed parameter 'escalation' cannot be nil"), w)
  else
    let escalationPolicy : EscalationPolicy :=
      { EscalationRules := some [
          { Delay := 5, Targets := some [{ ID := userID, Type_ := "user_reference" }] },
          { Delay := 15, Targets := escalation }] }
    let escalationPolicy : EscalationPolicy :=
      if strLen serviceID > 0 then
        { escalationPolicy with Services := some [{ ID := serviceID, Type_ := "service_reference" }] }
      else escalationPolicy
    let escalationPolicy : EscalationPolicy :=
      if strLen teamID > 0 then
        { escalationPolicy with Teams := some [{ ID := teamID, Type_ := "team_reference" }] }
      else escalationPolicy
    match issue (Request.UpdateEscalationPolicy id escalationPolicy)
        (b.UpdateEscalationPolicyWithContext id escalationPolicy) w with
    | (r, w1) => (resultPair r, w1)

end client

/-! ## Backends and tables used to run the operations on concrete inputs -/

/-- The answers of a handler to requests issued one after another, starting in state `s`. -/
def answers {σ ρ α : Type} (h : ρ → σ → α × σ) : List ρ → σ → List α
  | [], _ => []
  | r :: rs, s => (h r s).1 :: answers h rs (h r s).2

/-- The collections held by a backend that serves them by offset and limit. -/
structure Store where
  onCalls : List OnCall := []
  schedules : List Schedule := []
  users : List User := []
  incidents : List Incident := []
  logEntries : List LogEntry := []
  tags : List Tag := []

/-- The page of `items` that starts at `offset` and holds at most `limit` items. -/
def page {α : Type} (items : List α) (offset limit : Nat) : List α :=
  (items.drop offset).take limit

/-- A stateless backend that serves the finite collections of a store by offset and limit;
the user listing honours the `Query` filter when one is given. -/
def pagedBackend (st : Store) : Backend Unit where
  ListOnCallsWithContext o s := (Except.ok { OnCalls := page st.onCalls o.Offset o.Limit }, s)
  ListSchedulesWithContext o s := (Except.ok { Schedules := page st.schedules o.Offset o.Limit }, s)
  ListUsersWithContext o s :=
    (Except.ok
      { Users := page (st.users.filter (fun usr => o.Query = "" || usr.Name = o.Query))
          o.Offset o.Limit }, s)
  GetUserWithContext id _ s :=
    match st.users.find? (fun usr => usr.ID = id) with
    | some usr => (Except.ok usr, s)
    | none => (Except.error "Not Found", s)
  ListOverridesWithContext _ _ s := (Except.ok {}, s)
  CreateOverrideWithContext _ o s := (Except.ok o, s)
  DeleteOverrideWithContext _ _ s := (none, s)
  ListIncidentsWithContext o s := (Except.ok { Incidents := page st.incidents o.Offset o.Limit }, s)
  CreateIncidentWithContext _ o s := (Except.ok { Title := o.Title, Urgency := o.Urgency }, s)
  ListIncidentLogEntriesWithContext _ o s :=
    (Except.ok { LogEntries := page st.logEntries o.Offset o.Limit }, s)
  UpdateEscalationPolicyWithContext id ep s := (Except.ok { ep with ID := id }, s)
  GetEscalationPoliciesByTag _ s := (Except.ok {}, s)
  ListTags o s := (Except.ok { Tags := page st.tags o.Offset o.Limit }, s)
  now _ := 0

/-- A backend whose user listing plays a script: each `ListUsers` request is answered by the
next scripted response, whatever its options, and by an empty page once the script is over.
The other methods fail. -/
def scriptedUsers : Backend (List (Except String ListUsersResponse)) where
  ListOnCallsWithContext _ s := (Except.error "unsupported", s)
  ListSchedulesWithContext _ s := (Except.error "unsupported", s)
  ListUsersWithContext _ s :=
    match s with
    | [] => (Except.ok {}, [])
    | r :: rest => (r, rest)
  GetUserWithContext _ _ s := (Except.error "unsupported", s)
  ListOverridesWithContext _ _ s := (Except.error "unsupported", s)
  CreateOverrideWithContext _ _ s := (Except.error "unsupported", s)
  DeleteOverrideWithContext _ _ s := (some "unsupported", s)
  ListIncidentsWithContext _ s := (Except.error "unsupported", s)
  CreateIncidentWithContext _ _ s := (Except.error "unsupported", s)
  ListIncidentLogEntriesWithContext _ _ s := (Except.error "unsupported", s)
  UpdateEscalationPolicyWithContext _ _ s := (Except.error "unsupported", s)
  GetEscalationPoliciesByTag _ s := (Except.error "unsupported", s)
  ListTags _ s := (Except.error "unsupported", s)
  now _ := 0

/-- Canonical pairs of the Latin-1 letters with an acute accent, a tilde or a diaeresis:
the composed rune, its base letter and its combining mark. -/
def latin1Marks : List (Char × Char × Char) :=
  [ ('á', 'a', Char.ofNat 0x301), ('é', 'e', Char.ofNat 0x301), ('í', 'i', Char.ofNat 0x301),
    ('ó', 'o', Char.ofNat 0x301), ('ú', 'u', Char.ofNat 0x301), ('É', 'E', Char.ofNat 0x301),
    ('ñ', 'n', Char.ofNat 0x303), ('ü', 'u', Char.ofNat 0x308), ('ö', 'o', Char.ofNat 0x308) ]

/-- Decomposition of one rune by `latin1Marks`. -/
def decomposeRune (r : Char) : List Char :=
  match latin1Marks.find? (fun e => e.1 = r) with
  | some e => [e.2.1, e.2.2]
  | none => [r]

/-- Composition of adjacent base letter and mark by `latin1Marks`; `pending` is the rune
read last and not yet written. -/
def composeFrom : Option Char → List Char → List Char
  | none, [] => []
  | some a, [] => [a]
  | none, r :: rest => composeFrom (some r) rest
  | some a, m :: rest =>
    match latin1Marks.find? (fun e => e.2.1 = a && e.2.2 = m) with
    | some e => e.1 :: composeFrom none rest
    | none => a :: composeFrom (some m) rest

/-- The fragment of the Unicode tables that covers ASCII and the Latin-1 letters. -/
def latin1 : Unicode where
  caseOrbit lo hi :=
    0xC0 ≤ lo.toNat && lo.toNat ≤ 0xDE && lo.toNat != 0xD7 && hi.toNat == lo.toNat + 0x20
  NFD rs := rs.flatMap decomposeRune
  Mn r := 0x300 ≤ r.toNat && r.toNat ≤ 0x36F
  NFC := composeFrom none

/-- An environment with page size and step 100. -/
def env100 : Env where
  limit := 100
  increase := 100
  pdScheduleTitlePrefix := "GSOC"
  pgGSOCTeamID := some ["P83EOFI"]
  unicode := latin1
  formatUTC t := toString t

/-- An environment with page size and step 2. -/
def env2 : Env := { env100 with limit := 2, increase := 2 }

/-- A store that holds three on-calls. -/
def threeOnCalls : Store :=
  { onCalls := [{ EscalationLevel := 1, Start := "2021-07-21T14:54:39Z" },
                { EscalationLevel := 2, Start := "2021-07-22T14:54:39Z" },
                { EscalationLevel := 3, Start := "2021-07-23T14:54:39Z" }] }

/-- A store whose incident log holds 100 trigger entries followed by one resolve entry. -/
def hundredAndOneLogEntries : Store :=
  { logEntries :=
      List.replicate 100 { Type_ := "trigger_log_entry", Summary := "Triggered through the API." }
        ++ [{ Type_ := "resolve_log_entry", Summary := "Resolved through the API." }] }

/-- A store that holds one schedule and one user. -/
def oneScheduleOneUser : Store :=
  { schedules := [{ ID := "PUHMCXV", Name := "GSOC Caleb Young TESTING", TimeZone := "America/Denver" }],
    users := [{ ID := "PWKNFGT", Name := "Timur Kalandarov" }] }

/-- The requests that the loop of `GetIndicentsByEscalationPolicy` issues from `offset` and the
state `acc` (the incidents kept so far and the cursor) when the backend answers with the
pages `pages`, and the one request that follows them. -/
def incidentRequests (env : Env) (escalationPolicyID : String) :
    List ListIncidentsResponse → Nat → Option (List Incident) × String → List ListIncidentsOptions
  | [], offset, acc => [client.GetIndicentsByEscalationPolicy.options env offset acc.2]
  | p :: ps, offset, acc =>
    client.GetIndicentsByEscalationPolicy.options env offset acc.2 ::
      incidentRequests env escalationPolicyID ps (uintAdd offset env.increase)
        (client.GetIndicentsByEscalationPolicy.scan escalationPolicyID p.Incidents acc)

/-- A store that holds three incidents, the first and the last of one escalation policy. -/
def threeIncidents : Store :=
  { incidents := [
      { ID := "Q3XZW6AK6GZ3TZ", CreatedAt := "2022-09-06T03:00:15Z",
        EscalationPolicy := { ID := "PXYKJ4K" } },
      { ID := "Q0FDXK79NN127I", CreatedAt := "2022-09-06T03:04:51Z",
        EscalationPolicy := { ID := "P23N6LT" } },
      { ID := "Q0HV1FERSUO36A", CreatedAt := "2022-09-06T03:18:04Z",
        EscalationPolicy := { ID := "PXYKJ4K" } }] }

/-- A store that holds three schedules; only the name of the third one is the title sought
for `Caleb Young`, in another case. -/
def threeSchedules : Store :=
  { schedules := [
      { ID := "P10QVCS", Name := "GSOC Caleb Young TESTING", TimeZone := "America/New_York" },
      { ID := "PUY4P9O", Name := "Caleb Young", TimeZone := "America/Chicago" },
      { ID := "PUHMCXV", Name := "gsoc caleb young", TimeZone := "America/Denver" }] }

/-- The requests that the loop of `SearchIncidents` issues from `offset` and the state `acc`
(the incidents kept so far and the cursor) when the backend answers with the pages `pages`,
and the one request that follows them. -/
def searchRequests (env : Env) (serviceQuery : String) :
    List ListIncidentsResponse → Nat → Option (List Incident) × String → List ListIncidentsOptions
  | [], offset, acc => [client.SearchIncidents.options env offset acc.2]
  | p :: ps, offset, acc =>
    client.SearchIncidents.options env offset acc.2 ::
      searchRequests env serviceQuery ps (uintAdd offset env.increase)
        (client.SearchIncidents.scan serviceQuery p.Incidents acc)

/-- A store that holds three incidents of three services; the summaries of the first and of
the last service contain `Ad Server`. -/
def incidentsOfThreeServices : Store :=
  { incidents := [
      { ID := "Q3XZW6AK6GZ3TZ", CreatedAt := "2022-09-06T03:00:15Z",
        Service := { ID := "P03NRF0", Summary := "Ad Server" } },
      { ID := "Q0FDXK79NN127I", CreatedAt := "2022-09-06T03:04:51Z",
        Service := { ID := "P39MEWZ", Summary := "Browser Grid" } },
      { ID := "Q0HV1FERSUO36A", CreatedAt := "2022-09-06T03:18:04Z",
        Service := { ID := "PGPQHZF", Summary := "Staging Ad Server" } }] }

/-- A backend that serves the collections of a store as `pagedBackend` does, counts the
requests it has answered, and answers with the error `e` from request number `n` on
(counted from 0). -/
def failingAfter (st : Store) (n : Nat) (e : String) : Backend Nat where
  ListOnCallsWithContext o s :=
    (if s < n then ((pagedBackend st).ListOnCallsWithContext o ()).1 else Except.error e, s + 1)
  ListSchedulesWithContext o s :=
    (if s < n then ((pagedBackend st).ListSchedulesWithContext o ()).1 else Except.error e, s + 1)
  ListUsersWithContext o s :=
    (if s < n then ((pagedBackend st).ListUsersWithContext o ()).1 else Except.error e, s + 1)
  GetUserWithContext id o s :=
    (if s < n then ((pagedBackend st).GetUserWithContext id o ()).1 else Except.error e, s + 1)
  ListOverridesWithContext id o s :=
    (if s < n then ((pagedBackend st).ListOverridesWithContext id o ()).1 else Except.error e,
      s + 1)
  CreateOverrideWithContext id o s :=
    (if s < n then ((pagedBackend st).CreateOverrideWithContext id o ()).1 else Except.error e,
      s + 1)
  DeleteOverrideWithContext id o s :=
    (if s < n then ((pagedBackend st).DeleteOverrideWithContext id o ()).1 else some e, s + 1)
  ListIncidentsWithContext o s :=
    (if s < n then ((pagedBackend st).ListIncidentsWithContext o ()).1 else Except.error e, s + 1)
  CreateIncidentWithContext sender o s :=
    (if s < n then ((pagedBackend st).CreateIncidentWithContext sender o ()).1
      else Except.error e, s + 1)
  ListIncidentLogEntriesWithContext id o s :=
    (if s < n then ((pagedBackend st).ListIncidentLogEntriesWithContext id o ()).1
      else Except.error e, s + 1)
  UpdateEscalationPolicyWithContext id ep s :=
    (if s < n then ((pagedBackend st).UpdateEscalationPolicyWithContext id ep ()).1
      else Except.error e, s + 1)
  GetEscalationPoliciesByTag id s :=
    (if s < n then ((pagedBackend st).GetEscalationPoliciesByTag id ()).1 else Except.error e,
      s + 1)
  ListTags o s :=
    (if s < n then ((pagedBackend st).ListTags o ()).1 else Except.error e, s + 1)
  now _ := 0

/-- The error `err` is not nil and its message contains the text `param`. -/
def mentions (err : Option String) (param : String) : Bool :=
  match err with
  | some msg => Contains msg param
  | none => false

/-- The world before any request. -/
def World.start {σ : Type} (s : σ) : World σ := { state := s, trace := [] }

/-! ## Basic facts -/

theorem TrimSpace_eq_empty_iff (s : String) : TrimSpace s = "" ↔ Blank s := by
  unfold TrimSpace Blank
  constructor
  · intro h
    have h1 : ((s.data.dropWhile IsSpace).reverse.dropWhile IsSpace).reverse = [] :=
      congrArg String.data h
    have h2 : (s.data.dropWhile IsSpace).reverse.dropWhile IsSpace = [] := by
      simpa using h1
    by_contra hne
    have h3 : s.data.dropWhile IsSpace ≠ [] := by
      intro h4
      exact hne (List.dropWhile_eq_nil_iff.mp h4)
    obtain ⟨c, cs, hc⟩ := List.exists_cons_of_ne_nil h3
    have h5 : IsSpace c = false := by
      have := List.head_dropWhile_not IsSpace s.data h3
      simpa [hc] using this
    have h6 : ∀ x ∈ (s.data.dropWhile IsSpace).reverse, IsSpace x = true :=
      List.dropWhile_eq_nil_iff.mp h2
    have h7 := h6 c (by simp [hc])
    simp [h5] at h7
  · intro h
    have h1 : s.data.dropWhile IsSpace = [] := List.dropWhile_eq_nil_iff.mpr h
    simp [h1]

theorem strLen_eq_zero_iff (s : String) : strLen s = 0 ↔ s = "" := by
  unfold strLen
  cases s with
  | mk l =>
    cases l with
    | nil => simp [String.utf8ByteSize, String.utf8ByteSize.go]
    | cons c cs =>
      simp only [String.utf8ByteSize, String.utf8ByteSize.go]
      have := Char.utf8Size_pos c
      constructor
      · intro h; omega
      · intro h; exact absurd (congrArg String.data h) (by simp)

theorem strLen_pos_iff (s : String) : strLen s > 0 ↔ s ≠ "" := by
  rw [gt_iff_lt, Nat.pos_iff_ne_zero, Ne, strLen_eq_zero_iff]

theorem hasEmptyEntry_iff (xs : List String) :
    hasEmptyEntry xs = true ↔ ∃ x ∈ xs, Blank x := by
  unfold hasEmptyEntry
  simp [strLen_eq_zero_iff, TrimSpace_eq_empty_iff]

theorem elems_goAppend {α : Type} (s : Option (List α)) (xs : List α) :
    elems (goAppend s xs) = elems s ++ xs := by
  cases xs with
  | nil => simp [goAppend, elems]
  | cons x rest => simp [goAppend, elems]

/-! ## C1: a blank required string is rejected by both clients -/

/-- C1. For the fake client and for the real client, and for every required string
parameter of the interface: when that argument `x` is the empty string or consists only of
white space, the operation returns a non-nil error together with a nil (zero) result,
whatever the other arguments, the backend, its state and the fuel are. -/
theorem blank_required_string_rejected (x : String) (hx : Blank x) :
    -- the fake client
    ((∃ e, FakePDClient.GetScheduleIDbyName x = ("", "", some e)) ∧
     (∃ e, FakePDClient.GetUserIDbyName x = ("", some e)) ∧
     (∀ o, ∃ e, FakePDClient.GetUserByID x o = (none, some e)) ∧
     (∀ a c f, ∃ e, FakePDClient.GetOverrides x a c f = (none, some e)) ∧
     (∀ a c f, ∃ e, FakePDClient.GetOverrides a x c f = (none, some e)) ∧
     (∀ a c f, ∃ e, FakePDClient.GetOverrides a c x f = (none, some e)) ∧
     (∀ a c d, ∃ e, FakePDClient.CreateOverride x a c d = (none, some e)) ∧
     (∀ a c d, ∃ e, FakePDClient.CreateOverride a x c d = (none, some e)) ∧
     (∀ a c d, ∃ e, FakePDClient.CreateOverride a c x d = (none, some e)) ∧
     (∀ a c d, ∃ e, FakePDClient.CreateOverride a c d x = (none, some e)) ∧
     (∀ a, ∃ e, FakePDClient.RemoveOverride x a = some e) ∧
     (∀ a, ∃ e, FakePDClient.RemoveOverride a x = some e) ∧
     (∀ t, ∃ e, FakePDClient.GetIndicentsByEscalationPolicy x t = (none, some e)) ∧
     (∀ t, ∃ e, FakePDClient.GetIndicentsByTag x t = (none, some e)) ∧
     (∀ a c d g, ∃ e, FakePDClient.CreateIncident x a c d g = (none, some e)) ∧
     (∀ a c d g, ∃ e, FakePDClient.CreateIncident a x c d g = (none, some e)) ∧
     (∀ a, ∃ e, FakePDClient.SearchIncidentLogs x a = (none, some e)) ∧
     (∀ a, ∃ e, FakePDClient.SearchIncidentLogs a x = (none, some e)) ∧
     (∃ e, FakePDClient.GetEscalationPoliciesByTag x = (none, some e)) ∧
     (∀ a c d l, ∃ e, FakePDClient.UpdateEscalationPolicy x a c d l = (none, some e)) ∧
     (∀ a c d l, ∃ e, FakePDClient.UpdateEscalationPolicy a x c d l = (none, some e))) ∧
    -- the real client
    (∀ (σ : Type) (env : Env) (b : Backend σ) (fuel : Nat) (w : World σ),
     (∃ e w1, client.GetScheduleIDbyName env b x fuel w = some (("", "", some e), w1)) ∧
     (∃ e w1, client.GetUserIDbyName env b x fuel w = some (("", some e), w1)) ∧
     (∀ o, ∃ e w1, client.GetUserByID b x o w = ((none, some e), w1)) ∧
     (∀ a c f, ∃ e w1, client.GetOverrides b x a c f w = ((none, some e), w1)) ∧
     (∀ a c f, ∃ e w1, client.GetOverrides b a x c f w = ((none, some e), w1)) ∧
     (∀ a c f, ∃ e w1, client.GetOverrides b a c x f w = ((none, some e), w1)) ∧
     (∀ a c d, ∃ e w1, client.CreateOverride b x a c d w = ((none, some e), w1)) ∧
     (∀ a c d, ∃ e w1, client.CreateOverride b a x c d w = ((none, some e), w1)) ∧
     (∀ a c d, ∃ e w1, client.CreateOverride b a c x d w = ((none, some e), w1)) ∧
     (∀ a c d, ∃ e w1, client.CreateOverride b a c d x w = ((none, some e), w1)) ∧
     (∀ a, ∃ e w1, client.RemoveOverride b x a w = (some e, w1)) ∧
     (∀ a, ∃ e w1, client.RemoveOverride b a x w = (some e, w1)) ∧
     (∀ t, ∃ e w1,
        client.GetIndicentsByEscalationPolicy env b x t fuel w = some ((none, some e), w1)) ∧
     (∀ t, ∃ e w1,
        client.GetIndicentsByTag env b x t fuel w = some (Outcome.returned (none, some e), w1)) ∧
     (∀ a c d g, ∃ e w1, client.CreateIncident b x a c d g w = ((none, some e), w1)) ∧
     (∀ a c d g, ∃ e w1, client.CreateIncident b a x c d g w = ((none, some e), w1)) ∧
     (∀ a, ∃ e w1, client.SearchIncidentLogs env b x a fuel w = some ((none, some e), w1)) ∧
     (∀ a, ∃ e w1, client.SearchIncidentLogs env b a x fuel w = some ((none, some e), w1)) ∧
     (∃ e w1, client.GetEscalationPoliciesByTag b x w = ((none, some e), w1)) ∧
     (∀ a c d l, ∃ e w1, client.UpdateEscalationPolicy b x a c d l w = ((none, some e), w1)) ∧
     (∀ a c d l, ∃ e w1, client.UpdateEscalationPolicy b a x c d l w = ((none, some e), w1))) := by
  have h : TrimSpace x = "" := (TrimSpace_eq_empty_iff x).mpr hx
  refine ⟨⟨?_, ?_, ?_, ?_, ?_, ?_, ?_, ?_, ?_, ?_, ?_, ?_, ?_, ?_, ?_, ?_, ?_, ?_, ?_, ?_, ?_⟩, ?_⟩
  · simp [FakePDClient.GetScheduleIDbyName, h]
  · simp [FakePDClient.GetUserIDbyName, h]
  · simp [FakePDClient.GetUserByID, h]
  · simp [FakePDClient.GetOverrides, h]
  · intro a c f; unfold FakePDClient.GetOverrides; split_ifs <;> simp_all
  · intro a c f; unfold FakePDClient.GetOverrides; split_ifs <;> simp_all
  · simp [FakePDClient.CreateOverride, h]
  · intro a c d; unfold FakePDClient.CreateOverride; split_ifs <;> simp_all
  · intro a c d; unfold FakePDClient.CreateOverride; split_ifs <;> simp_all
  · intro a c d; unfold FakePDClient.CreateOverride; split_ifs <;> simp_all
  · simp [FakePDClient.RemoveOverride, h]
  · intro a; unfold FakePDClient.RemoveOverride; split_ifs <;> simp_all
  · simp [FakePDClient.GetIndicentsByEscalationPolicy, h]
  · simp [FakePDClient.GetIndicentsByTag, h]
  · simp [FakePDClient.CreateIncident, h]
  · intro a c d g; unfold FakePDClient.CreateIncident; split_ifs <;> simp_all
  · simp [FakePDClient.SearchIncidentLogs, h]
  · intro a; unfold FakePDClient.SearchIncidentLogs; split_ifs <;> simp_all
  · simp [FakePDClient.GetEscalationPoliciesByTag, h]
  · simp [FakePDClient.UpdateEscalationPolicy, h]
  · intro a c d l; unfold FakePDClient.UpdateEscalationPolicy; split_ifs <;> simp_all
  · intro σ env b fuel w
    refine ⟨?_, ?_, ?_, ?_, ?_, ?_, ?_, ?_, ?_, ?_, ?_, ?_, ?_, ?_, ?_, ?_, ?_, ?_, ?_, ?_, ?_⟩
    · simp [client.GetScheduleIDbyName, h]
    · simp [client.GetUserIDbyName, h]
    · simp [client.GetUserByID, h]
    · simp [client.GetOverrides, h]
    · intro a c f; unfold client.GetOverrides; split_ifs <;> simp_all
    · intro a c f; unfold client.GetOverrides; split_ifs <;> simp_all
    · simp [client.CreateOverride, h]
    · intro a c d; unfold client.CreateOverride; split_ifs <;> simp_all
    · intro a c d; unfold client.CreateOverride; split_ifs <;> simp_all
    · intro a c d; unfold client.CreateOverride; split_ifs <;> simp_all
    · simp [client.RemoveOverride, h]
    · intro a; unfold client.RemoveOverride; split_ifs <;> simp_all
    · simp [client.GetIndicentsByEscalationPolicy, h]
    · simp [client.GetIndicentsByTag, h]
    · simp [client.CreateIncident, h]
    · intro a c d g; unfold client.CreateIncident; split_ifs <;> simp_all
    · simp [client.SearchIncidentLogs, h]
    · intro a; unfold client.SearchIncidentLogs; split_ifs <;> simp_all
    · simp [client.GetEscalationPoliciesByTag, h]
    · simp [client.UpdateEscalationPolicy, h]
    · intro a c d l; unfold client.UpdateEscalationPolicy; split_ifs <;> simp_all

/-- C1 at the five-blank identifier of the unit tests: the fake and the real `GetUserByID`
both reject it. -/
theorem blank_required_string_rejected_witness :
    Blank "     " ∧
    (∃ e, FakePDClient.GetUserByID "     " {} = (none, some e)) ∧
    (∃ e w1, client.GetUserByID (pagedBackend {}) "     " {} (World.start ()) =
      ((none, some e), w1)) :=
  ⟨by decide,
   (blank_required_string_rejected "     " (by decide)).1.2.2.1 {},
   ((blank_required_string_rejected "     " (by decide)).2 Unit env100 (pagedBackend {}) 0
      (World.start ())).2.2.1 {}⟩

/-! ## C2: the fake `GetOnCallsByScheduleIDs` -/

/-- C2. The fake `GetOnCallsByScheduleIDs` returns a non-nil error if and only if
`scheduleIDs` is nil, is empty, or has an entry that is empty or white space only; for every
other list it returns a nil error together with the fixed list of one on-call, the same for
all identifiers. -/
theorem fake_GetOnCallsByScheduleIDs_error_iff (scheduleIDs : Option (List String)) :
    ((FakePDClient.GetOnCallsByScheduleIDs scheduleIDs).2 ≠ none ↔
      (scheduleIDs = none ∨ scheduleIDs = some [] ∨
        ∃ ids, scheduleIDs = some ids ∧ ∃ x ∈ ids, Blank x)) ∧
    ((FakePDClient.GetOnCallsByScheduleIDs scheduleIDs).2 ≠ none ∨
      FakePDClient.GetOnCallsByScheduleIDs scheduleIDs =
        (some [{ User := getFakedUser, Schedule := getFakedSchedule,
                 EscalationPolicy := getFakedEscalationPolicy, EscalationLevel := 1,
                 Start := "2021-07-21T14:54:39Z", End := "2022-12-30T14:04:11Z" }], none)) := by
  cases scheduleIDs with
  | none => simp [FakePDClient.GetOnCallsByScheduleIDs]
  | some ids =>
    cases ids with
    | nil => simp [FakePDClient.GetOnCallsByScheduleIDs]
    | cons y ys =>
      by_cases hb : hasEmptyEntry (y :: ys) = true
      · have hb1 := (hasEmptyEntry_iff (y :: ys)).mp hb
        simp [FakePDClient.GetOnCallsByScheduleIDs, hb]
        simpa using hb1
      · have hb1 : ¬ ∃ x ∈ y :: ys, Blank x := fun h => hb ((hasEmptyEntry_iff (y :: ys)).mpr h)
        simp only [Bool.not_eq_true] at hb
        simp [FakePDClient.GetOnCallsByScheduleIDs, hb, getFakedOnCalls]
        simpa using hb1

/-! ## Every pagination loop issues a request before it returns -/

theorem issue_trace {σ α : Type} (req : Request) (h : σ → α × σ) (w : World σ) :
    (issue req h w).2.trace = w.trace ++ [req] := rfl

theorem issue_fst {σ α : Type} (req : Request) (h : σ → α × σ) (w : World σ) :
    (issue req h w).1 = (h w.state).1 := rfl

theorem issue_state {σ α : Type} (req : Request) (h : σ → α × σ) (w : World σ) :
    (issue req h w).2.state = (h w.state).2 := rfl

theorem issue_trace_length {σ α : Type} {req : Request} {h : σ → α × σ} {w w2 : World σ}
    {a : α} (hi : issue req h w = (a, w2)) : w2.trace.length = w.trace.length + 1 := by
  have := congrArg (fun p => p.2.trace.length) hi
  simpa [issue] using this.symm

theorem GetOnCallsByScheduleIDs_loop_trace {σ : Type} (env : Env) (b : Backend σ)
    (ids : Option (List String)) :
    ∀ (fuel : Nat) (acc : Option (List OnCall)) (off : Nat)
      (w : World σ) (r : Option (List OnCall) × Option String) (w1 : World σ),
      client.GetOnCallsByScheduleIDs.loop env b ids fuel acc off w = some (r, w1) →
      w.trace.length < w1.trace.length := by
  intro fuel
  induction fuel with
  | zero => intro acc off w r w1 h; simp [client.GetOnCallsByScheduleIDs.loop] at h
  | succ n ih =>
    intro acc off w r w1 h
    simp only [client.GetOnCallsByScheduleIDs.loop] at h
    split at h
    · rename_i err w2 hi
      have hl := issue_trace_length hi
      simp only [Option.some.injEq, Prod.mk.injEq] at h
      obtain ⟨_, rfl⟩ := h
      omega
    · rename_i response w2 hi
      have hl := issue_trace_length hi
      split_ifs at h
      · simp only [Option.some.injEq, Prod.mk.injEq] at h
        obtain ⟨_, rfl⟩ := h
        omega
      · have := ih _ _ _ _ _ h
        omega

theorem ListAllUsers_loop_trace {σ : Type} (env : Env) (b : Backend σ)
    (o : ListUsersOptions) :
    ∀ (fuel : Nat) (acc : Option (List User)) (off : Nat)
      (w : World σ) (r : Option (List User) × Option String) (w1 : World σ),
      client.ListAllUsers.loop env b o fuel acc off w = some (r, w1) →
      w.trace.length < w1.trace.length := by
  intro fuel
  induction fuel with
  | zero => intro acc off w r w1 h; simp [client.ListAllUsers.loop] at h
  | succ n ih =>
    intro acc off w r w1 h
    simp only [client.ListAllUsers.loop] at h
    split at h
    · rename_i err w2 hi
      have hl := issue_trace_length hi
      simp only [Option.some.injEq, Prod.mk.injEq] at h
      obtain ⟨_, rfl⟩ := h
      omega
    · rename_i response w2 hi
      have hl := issue_trace_length hi
      split_ifs at h
      · simp only [Option.some.injEq, Prod.mk.injEq] at h
        obtain ⟨_, rfl⟩ := h
        omega
      · have := ih _ _ _ _ _ h
        omega

theorem ListAllTags_loop_trace {σ : Type} (env : Env) (b : Backend σ)
    (o : ListTagOptions) :
    ∀ (fuel : Nat) (acc : Option (List Tag)) (off : Nat)
      (w : World σ) (r : Option (List Tag) × Option String) (w1 : World σ),
      client.ListAllTags.loop env b o fuel acc off w = some (r, w1) →
      w.trace.length < w1.trace.length := by
  intro fuel
  induction fuel with
  | zero => intro acc off w r w1 h; simp [client.ListAllTags.loop] at h
  | succ n ih =>
    intro acc off w r w1 h
    simp only [client.ListAllTags.loop] at h
    split at h
    · rename_i err w2 hi
      have hl := issue_trace_length hi
      simp only [Option.some.injEq, Prod.mk.injEq] at h
      obtain ⟨_, rfl⟩ := h
      omega
    · rename_i response w2 hi
      have hl := issue_trace_length hi
      split_ifs at h
      · simp only [Option.some.injEq, Prod.mk.injEq] at h
        obtain ⟨_, rfl⟩ := h
        omega
      · have := ih _ _ _ _ _ h
        omega

theorem GetIndicentsByEscalationPolicy_loop_trace {σ : Type} (env : Env) (b : Backend σ)
    (id : String) :
    ∀ (fuel : Nat) (acc : Option (List Incident) × String) (off : Nat)
      (w : World σ) (r : Option (List Incident) × Option String) (w1 : World σ),
      client.GetIndicentsByEscalationPolicy.loop env b id fuel acc off w = some (r, w1) →
      w.trace.length < w1.trace.length := by
  intro fuel
  induction fuel with
  | zero => intro acc off w r w1 h; simp [client.GetIndicentsByEscalationPolicy.loop] at h
  | succ n ih =>
    intro acc off w r w1 h
    simp only [client.GetIndicentsByEscalationPolicy.loop] at h
    split at h
    · rename_i err w2 hi
      have hl := issue_trace_length hi
      simp only [Option.some.injEq, Prod.mk.injEq] at h
      obtain ⟨_, rfl⟩ := h
      omega
    · rename_i response w2 hi
      have hl := issue_trace_length hi
      split_ifs at h
      · simp only [Option.some.injEq, Prod.mk.injEq] at h
        obtain ⟨_, rfl⟩ := h
        omega
      · have := ih _ _ _ _ _ h
        omega

theorem SearchIncidents_loop_trace {σ : Type} (env : Env) (b : Backend σ)
    (q : String) :
    ∀ (fuel : Nat) (acc : Option (List Incident) × String) (off : Nat)
      (w : World σ) (r : Option (List Incident) × Option String) (w1 : World σ),
      client.SearchIncidents.loop env b q fuel acc off w = some (r, w1) →
      w.trace.length < w1.trace.length := by
  intro fuel
  induction fuel with
  | zero => intro acc off w r w1 h; simp [client.SearchIncidents.loop] at h
  | succ n ih =>
    intro acc off w r w1 h
    simp only [client.SearchIncidents.loop] at h
    split at h
    · rename_i err w2 hi
      have hl := issue_trace_length hi
      simp only [Option.some.injEq, Prod.mk.injEq] at h
      obtain ⟨_, rfl⟩ := h
      omega
    · rename_i response w2 hi
      have hl := issue_trace_length hi
      split_ifs at h
      · simp only [Option.some.injEq, Prod.mk.injEq] at h
        obtain ⟨_, rfl⟩ := h
        omega
      · have := ih _ _ _ _ _ h
        omega

theorem GetScheduleIDbyName_loop_trace {σ : Type} (env : Env) (b : Backend σ)
    (name : String) :
    ∀ (fuel : Nat) (acc : String × String) (off : Nat)
      (w : World σ) (r : String × String × Option String) (w1 : World σ),
      client.GetScheduleIDbyName.loop env b name fuel acc off w = some (r, w1) →
      w.trace.length < w1.trace.length := by
  intro fuel
  induction fuel with
  | zero => intro acc off w r w1 h; simp [client.GetScheduleIDbyName.loop] at h
  | succ n ih =>
    intro acc off w r w1 h
    simp only [client.GetScheduleIDbyName.loop] at h
    split at h
    · rename_i err w2 hi
      have hl := issue_trace_length hi
      simp only [Option.some.injEq, Prod.mk.injEq] at h
      obtain ⟨_, rfl⟩ := h
      omega
    · rename_i response w2 hi
      have hl := issue_trace_length hi
      split_ifs at h
      · simp only [Option.some.injEq, Prod.mk.injEq] at h
        obtain ⟨_, rfl⟩ := h
        omega
      · simp only [Option.some.injEq, Prod.mk.injEq] at h
        obtain ⟨_, rfl⟩ := h
        omega
      · have := ih _ _ _ _ _ h
        omega

theorem GetUserIDbyName_loop_trace {σ : Type} (env : Env) (b : Backend σ)
    (name : String) :
    ∀ (fuel : Nat) (acc : String) (off : Nat)
      (w : World σ) (r : String × Option String) (w1 : World σ),
      client.GetUserIDbyName.loop env b name fuel acc off w = some (r, w1) →
      w.trace.length < w1.trace.length := by
  intro fuel
  induction fuel with
  | zero => intro acc off w r w1 h; simp [client.GetUserIDbyName.loop] at h
  | succ n ih =>
    intro acc off w r w1 h
    simp only [client.GetUserIDbyName.loop] at h
    split at h
    · rename_i err w2 hi
      have hl := issue_trace_length hi
      simp only [Option.some.injEq, Prod.mk.injEq] at h
      obtain ⟨_, rfl⟩ := h
      omega
    · rename_i response w2 hi
      have hl := issue_trace_length hi
      split_ifs at h
      · simp only [Option.some.injEq, Prod.mk.injEq] at h
        obtain ⟨_, rfl⟩ := h
        omega
      · split at h
        · simp only [Option.some.injEq, Prod.mk.injEq] at h
          obtain ⟨_, rfl⟩ := h
          omega
        · split_ifs at h
          · simp only [Option.some.injEq, Prod.mk.injEq] at h
            obtain ⟨_, rfl⟩ := h
            omega
          · have := ih _ _ _ _ _ h
            omega

theorem SearchIncidentLogs_loop_trace {σ : Type} (env : Env) (b : Backend σ)
    (incidentID logType : String) :
    ∀ (fuel : Nat) (off : Nat)
      (w : World σ) (r : Option String × Option String) (w1 : World σ),
      client.SearchIncidentLogs.loop env b incidentID logType fuel off w = some (r, w1) →
      w.trace.length < w1.trace.length := by
  intro fuel
  induction fuel with
  | zero => intro off w r w1 h; simp [client.SearchIncidentLogs.loop] at h
  | succ n ih =>
    intro off w r w1 h
    simp only [client.SearchIncidentLogs.loop] at h
    split at h
    · rename_i err w2 hi
      have hl := issue_trace_length hi
      simp only [Option.some.injEq, Prod.mk.injEq] at h
      obtain ⟨_, rfl⟩ := h
      omega
    · rename_i response w2 hi
      have hl := issue_trace_length hi
      split_ifs at h
      · simp only [Option.some.injEq, Prod.mk.injEq] at h
        obtain ⟨_, rfl⟩ := h
        omega
      · split at h
        · simp only [Option.some.injEq, Prod.mk.injEq] at h
          obtain ⟨_, rfl⟩ := h
          omega
        · have := ih _ _ _ _ h
          omega

theorem ListAllUsers_trace {σ : Type} {env : Env} {b : Backend σ} {o : ListUsersOptions}
    {fuel : Nat} {w w1 : World σ} {r : Option (List User) × Option String}
    (h : client.ListAllUsers env b o fuel w = some (r, w1)) :
    w.trace.length < w1.trace.length :=
  ListAllUsers_loop_trace env b _ fuel none 0 w r w1 h

theorem ListAllTags_trace {σ : Type} {env : Env} {b : Backend σ} {o : ListTagOptions}
    {fuel : Nat} {w w1 : World σ} {r : Option (List Tag) × Option String}
    (h : client.ListAllTags env b o fuel w = some (r, w1)) :
    w.trace.length < w1.trace.length :=
  ListAllTags_loop_trace env b _ fuel none 0 w r w1 h

/-! ## The fake validates as the real adapter does, operation by operation -/

theorem GetOnCallsByScheduleIDs_same_validation {σ : Type} (env : Env) (b : Backend σ)
    (fuel : Nat) (w : World σ) (msg : String) (ids : Option (List String)) :
    (FakePDClient.GetOnCallsByScheduleIDs ids).2 = some msg ↔
      ∃ r w1, client.GetOnCallsByScheduleIDs env b ids fuel w = some ((r, some msg), w1) ∧
        w1.trace = w.trace := by
  unfold FakePDClient.GetOnCallsByScheduleIDs client.GetOnCallsByScheduleIDs
  cases ids with
  | none =>
    constructor
    · intro h
      simp only [Option.some.injEq] at h
      subst h
      exact ⟨_, _, rfl, rfl⟩
    · rintro ⟨r, w1, h, -⟩
      simp only [Option.some.injEq, Prod.mk.injEq] at h
      simp [h.1.2]
  | some l =>
    simp only
    split_ifs
    · constructor
      · intro h
        simp only [Option.some.injEq] at h
        subst h
        exact ⟨_, _, rfl, rfl⟩
      · rintro ⟨r, w1, h, -⟩
        simp only [Option.some.injEq, Prod.mk.injEq] at h
        simp [h.1.2]
    · constructor
      · intro h
        simp only [Option.some.injEq] at h
        subst h
        exact ⟨_, _, rfl, rfl⟩
      · rintro ⟨r, w1, h, -⟩
        simp only [Option.some.injEq, Prod.mk.injEq] at h
        simp [h.1.2]
    · simp only [reduceCtorEq, false_iff, not_exists, not_and]
      intro r w1 h ht
      have := GetOnCallsByScheduleIDs_loop_trace env b _ _ _ _ _ _ _ h
      rw [ht] at this
      omega

theorem GetOnCallsWithOptions_same_validation {σ : Type} (b : Backend σ)
    (w : World σ) (msg : String) (o : Option ListOnCallOptions) :
    (FakePDClient.GetOnCallsWithOptions o).2 = some msg ↔
      ∃ r w1, client.GetOnCallsWithOptions b o w = (Outcome.returned (r, some msg), w1) ∧
        w1.trace = w.trace := by
  unfold FakePDClient.GetOnCallsWithOptions client.GetOnCallsWithOptions
  simp only [reduceCtorEq, false_iff, not_exists, not_and]
  intro r w1 h ht
  cases o with
  | none => simp at h
  | some o1 =>
    simp only [Prod.mk.injEq] at h
    obtain ⟨_, rfl⟩ := h
    simp [issue] at ht

theorem ListAllUsers_same_validation {σ : Type} (env : Env) (b : Backend σ)
    (fuel : Nat) (w : World σ) (msg : String) (o : ListUsersOptions) :
    (FakePDClient.ListAllUsers o).2 = some msg ↔
      ∃ r w1, client.ListAllUsers env b o fuel w = some ((r, some msg), w1) ∧
        w1.trace = w.trace := by
  unfold FakePDClient.ListAllUsers
  simp only [reduceCtorEq, false_iff, not_exists, not_and]
  intro r w1 h ht
  have := ListAllUsers_trace h
  rw [ht] at this
  omega

theorem ListAllTags_same_validation {σ : Type} (env : Env) (b : Backend σ)
    (fuel : Nat) (w : World σ) (msg : String) (o : ListTagOptions) :
    (FakePDClient.ListAllTags o).2 = some msg ↔
      ∃ r w1, client.ListAllTags env b o fuel w = some ((r, some msg), w1) ∧
        w1.trace = w.trace := by
  unfold FakePDClient.ListAllTags
  simp only [reduceCtorEq, false_iff, not_exists, not_and]
  intro r w1 h ht
  have := ListAllTags_trace h
  rw [ht] at this
  omega

theorem GetUserByID_same_validation {σ : Type} (b : Backend σ)
    (w : World σ) (msg : String) (id : String) (o : GetUserOptions) :
    (FakePDClient.GetUserByID id o).2 = some msg ↔
      ∃ r w1, client.GetUserByID b id o w = ((r, some msg), w1) ∧ w1.trace = w.trace := by
  unfold FakePDClient.GetUserByID client.GetUserByID
  split_ifs
  · constructor
    · intro h
      simp only [Option.some.injEq] at h
      subst h
      exact ⟨_, _, rfl, rfl⟩
    · rintro ⟨r, w1, h, -⟩
      simp only [Option.some.injEq, Prod.mk.injEq] at h
      simp [h.1.2]
  · simp only [reduceCtorEq, false_iff, not_exists, not_and]
    intro r w1 h ht
    split at h <;>
    · rename_i hi
      have hl := issue_trace_length hi
      simp only [Prod.mk.injEq] at h
      obtain ⟨_, rfl⟩ := h
      rw [ht] at hl
      omega

theorem GetUserIDbyName_same_validation {σ : Type} (env : Env) (b : Backend σ)
    (fuel : Nat) (w : World σ) (msg : String) (name : String) :
    (FakePDClient.GetUserIDbyName name).2 = some msg ↔
      ∃ r w1, client.GetUserIDbyName env b name fuel w = some ((r, some msg), w1) ∧
        w1.trace = w.trace := by
  unfold FakePDClient.GetUserIDbyName client.GetUserIDbyName
  split_ifs
  · constructor
    · intro h
      simp only [Option.some.injEq] at h
      subst h
      exact ⟨_, _, rfl, rfl⟩
    · rintro ⟨r, w1, h, -⟩
      simp only [Option.some.injEq, Prod.mk.injEq] at h
      simp [h.1.2]
  · simp only [reduceCtorEq, false_iff, not_exists, not_and]
    intro r w1 h ht
    have := GetUserIDbyName_loop_trace env b _ _ _ _ _ _ _ h
    rw [ht] at this
    omega

theorem GetScheduleIDbyName_same_validation {σ : Type} (env : Env) (b : Backend σ)
    (fuel : Nat) (w : World σ) (msg : String) (name : String) :
    (FakePDClient.GetScheduleIDbyName name).2.2 = some msg ↔
      ∃ r t w1, client.GetScheduleIDbyName env b name fuel w = some ((r, t, some msg), w1) ∧
        w1.trace = w.trace := by
  unfold FakePDClient.GetScheduleIDbyName client.GetScheduleIDbyName
  split_ifs
  · constructor
    · intro h
      simp only [Option.some.injEq] at h
      subst h
      exact ⟨_, _, _, rfl, rfl⟩
    · rintro ⟨r, t, w1, h, -⟩
      simp only [Option.some.injEq, Prod.mk.injEq] at h
      simp [h.1.2.2]
  · simp only [reduceCtorEq, false_iff, not_exists, not_and]
    intro r t w1 h ht
    have := GetScheduleIDbyName_loop_trace env b _ _ _ _ _ _ _ h
    rw [ht] at this
    omega

theorem GetOverrides_same_validation {σ : Type} (b : Backend σ)
    (w : World σ) (msg : String) (scheduleID since until_ : String) (f : Bool) :
    (FakePDClient.GetOverrides scheduleID since until_ f).2 = some msg ↔
      ∃ r w1, client.GetOverrides b scheduleID since until_ f w = ((r, some msg), w1) ∧
        w1.trace = w.trace := by
  unfold FakePDClient.GetOverrides client.GetOverrides
  split_ifs
  · constructor
    · intro h
      simp only [Option.some.injEq] at h
      subst h
      exact ⟨_, _, rfl, rfl⟩
    · rintro ⟨r, w1, h, -⟩
      simp only [Option.some.injEq, Prod.mk.injEq] at h
      simp [h.1.2]
  · constructor
    · intro h
      simp only [Option.some.injEq] at h
      subst h
      exact ⟨_, _, rfl, rfl⟩
    · rintro ⟨r, w1, h, -⟩
      simp only [Option.some.injEq, Prod.mk.injEq] at h
      simp [h.1.2]
  · simp only [reduceCtorEq, false_iff, not_exists, not_and]
    intro r w1 h ht
    split at h <;>
    · rename_i hi
      have hl := issue_trace_length hi
      simp only [Prod.mk.injEq] at h
      obtain ⟨_, rfl⟩ := h
      rw [ht] at hl
      omega

theorem CreateOverride_same_validation {σ : Type} (b : Backend σ)
    (w : World σ) (msg : String) (scheduleID userID start end_ : String) :
    (FakePDClient.CreateOverride scheduleID userID start end_).2 = some msg ↔
      ∃ r w1, client.CreateOverride b scheduleID userID start end_ w = ((r, some msg), w1) ∧
        w1.trace = w.trace := by
  unfold FakePDClient.CreateOverride client.CreateOverride
  split_ifs
  · constructor
    · intro h
      simp only [Option.some.injEq] at h
      subst h
      exact ⟨_, _, rfl, rfl⟩
    · rintro ⟨r, w1, h, -⟩
      simp only [Option.some.injEq, Prod.mk.injEq] at h
      simp [h.1.2]
  · constructor
    · intro h
      simp only [Option.some.injEq] at h
      subst h
      exact ⟨_, _, rfl, rfl⟩
    · rintro ⟨r, w1, h, -⟩
      simp only [Option.some.injEq, Prod.mk.injEq] at h
      simp [h.1.2]
  · constructor
    · intro h
      simp only [Option.some.injEq] at h
      subst h
      exact ⟨_, _, rfl, rfl⟩
    · rintro ⟨r, w1, h, -⟩
      simp only [Option.some.injEq, Prod.mk.injEq] at h
      simp [h.1.2]
  · constructor
    · intro h
      simp only [Option.some.injEq] at h
      subst h
      exact ⟨_, _, rfl, rfl⟩
    · rintro ⟨r, w1, h, -⟩
      simp only [Option.some.injEq, Prod.mk.injEq] at h
      simp [h.1.2]
  · simp only [reduceCtorEq, false_iff, not_exists, not_and]
    intro r w1 h ht
    split at h <;>
    · rename_i hi
      have hl := issue_trace_length hi
      simp only [Prod.mk.injEq] at h
      obtain ⟨_, rfl⟩ := h
      rw [ht] at hl
      omega

theorem RemoveOverride_same_validation {σ : Type} (b : Backend σ)
    (w : World σ) (msg : String) (scheduleID overrideID : String) :
    FakePDClient.RemoveOverride scheduleID overrideID = some msg ↔
      ∃ w1, client.RemoveOverride b scheduleID overrideID w = (some msg, w1) ∧
        w1.trace = w.trace := by
  unfold FakePDClient.RemoveOverride client.RemoveOverride
  split_ifs
  · constructor
    · intro h
      simp only [Option.some.injEq] at h
      subst h
      exact ⟨_, rfl, rfl⟩
    · rintro ⟨w1, h, -⟩
      simp only [Option.some.injEq, Prod.mk.injEq] at h
      simp [h.1]
  · constructor
    · intro h
      simp only [Option.some.injEq] at h
      subst h
      exact ⟨_, rfl, rfl⟩
    · rintro ⟨w1, h, -⟩
      simp only [Option.some.injEq, Prod.mk.injEq] at h
      simp [h.1]
  · simp only [reduceCtorEq, false_iff, not_exists, not_and]
    intro w1 h ht
    split at h <;>
    · rename_i hi
      have hl := issue_trace_length hi
      simp only [Prod.mk.injEq] at h
      obtain ⟨_, rfl⟩ := h
      rw [ht] at hl
      omega

theorem GetIndicentsByEscalationPolicy_same_validation {σ : Type} (env : Env) (b : Backend σ)
    (fuel : Nat) (w : World σ) (msg : String) (id : String) (t : Int) :
    (FakePDClient.GetIndicentsByEscalationPolicy id t).2 = some msg ↔
      ∃ r w1, client.GetIndicentsByEscalationPolicy env b id t fuel w = some ((r, some msg), w1) ∧
        w1.trace = w.trace := by
  unfold FakePDClient.GetIndicentsByEscalationPolicy client.GetIndicentsByEscalationPolicy
  split_ifs
  · constructor
    · intro h
      simp only [Option.some.injEq] at h
      subst h
      exact ⟨_, _, rfl, rfl⟩
    · rintro ⟨r, w1, h, -⟩
      simp only [Option.some.injEq, Prod.mk.injEq] at h
      simp [h.1.2]
  · simp only [reduceCtorEq, false_iff, not_exists, not_and, LoadLocationUTC]
    intro r w1 h ht
    have := GetIndicentsByEscalationPolicy_loop_trace env b _ _ _ _ _ _ _ h
    rw [ht] at this
    omega

theorem SearchIncidents_same_validation {σ : Type} (env : Env) (b : Backend σ)
    (fuel : Nat) (w : World σ) (msg : String) (q : String) (t : Int) :
    (FakePDClient.SearchIncidents q t).2 = some msg ↔
      ∃ r w1, client.SearchIncidents env b q t fuel w = some ((r, some msg), w1) ∧
        w1.trace = w.trace := by
  have hf : (FakePDClient.SearchIncidents q t).2 = none := by
    unfold FakePDClient.SearchIncidents
    split_ifs <;> rfl
  rw [hf]
  unfold client.SearchIncidents
  simp only [reduceCtorEq, false_iff, not_exists, not_and, LoadLocationUTC]
  intro r w1 h ht
  have := SearchIncidents_loop_trace env b _ _ _ _ _ _ _ h
  rw [ht] at this
  omega

theorem SearchIncidentLogs_same_validation {σ : Type} (env : Env) (b : Backend σ)
    (fuel : Nat) (w : World σ) (msg : String) (incidentID logType : String) :
    (FakePDClient.SearchIncidentLogs incidentID logType).2 = some msg ↔
      ∃ r w1, client.SearchIncidentLogs env b incidentID logType fuel w =
          some ((r, some msg), w1) ∧ w1.trace = w.trace := by
  unfold FakePDClient.SearchIncidentLogs client.SearchIncidentLogs
  by_cases h1 : TrimSpace incidentID = ""
  · simp only [h1, if_true]
    constructor
    · intro h
      simp only [Option.some.injEq] at h
      subst h
      exact ⟨_, _, rfl, rfl⟩
    · rintro ⟨r, w1, h, -⟩
      simp only [Option.some.injEq, Prod.mk.injEq] at h
      simp [h.1.2]
  · by_cases h2 : TrimSpace logType = ""
    · simp only [h1, h2, if_true, if_false]
      constructor
      · intro h
        simp only [Option.some.injEq] at h
        subst h
        exact ⟨_, _, rfl, rfl⟩
      · rintro ⟨r, w1, h, -⟩
        simp only [Option.some.injEq, Prod.mk.injEq] at h
        simp [h.1.2]
    · simp only [h1, h2, if_false]
      have hf : (if logType = "resolve_log_entry" then
            ((some "Resolved through the API." : Option String), (none : Option String))
          else if logType = "assign_log_entry" then (some "Assigned to Timur Kalandarov.", none)
          else if logType = "trigger_log_entry" then (some "Triggered through the API.", none)
          else (none, none)).2 = none := by
        split_ifs <;> rfl
      rw [hf]
      simp only [reduceCtorEq, false_iff, not_exists, not_and]
      intro r w1 h ht
      have := SearchIncidentLogs_loop_trace env b _ _ _ _ _ _ _ h
      rw [ht] at this
      omega

theorem CreateIncident_same_validation {σ : Type} (b : Backend σ)
    (w : World σ) (msg : String) (title serviceID urgency details ep : String) :
    (FakePDClient.CreateIncident title serviceID urgency details ep).2 = some msg ↔
      ∃ r w1, client.CreateIncident b title serviceID urgency details ep w =
          ((r, some msg), w1) ∧ w1.trace = w.trace := by
  unfold FakePDClient.CreateIncident client.CreateIncident
  by_cases h1 : TrimSpace title = ""
  · simp only [h1, if_true]
    constructor
    · intro h
      simp only [Option.some.injEq] at h
      subst h
      exact ⟨_, _, rfl, rfl⟩
    · rintro ⟨r, w1, h, -⟩
      simp only [Option.some.injEq, Prod.mk.injEq] at h
      simp [h.1.2]
  · by_cases h2 : TrimSpace serviceID = ""
    · simp only [h1, h2, if_true, if_false]
      constructor
      · intro h
        simp only [Option.some.injEq] at h
        subst h
        exact ⟨_, _, rfl, rfl⟩
      · rintro ⟨r, w1, h, -⟩
        simp only [Option.some.injEq, Prod.mk.injEq] at h
        simp [h.1.2]
    · simp only [h1, h2, if_false, reduceCtorEq, false_iff, not_exists, not_and]
      intro r w1 h ht
      split at h <;>
      · rename_i hi
        have hl := issue_trace_length hi
        simp only [Prod.mk.injEq] at h
        obtain ⟨_, rfl⟩ := h
        rw [ht] at hl
        omega

theorem GetEscalationPoliciesByTag_same_validation {σ : Type} (b : Backend σ)
    (w : World σ) (msg : String) (tagID : String) :
    (FakePDClient.GetEscalationPoliciesByTag tagID).2 = some msg ↔
      ∃ r w1, client.GetEscalationPoliciesByTag b tagID w = ((r, some msg), w1) ∧
        w1.trace = w.trace := by
  unfold FakePDClient.GetEscalationPoliciesByTag client.GetEscalationPoliciesByTag
  split_ifs
  · constructor
    · intro h
      simp only [Option.some.injEq] at h
      subst h
      exact ⟨_, _, rfl, rfl⟩
    · rintro ⟨r, w1, h, -⟩
      simp only [Option.some.injEq, Prod.mk.injEq] at h
      simp [h.1.2]
  · simp only [reduceCtorEq, false_iff, not_exists, not_and]
    intro r w1 h ht
    split at h <;>
    · rename_i hi
      have hl := issue_trace_length hi
      simp only [Prod.mk.injEq] at h
      obtain ⟨_, rfl⟩ := h
      rw [ht] at hl
      omega

theorem UpdateEscalationPolicy_same_validation {σ : Type} (b : Backend σ)
    (w : World σ) (msg : String) (id userID serviceID teamID : String)
    (escalation : Option (List APIObject)) :
    (FakePDClient.UpdateEscalationPolicy id userID serviceID teamID escalation).2 = some msg ↔
      ∃ r w1, client.UpdateEscalationPolicy b id userID serviceID teamID escalation w =
          ((r, some msg), w1) ∧ w1.trace = w.trace := by
  unfold FakePDClient.UpdateEscalationPolicy client.UpdateEscalationPolicy
  by_cases h1 : TrimSpace id = ""
  · simp only [h1, if_true]
    constructor
    · intro h
      simp only [Option.some.injEq] at h
      subst h
      exact ⟨_, _, rfl, rfl⟩
    · rintro ⟨r, w1, h, -⟩
      simp only [Option.some.injEq, Prod.mk.injEq] at h
      simp [h.1.2]
  · by_cases h2 : TrimSpace userID = ""
    · simp only [h1, h2, if_true, if_false]
      constructor
      · intro h
        simp only [Option.some.injEq] at h
        subst h
        exact ⟨_, _, rfl, rfl⟩
      · rintro ⟨r, w1, h, -⟩
        simp only [Option.some.injEq, Prod.mk.injEq] at h
        simp [h.1.2]
    · by_cases h3 : escalation = none
      · simp only [h1, h2, h3, if_true, if_false]
        constructor
        · intro h
          simp only [Option.some.injEq] at h
          subst h
          exact ⟨_, _, rfl, rfl⟩
        · rintro ⟨r, w1, h, -⟩
          simp only [Option.some.injEq, Prod.mk.injEq] at h
          simp [h.1.2]
      · simp only [h1, h2, h3, if_false, reduceCtorEq, false_iff, not_exists, not_and]
        intro r w1 h ht
        simp only [Prod.mk.injEq] at h
        obtain ⟨_, rfl⟩ := h
        simp [issue] at ht

theorem GetUsersIDsByNames_loop_le {σ : Type} (env : Env) (b : Backend σ) (fuel : Nat) :
    ∀ (names : List String) (resp : Option (List String)) (w : World σ)
      (r : Option (List String) × Option String) (w1 : World σ),
      client.GetUsersIDsByNames.loop env b fuel names resp w = some (r, w1) →
      w.trace.length + names.length ≤ w1.trace.length ∨
        (w.trace.length < w1.trace.length ∧ names ≠ []) := by
  intro names
  induction names with
  | nil =>
    intro resp w r w1 h
    simp only [client.GetUsersIDsByNames.loop, Option.some.injEq, Prod.mk.injEq] at h
    obtain ⟨_, rfl⟩ := h
    left; simp
  | cons name rest ih =>
    intro resp w r w1 h
    right
    refine ⟨?_, by simp⟩
    simp only [client.GetUsersIDsByNames.loop] at h
    split at h
    · simp at h
    · rename_i hl
      have := ListAllUsers_trace hl
      simp only [Option.some.injEq, Prod.mk.injEq] at h
      obtain ⟨_, rfl⟩ := h
      exact this
    · rename_i hl
      have := ListAllUsers_trace hl
      split_ifs at h
      · simp only [Option.some.injEq, Prod.mk.injEq] at h
        obtain ⟨_, rfl⟩ := h
        exact this
      · rcases ih _ _ _ _ h with h1 | h1 <;> omega

theorem GetUsersIDsByNames_same_validation {σ : Type} (env : Env) (b : Backend σ)
    (fuel : Nat) (w : World σ) (msg : String) (names : Option (List String)) :
    (FakePDClient.GetUsersIDsByNames names).2 = some msg ↔
      ∃ r w1, client.GetUsersIDsByNames env b names fuel w = some ((r, some msg), w1) ∧
        w1.trace = w.trace := by
  unfold FakePDClient.GetUsersIDsByNames client.GetUsersIDsByNames
  cases names with
  | none =>
    constructor
    · intro h
      simp only [Option.some.injEq] at h
      subst h
      exact ⟨_, _, rfl, rfl⟩
    · rintro ⟨r, w1, h, -⟩
      simp only [Option.some.injEq, Prod.mk.injEq] at h
      simp [h.1.2]
  | some l =>
    simp only
    split_ifs
    · constructor
      · intro h
        simp only [Option.some.injEq] at h
        subst h
        exact ⟨_, _, rfl, rfl⟩
      · rintro ⟨r, w1, h, -⟩
        simp only [Option.some.injEq, Prod.mk.injEq] at h
        simp [h.1.2]
    · constructor
      · intro h
        simp only [Option.some.injEq] at h
        subst h
        exact ⟨_, _, rfl, rfl⟩
      · rintro ⟨r, w1, h, -⟩
        simp only [Option.some.injEq, Prod.mk.injEq] at h
        simp [h.1.2]
    · rename_i hlen _
      simp only [reduceCtorEq, false_iff, not_exists, not_and]
      intro r w1 h ht
      have := GetUsersIDsByNames_loop_le env b fuel _ _ _ _ _ h
      rw [ht] at this
      omega

theorem GetIndicentsByEscalationPolicy_le {σ : Type} {env : Env} {b : Backend σ}
    {id : String} {t : Int} {fuel : Nat} {w w1 : World σ}
    {r : Option (List Incident) × Option String}
    (h : client.GetIndicentsByEscalationPolicy env b id t fuel w = some (r, w1)) :
    w.trace.length ≤ w1.trace.length := by
  unfold client.GetIndicentsByEscalationPolicy at h
  split_ifs at h
  · simp only [Option.some.injEq, Prod.mk.injEq] at h
    obtain ⟨_, rfl⟩ := h
    exact le_refl _
  · simp only [LoadLocationUTC] at h
    exact le_of_lt (GetIndicentsByEscalationPolicy_loop_trace env b _ _ _ _ _ _ _ h)

theorem GetIndicentsByTag_loop_le {σ : Type} (env : Env) (b : Backend σ) (t : Int)
    (fuel : Nat) :
    ∀ (eps : List APIObject) (acc : Option (List Incident)) (w : World σ)
      (r : Option (List Incident) × Option String) (w1 : World σ),
      client.GetIndicentsByTag.loop env b t fuel eps acc w = some (r, w1) →
      w.trace.length ≤ w1.trace.length := by
  intro eps
  induction eps with
  | nil =>
    intro acc w r w1 h
    simp only [client.GetIndicentsByTag.loop, Option.some.injEq, Prod.mk.injEq] at h
    obtain ⟨_, rfl⟩ := h
    exact le_refl _
  | cons ep rest ih =>
    intro acc w r w1 h
    simp only [client.GetIndicentsByTag.loop] at h
    split at h
    · simp at h
    · rename_i hl
      have := GetIndicentsByEscalationPolicy_le hl
      simp only [Option.some.injEq, Prod.mk.injEq] at h
      obtain ⟨_, rfl⟩ := h
      exact this
    · rename_i hl
      have := GetIndicentsByEscalationPolicy_le hl
      have := ih _ _ _ _ h
      omega

theorem GetEscalationPoliciesByTag_le {σ : Type} {b : Backend σ} {tagID : String}
    {w w1 : World σ} {r : Option ListEPResponse × Option String}
    (h : client.GetEscalationPoliciesByTag b tagID w = (r, w1)) :
    w.trace.length ≤ w1.trace.length := by
  unfold client.GetEscalationPoliciesByTag at h
  split_ifs at h
  · simp only [Prod.mk.injEq] at h
    obtain ⟨_, rfl⟩ := h
    exact le_refl _
  · split at h <;>
    · rename_i hi
      have hl := issue_trace_length hi
      simp only [Prod.mk.injEq] at h
      obtain ⟨_, rfl⟩ := h
      omega

theorem GetIndicentsByTag_same_validation {σ : Type} (env : Env) (b : Backend σ)
    (fuel : Nat) (w : World σ) (msg : String) (tagName : String) (t : Int) :
    (FakePDClient.GetIndicentsByTag tagName t).2 = some msg ↔
      ∃ r w1, client.GetIndicentsByTag env b tagName t fuel w =
          some (Outcome.returned (r, some msg), w1) ∧ w1.trace = w.trace := by
  unfold FakePDClient.GetIndicentsByTag client.GetIndicentsByTag
  split_ifs
  · constructor
    · intro h
      simp only [Option.some.injEq] at h
      subst h
      exact ⟨_, _, rfl, rfl⟩
    · rintro ⟨r, w1, h, -⟩
      simp only [Option.some.injEq, Prod.mk.injEq, Outcome.returned.injEq] at h
      simp [h.1.2]
  · simp only [reduceCtorEq, false_iff, not_exists, not_and]
    intro r w1 h ht
    split at h
    · simp at h
    · rename_i hl
      have := ListAllTags_trace hl
      simp only [Option.some.injEq, Prod.mk.injEq] at h
      obtain ⟨_, rfl⟩ := h
      rw [ht] at this
      omega
    · rename_i hl
      have h0 := ListAllTags_trace hl
      split at h
      · simp at h
      · split at h
        · rename_i hg
          have := GetEscalationPoliciesByTag_le hg
          simp only [Option.some.injEq, Prod.mk.injEq] at h
          obtain ⟨_, rfl⟩ := h
          rw [ht] at this
          omega
        · simp at h
        · rename_i hg
          have h1 := GetEscalationPoliciesByTag_le hg
          split at h
          · simp at h
          · rename_i hlp
            have h2 := GetIndicentsByTag_loop_le env b _ _ _ _ _ _ _ hlp
            simp only [Option.some.injEq, Prod.mk.injEq] at h
            obtain ⟨_, rfl⟩ := h
            rw [ht] at h2
            omega

/-! ## C3: the fake rejects exactly what the real adapter rejects before any request -/

/-- C3. For every operation of the shared interface and all arguments: the fake client
returns the error `msg` if and only if the real client returns the error `msg` without having
issued a request to the backend (its trace is the one it started with). The fake returns
errors from validation only, so its validation is the validation of the real adapter, message
for message, whatever the backend, its state and the fuel are. -/
theorem fake_validation_matches_real {σ : Type} (env : Env) (b : Backend σ) (fuel : Nat)
    (w : World σ) (msg : String) :
    (∀ ids, (FakePDClient.GetOnCallsByScheduleIDs ids).2 = some msg ↔
      ∃ r w1, client.GetOnCallsByScheduleIDs env b ids fuel w = some ((r, some msg), w1) ∧
        w1.trace = w.trace) ∧
    (∀ o, (FakePDClient.GetOnCallsWithOptions o).2 = some msg ↔
      ∃ r w1, client.GetOnCallsWithOptions b o w = (Outcome.returned (r, some msg), w1) ∧
        w1.trace = w.trace) ∧
    (∀ o, (FakePDClient.ListAllUsers o).2 = some msg ↔
      ∃ r w1, client.ListAllUsers env b o fuel w = some ((r, some msg), w1) ∧
        w1.trace = w.trace) ∧
    (∀ id o, (FakePDClient.GetUserByID id o).2 = some msg ↔
      ∃ r w1, client.GetUserByID b id o w = ((r, some msg), w1) ∧ w1.trace = w.trace) ∧
    (∀ name, (FakePDClient.GetUserIDbyName name).2 = some msg ↔
      ∃ r w1, client.GetUserIDbyName env b name fuel w = some ((r, some msg), w1) ∧
        w1.trace = w.trace) ∧
    (∀ names, (FakePDClient.GetUsersIDsByNames names).2 = some msg ↔
      ∃ r w1, client.GetUsersIDsByNames env b names fuel w = some ((r, some msg), w1) ∧
        w1.trace = w.trace) ∧
    (∀ name, (FakePDClient.GetScheduleIDbyName name).2.2 = some msg ↔
      ∃ r t w1, client.GetScheduleIDbyName env b name fuel w = some ((r, t, some msg), w1) ∧
        w1.trace = w.trace) ∧
    (∀ scheduleID since until_ f,
      (FakePDClient.GetOverrides scheduleID since until_ f).2 = some msg ↔
      ∃ r w1, client.GetOverrides b scheduleID since until_ f w = ((r, some msg), w1) ∧
        w1.trace = w.trace) ∧
    (∀ scheduleID userID start end_,
      (FakePDClient.CreateOverride scheduleID userID start end_).2 = some msg ↔
      ∃ r w1, client.CreateOverride b scheduleID userID start end_ w = ((r, some msg), w1) ∧
        w1.trace = w.trace) ∧
    (∀ scheduleID overrideID,
      FakePDClient.RemoveOverride scheduleID overrideID = some msg ↔
      ∃ w1, client.RemoveOverride b scheduleID overrideID w = (some msg, w1) ∧
        w1.trace = w.trace) ∧
    (∀ o, (FakePDClient.ListAllTags o).2 = some msg ↔
      ∃ r w1, client.ListAllTags env b o fuel w = some ((r, some msg), w1) ∧
        w1.trace = w.trace) ∧
    (∀ id t, (FakePDClient.GetIndicentsByEscalationPolicy id t).2 = some msg ↔
      ∃ r w1, client.GetIndicentsByEscalationPolicy env b id t fuel w =
          some ((r, some msg), w1) ∧ w1.trace = w.trace) ∧
    (∀ tagName t, (FakePDClient.GetIndicentsByTag tagName t).2 = some msg ↔
      ∃ r w1, client.GetIndicentsByTag env b tagName t fuel w =
          some (Outcome.returned (r, some msg), w1) ∧ w1.trace = w.trace) ∧
    (∀ title serviceID urgency details ep,
      (FakePDClient.CreateIncident title serviceID urgency details ep).2 = some msg ↔
      ∃ r w1, client.CreateIncident b title serviceID urgency details ep w =
          ((r, some msg), w1) ∧ w1.trace = w.trace) ∧
    (∀ q t, (FakePDClient.SearchIncidents q t).2 = some msg ↔
      ∃ r w1, client.SearchIncidents env b q t fuel w = some ((r, some msg), w1) ∧
        w1.trace = w.trace) ∧
    (∀ incidentID logType, (FakePDClient.SearchIncidentLogs incidentID logType).2 = some msg ↔
      ∃ r w1, client.SearchIncidentLogs env b incidentID logType fuel w =
          some ((r, some msg), w1) ∧ w1.trace = w.trace) ∧
    (∀ tagID, (FakePDClient.GetEscalationPoliciesByTag tagID).2 = some msg ↔
      ∃ r w1, client.GetEscalationPoliciesByTag b tagID w = ((r, some msg), w1) ∧
        w1.trace = w.trace) ∧
    (∀ id userID serviceID teamID escalation,
      (FakePDClient.UpdateEscalationPolicy id userID serviceID teamID escalation).2 = some msg ↔
      ∃ r w1, client.UpdateEscalationPolicy b id userID serviceID teamID escalation w =
          ((r, some msg), w1) ∧ w1.trace = w.trace) :=
  ⟨GetOnCallsByScheduleIDs_same_validation env b fuel w msg,
   GetOnCallsWithOptions_same_validation b w msg,
   ListAllUsers_same_validation env b fuel w msg,
   GetUserByID_same_validation b w msg,
   GetUserIDbyName_same_validation env b fuel w msg,
   GetUsersIDsByNames_same_validation env b fuel w msg,
   GetScheduleIDbyName_same_validation env b fuel w msg,
   GetOverrides_same_validation b w msg,
   CreateOverride_same_validation b w msg,
   RemoveOverride_same_validation b w msg,
   ListAllTags_same_validation env b fuel w msg,
   GetIndicentsByEscalationPolicy_same_validation env b fuel w msg,
   GetIndicentsByTag_same_validation env b fuel w msg,
   CreateIncident_same_validation b w msg,
   SearchIncidents_same_validation env b fuel w msg,
   SearchIncidentLogs_same_validation env b fuel w msg,
   GetEscalationPoliciesByTag_same_validation b w msg,
   UpdateEscalationPolicy_same_validation b w msg⟩

/-! ## C4: a validation failure of the real adapter issues no request -/

/-- C4. For every operation of the real client and every argument tuple that fails
validation (a required string `x` that is blank, a nil list, a list `l` that is empty or has a
blank entry, a nil escalation list), the operation returns its error and the world it was
started in: no request was issued, the backend state is untouched, and a trace that was empty
is still empty. -/
theorem real_validation_failure_issues_no_request (x : String) (hx : Blank x)
    (l : List String) (hl : l = [] ∨ ∃ y ∈ l, Blank y)
    {σ : Type} (env : Env) (b : Backend σ) (fuel : Nat) (w : World σ) :
    (∃ e, client.GetOnCallsByScheduleIDs env b none fuel w = some ((none, some e), w)) ∧
    (∃ e, client.GetOnCallsByScheduleIDs env b (some l) fuel w = some ((none, some e), w)) ∧
    (∃ e, client.GetUsersIDsByNames env b none fuel w = some ((none, some e), w)) ∧
    (∃ e, client.GetUsersIDsByNames env b (some l) fuel w = some ((none, some e), w)) ∧
    (∃ e, client.GetScheduleIDbyName env b x fuel w = some (("", "", some e), w)) ∧
    (∃ e, client.GetUserIDbyName env b x fuel w = some (("", some e), w)) ∧
    (∀ o, ∃ e, client.GetUserByID b x o w = ((none, some e), w)) ∧
    (∀ a c f, ∃ e, client.GetOverrides b x a c f w = ((none, some e), w)) ∧
    (∀ a c f, ∃ e, client.GetOverrides b a x c f w = ((none, some e), w)) ∧
    (∀ a c f, ∃ e, client.GetOverrides b a c x f w = ((none, some e), w)) ∧
    (∀ a c d, ∃ e, client.CreateOverride b x a c d w = ((none, some e), w)) ∧
    (∀ a c d, ∃ e, client.CreateOverride b a x c d w = ((none, some e), w)) ∧
    (∀ a c d, ∃ e, client.CreateOverride b a c x d w = ((none, some e), w)) ∧
    (∀ a c d, ∃ e, client.CreateOverride b a c d x w = ((none, some e), w)) ∧
    (∀ a, ∃ e, client.RemoveOverride b x a w = (some e, w)) ∧
    (∀ a, ∃ e, client.RemoveOverride b a x w = (some e, w)) ∧
    (∀ t, ∃ e,
      client.GetIndicentsByEscalationPolicy env b x t fuel w = some ((none, some e), w)) ∧
    (∀ t, ∃ e,
      client.GetIndicentsByTag env b x t fuel w = some (Outcome.returned (none, some e), w)) ∧
    (∀ a c d g, ∃ e, client.CreateIncident b x a c d g w = ((none, some e), w)) ∧
    (∀ a c d g, ∃ e, client.CreateIncident b a x c d g w = ((none, some e), w)) ∧
    (∀ a, ∃ e, client.SearchIncidentLogs env b x a fuel w = some ((none, some e), w)) ∧
    (∀ a, ∃ e, client.SearchIncidentLogs env b a x fuel w = some ((none, some e), w)) ∧
    (∃ e, client.GetEscalationPoliciesByTag b x w = ((none, some e), w)) ∧
    (∀ a c d g, ∃ e, client.UpdateEscalationPolicy b x a c d g w = ((none, some e), w)) ∧
    (∀ a c d g, ∃ e, client.UpdateEscalationPolicy b a x c d g w = ((none, some e), w)) ∧
    (∀ a c d g, ∃ e, client.UpdateEscalationPolicy b a c d g none w = ((none, some e), w)) := by
  have h : TrimSpace x = "" := (TrimSpace_eq_empty_iff x).mpr hx
  have hl1 : l.length < 1 ∨ hasEmptyEntry l = true := by
    rcases hl with rfl | hy
    · left; simp
    · right; exact (hasEmptyEntry_iff l).mpr hy
  refine ⟨?_, ?_, ?_, ?_, ?_, ?_, ?_, ?_, ?_, ?_, ?_, ?_, ?_, ?_, ?_, ?_, ?_, ?_, ?_, ?_, ?_,
    ?_, ?_, ?_, ?_, ?_⟩
  · simp [client.GetOnCallsByScheduleIDs]
  · unfold client.GetOnCallsByScheduleIDs
    rcases hl1 with h1 | h1
    · simp [h1]
    · simp only [h1, if_true]; split_ifs <;> simp
  · simp [client.GetUsersIDsByNames]
  · unfold client.GetUsersIDsByNames
    rcases hl1 with h1 | h1
    · simp [h1]
    · simp only [h1, if_true]; split_ifs <;> simp
  · simp [client.GetScheduleIDbyName, h]
  · simp [client.GetUserIDbyName, h]
  · simp [client.GetUserByID, h]
  · simp [client.GetOverrides, h]
  · intro a c f; unfold client.GetOverrides; split_ifs <;> simp_all
  · intro a c f; unfold client.GetOverrides; split_ifs <;> simp_all
  · simp [client.CreateOverride, h]
  · intro a c d; unfold client.CreateOverride; split_ifs <;> simp_all
  · intro a c d; unfold client.CreateOverride; split_ifs <;> simp_all
  · intro a c d; unfold client.CreateOverride; split_ifs <;> simp_all
  · simp [client.RemoveOverride, h]
  · intro a; unfold client.RemoveOverride; split_ifs <;> simp_all
  · simp [client.GetIndicentsByEscalationPolicy, h]
  · simp [client.GetIndicentsByTag, h]
  · simp [client.CreateIncident, h]
  · intro a c d g; unfold client.CreateIncident; split_ifs <;> simp_all
  · simp [client.SearchIncidentLogs, h]
  · intro a; unfold client.SearchIncidentLogs; split_ifs <;> simp_all
  · simp [client.GetEscalationPoliciesByTag, h]
  · simp [client.UpdateEscalationPolicy, h]
  · intro a c d g; unfold client.UpdateEscalationPolicy; split_ifs <;> simp_all
  · intro a c d g; unfold client.UpdateEscalationPolicy; split_ifs <;> simp_all

/-- C4 on the inputs of the unit tests, started with an empty trace: the list with an empty
entry and the blank schedule identifier are rejected and the trace is still empty. -/
theorem real_validation_failure_issues_no_request_witness :
    Blank "     " ∧ (∃ y ∈ ["P10QVCS", ""], Blank y) ∧
    (∃ e, client.GetOnCallsByScheduleIDs env100 (pagedBackend {}) (some ["P10QVCS", ""]) 0
        (World.start ()) = some ((none, some e), { state := (), trace := [] })) ∧
    (∀ a c d, ∃ e, client.CreateOverride (pagedBackend {}) "     " a c d (World.start ()) =
        ((none, some e), { state := (), trace := [] })) :=
  ⟨by decide, ⟨"", by simp, by decide⟩,
   (real_validation_failure_issues_no_request "     " (by decide) ["P10QVCS", ""]
      (Or.inr ⟨"", by simp, by decide⟩) env100 (pagedBackend {}) 0 (World.start ())).2.1,
   (real_validation_failure_issues_no_request "     " (by decide) ["P10QVCS", ""]
      (Or.inr ⟨"", by simp, by decide⟩) env100 (pagedBackend {}) 0
      (World.start ())).2.2.2.2.2.2.2.2.2.2.1⟩

/-! ## Pagination of `GetOnCallsByScheduleIDs` -/

theorem iterate_uintAdd_eq (inc : Nat) :
    ∀ (n off : Nat),
      List.iterate (fun o => uintAdd o inc) (off % uintSize) n =
        (List.range n).map (fun k => (off + k * inc) % uintSize) := by
  intro n
  induction n with
  | zero => intro off; rfl
  | succ n ih =>
    intro off
    rw [List.iterate, List.range_succ_eq_map, List.map_cons, List.map_map]
    have h1 : uintAdd (off % uintSize) inc = (off + inc) % uintSize := by
      unfold uintAdd
      rw [Nat.mod_add_mod]
    rw [h1, ih (off + inc)]
    simp only [Nat.zero_mul, Nat.add_zero, List.cons.injEq, true_and]
    apply List.map_congr_left
    intro k _
    simp only [Function.comp, Nat.succ_eq_add_one]
    congr 1
    ring

theorem answers_cons {σ ρ α : Type} (h : ρ → σ → α × σ) (r : ρ) (rs : List ρ) (s : σ) :
    answers h (r :: rs) s = (h r s).1 :: answers h rs (h r s).2 := rfl

theorem GetOnCallsByScheduleIDs_loop_pages {σ : Type} (env : Env) (b : Backend σ)
    (ids : Option (List String)) (last : ListOnCallsResponse) (hlast : last.OnCalls = []) :
    ∀ (pages : List ListOnCallsResponse) (acc : Option (List OnCall)) (off : Nat)
      (w : World σ) (fuel : Nat),
      (∀ p ∈ pages, p.OnCalls ≠ []) →
      answers b.ListOnCallsWithContext
          ((List.iterate (fun o => uintAdd o env.increase) off (pages.length + 1)).map
            (client.GetOnCallsByScheduleIDs.options env ids))
          w.state = pages.map Except.ok ++ [Except.ok last] →
      pages.length + 1 ≤ fuel →
      ∃ r w1, client.GetOnCallsByScheduleIDs.loop env b ids fuel acc off w =
          some ((r, none), w1) ∧
        elems r = elems acc ++ (pages.map (fun p => p.OnCalls)).flatten ∧
        w1.trace = w.trace ++
          (List.iterate (fun o => uintAdd o env.increase) off (pages.length + 1)).map
            (fun o => Request.ListOnCalls (client.GetOnCallsByScheduleIDs.options env ids o)) := by
  intro pages
  induction pages with
  | nil =>
    intro acc off w fuel _ hb hfuel
    obtain ⟨n, rfl⟩ : ∃ n, fuel = n + 1 := ⟨fuel - 1, by simp at hfuel; omega⟩
    simp only [List.length_nil, Nat.zero_add, List.iterate, List.map_cons, List.map_nil,
      answers, List.nil_append, List.cons.injEq, and_true] at hb
    refine ⟨acc,
      { state := (b.ListOnCallsWithContext
          (client.GetOnCallsByScheduleIDs.options env ids off) w.state).2,
        trace := w.trace ++
          [Request.ListOnCalls (client.GetOnCallsByScheduleIDs.options env ids off)] },
      ?_, ?_, ?_⟩
    · simp [client.GetOnCallsByScheduleIDs.loop, issue, hb, hlast, goAppend]
    · simp
    · simp [List.iterate]
  | cons p ps ih =>
    intro acc off w fuel hp hb hfuel
    obtain ⟨n, rfl⟩ : ∃ n, fuel = n + 1 := ⟨fuel - 1, by simp at hfuel; omega⟩
    rw [List.length_cons, List.iterate, List.map_cons, answers_cons, List.map_cons,
      List.cons_append, List.cons.injEq] at hb
    obtain ⟨hb1, hb2⟩ := hb
    have hpne : ¬ p.OnCalls.length < 1 := by
      have := hp p (by simp)
      have := List.length_pos.mpr this
      omega
    obtain ⟨r, w1, hr, he, ht⟩ := ih (goAppend acc p.OnCalls) (uintAdd off env.increase)
      { state := (b.ListOnCallsWithContext
          (client.GetOnCallsByScheduleIDs.options env ids off) w.state).2,
        trace := w.trace ++
          [Request.ListOnCalls (client.GetOnCallsByScheduleIDs.options env ids off)] }
      n (fun q hq => hp q (by simp [hq])) hb2 (by simp at hfuel; omega)
    refine ⟨r, w1, ?_, ?_, ?_⟩
    · simp only [client.GetOnCallsByScheduleIDs.loop, issue, hb1, hpne, if_false]
      exact hr
    · rw [he, elems_goAppend]
      simp
    · rw [ht]
      simp [List.iterate]

/-- C5. For every valid `scheduleIDs` list and every number `N` of pages: when the backend
answers the successive `ListOnCalls` requests of the operation with `N` non-empty pages and
then an empty page, none of them an error, the real `GetOnCallsByScheduleIDs`, given fuel for
`N + 1` iterations, returns a nil error and the concatenation of the `N` pages in the order
fetched, and issues exactly `N + 1` requests, the `k`-th (counted from 0) with the offset
`k * increase` in `uint` arithmetic and the fixed limit; as long as `N * increase` fits a
`uint` that offset is `k * increase` itself. -/
theorem GetOnCallsByScheduleIDs_concatenates_pages {σ : Type} (env : Env) (b : Backend σ)
    (ids : List String) (hne : ids ≠ []) (hnb : ∀ y ∈ ids, ¬ Blank y)
    (pages : List ListOnCallsResponse) (last : ListOnCallsResponse)
    (hpages : ∀ p ∈ pages, p.OnCalls ≠ []) (hlast : last.OnCalls = [])
    (w : World σ)
    (hb : answers b.ListOnCallsWithContext
        ((List.range (pages.length + 1)).map (fun k =>
          client.GetOnCallsByScheduleIDs.options env (some ids) (k * env.increase % uintSize)))
        w.state = pages.map Except.ok ++ [Except.ok last])
    (fuel : Nat) (hfuel : pages.length + 1 ≤ fuel) :
    ∃ r w1, client.GetOnCallsByScheduleIDs env b (some ids) fuel w = some ((r, none), w1) ∧
      elems r = (pages.map (fun p => p.OnCalls)).flatten ∧
      w1.trace = w.trace ++ (List.range (pages.length + 1)).map (fun k =>
        Request.ListOnCalls
          (client.GetOnCallsByScheduleIDs.options env (some ids) (k * env.increase % uintSize))) ∧
      (pages.length * env.increase < uintSize →
        w1.trace = w.trace ++ (List.range (pages.length + 1)).map (fun k =>
          Request.ListOnCalls
            (client.GetOnCallsByScheduleIDs.options env (some ids) (k * env.increase)))) ∧
      (∀ o, (client.GetOnCallsByScheduleIDs.options env (some ids) o).Offset = o ∧
        (client.GetOnCallsByScheduleIDs.options env (some ids) o).Limit = env.limit) := by
  have hit := iterate_uintAdd_eq env.increase (pages.length + 1) 0
  simp only [Nat.zero_mod, Nat.zero_add] at hit
  have hreq : (List.range (pages.length + 1)).map (fun k =>
        client.GetOnCallsByScheduleIDs.options env (some ids) (k * env.increase % uintSize)) =
      (List.iterate (fun o => uintAdd o env.increase) 0 (pages.length + 1)).map
        (client.GetOnCallsByScheduleIDs.options env (some ids)) := by
    rw [hit, List.map_map]; rfl
  rw [hreq] at hb
  obtain ⟨r, w1, hr, he, ht⟩ := GetOnCallsByScheduleIDs_loop_pages env b (some ids) last hlast
    pages none 0 w fuel hpages hb hfuel
  have hlen : ¬ ids.length < 1 := by
    have := List.length_pos.mpr hne
    omega
  have hent : hasEmptyEntry ids = false := by
    rw [Bool.eq_false_iff]
    intro h
    obtain ⟨y, hy, hyb⟩ := (hasEmptyEntry_iff ids).mp h
    exact hnb y hy hyb
  have ht1 : w1.trace = w.trace ++ (List.range (pages.length + 1)).map (fun k =>
        Request.ListOnCalls
          (client.GetOnCallsByScheduleIDs.options env (some ids) (k * env.increase % uintSize))) := by
    rw [ht, hit, List.map_map]; rfl
  refine ⟨r, w1, ?_, ?_, ht1, ?_, fun o => ⟨rfl, rfl⟩⟩
  · simp only [client.GetOnCallsByScheduleIDs, hlen, hent, if_false, Bool.false_eq_true]
    exact hr
  · simpa [elems] using he
  · intro hsmall
    rw [ht1]
    congr 1
    apply List.map_congr_left
    intro k hk
    have hk1 : k < pages.length + 1 := List.mem_range.mp hk
    have : k * env.increase < uintSize :=
      lt_of_le_of_lt (Nat.mul_le_mul_right _ (by omega)) hsmall
    rw [Nat.mod_eq_of_lt this]

/-- C5 on a backend that holds three on-calls and serves pages of two: two non-empty
pages, then the empty page, three requests with the offsets 0, 2 and 4. -/
theorem GetOnCallsByScheduleIDs_concatenates_pages_witness :
    ∃ r w1, client.GetOnCallsByScheduleIDs env2 (pagedBackend threeOnCalls) (some ["PUY4P9O"]) 3
        (World.start ()) = some ((r, none), w1) ∧
      elems r = threeOnCalls.onCalls ∧
      w1.trace = (List.range 3).map (fun k =>
        Request.ListOnCalls
          (client.GetOnCallsByScheduleIDs.options env2 (some ["PUY4P9O"]) (k * 2))) := by
  obtain ⟨r, w1, hr, he, -, ht, -⟩ :=
    GetOnCallsByScheduleIDs_concatenates_pages env2 (pagedBackend threeOnCalls) ["PUY4P9O"]
      (by decide) (by decide)
      [{ OnCalls := threeOnCalls.onCalls.take 2 }, { OnCalls := threeOnCalls.onCalls.drop 2 }]
      { OnCalls := [] } (by decide) rfl (World.start ()) rfl 3 (by decide)
  exact ⟨r, w1, hr, he, ht (by decide)⟩

/-! ## C6: `ListAllUsers` and `ListAllTags` never advance the offset they send -/

theorem ListAllUsers_loop_never_returns (env : Env) (st : Store) (o : ListUsersOptions)
    (h : page (st.users.filter (fun usr => o.Query = "" || usr.Name = o.Query))
      o.Offset o.Limit ≠ []) :
    ∀ (fuel : Nat) (acc : Option (List User)) (off : Nat) (w : World Unit),
      client.ListAllUsers.loop env (pagedBackend st) o fuel acc off w = none := by
  intro fuel
  induction fuel with
  | zero => intro acc off w; rfl
  | succ n ih =>
    intro acc off w
    have hlen : ¬ (page (st.users.filter (fun usr => o.Query = "" || usr.Name = o.Query))
        o.Offset o.Limit).length < 1 := by
      have := List.length_pos.mpr h
      omega
    simp only [client.ListAllUsers.loop, issue, pagedBackend, hlen, if_false]
    exact ih _ _ _

theorem ListAllTags_loop_never_returns (env : Env) (st : Store) (o : ListTagOptions)
    (h : page st.tags o.Offset o.Limit ≠ []) :
    ∀ (fuel : Nat) (acc : Option (List Tag)) (off : Nat) (w : World Unit),
      client.ListAllTags.loop env (pagedBackend st) o fuel acc off w = none := by
  intro fuel
  induction fuel with
  | zero => intro acc off w; rfl
  | succ n ih =>
    intro acc off w
    have hlen : ¬ (page st.tags o.Offset o.Limit).length < 1 := by
      have := List.length_pos.mpr h
      omega
    simp only [client.ListAllTags.loop, issue, pagedBackend, hlen, if_false]
    exact ih _ _ _

/-- C6, the code at the failing input. Against a backend that serves one user (resp. the
four tags) by offset and limit, with page size 100, `ListAllUsers` and `ListAllTags` return
for no amount of fuel: every request carries offset 0 and is answered by the same non-empty
first page. When a scripted backend ends the loop by an empty second page, the two requests
issued both carry offset 0: the second one is not advanced by `increase`. -/
theorem ListAllUsers_ListAllTags_offset_stays_zero :
    (∀ fuel, client.ListAllUsers env100 (pagedBackend { users := [getFakedUser] }) {} fuel
        (World.start ()) = none) ∧
    (∀ fuel, client.ListAllTags env100 (pagedBackend { tags := getFakedTags.Tags }) {} fuel
        (World.start ()) = none) ∧
    (client.ListAllUsers env100 scriptedUsers {} 2
        (World.start [Except.ok { Users := [getFakedUser] }, Except.ok { Users := [] }])).map
        (fun r => (r.1, r.2.trace)) =
      some ((some [getFakedUser], none),
        [Request.ListUsers { Limit := 100, Offset := 0 },
         Request.ListUsers { Limit := 100, Offset := 0 }]) := by
  refine ⟨?_, ?_, ?_⟩
  · intro fuel
    exact ListAllUsers_loop_never_returns env100 _ _ (by decide) fuel none 0 _
  · intro fuel
    exact ListAllTags_loop_never_returns env100 _ _ (by decide) fuel none 0 _
  · decide

/-! ## C7: `SearchIncidentLogs` requests the first page again and again -/

theorem SearchIncidentLogs_loop_never_returns (env : Env) (st : Store)
    (incidentID logType : String) (off : Nat)
    (hne : page st.logEntries off env.limit ≠ [])
    (hno : client.SearchIncidentLogs.scan logType (page st.logEntries off env.limit) = none) :
    ∀ (fuel : Nat) (w : World Unit),
      client.SearchIncidentLogs.loop env (pagedBackend st) incidentID logType fuel off w =
        none := by
  intro fuel
  induction fuel with
  | zero => intro w; rfl
  | succ n ih =>
    intro w
    have hlen : ¬ (page st.logEntries off env.limit).length < 1 := by
      have := List.length_pos.mpr hne
      omega
    simp only [client.SearchIncidentLogs.loop, issue, pagedBackend, hlen, if_false, hno]
    exact ih _

/-- C7, the code at the failing input. The log of the incident holds 100 trigger entries
followed by one resolve entry, and the page size is 100: the entry of type
`resolve_log_entry` is the only entry of the second page (offset 100), and
`SearchIncidentLogs` returns for no amount of fuel, because the offset it sends stays 0 and
the first page has no such entry. -/
theorem SearchIncidentLogs_misses_second_page :
    page hundredAndOneLogEntries.logEntries 100 100 =
      [{ Type_ := "resolve_log_entry", Summary := "Resolved through the API." }] ∧
    (∀ fuel, client.SearchIncidentLogs env100 (pagedBackend hundredAndOneLogEntries)
        "Q3XZW6AK6GZ3TZ" "resolve_log_entry" fuel (World.start ()) = none) := by
  refine ⟨by decide, ?_⟩
  intro fuel
  have h1 : TrimSpace "Q3XZW6AK6GZ3TZ" ≠ "" := by decide
  have h2 : TrimSpace "resolve_log_entry" ≠ "" := by decide
  simp only [client.SearchIncidentLogs, h1, h2, if_false]
  exact SearchIncidentLogs_loop_never_returns env100 hundredAndOneLogEntries _ _ 0
    (by decide) (by decide) fuel _

/-! ## C8: `GetUsersIDsByNames` stops after the first name that is found -/

/-- C8, the code at the failing input. For the two names of the integration test, each
matched by a user that the backend lists for it, `GetUsersIDsByNames` returns one identifier,
not two: after the first name is found `len(resp) > 0` ends the loop over the names, and the
backend is never asked for the second name. -/
theorem GetUsersIDsByNames_returns_one_id_for_two_names :
    (client.GetUsersIDsByNames env100 scriptedUsers (some ["Timur Kalandarov", "Caleb Young"]) 2
        (World.start
          [Except.ok { Users := [{ ID := "PWKNFGT", Name := "Timur Kalandarov" }] },
           Except.ok { Users := [] },
           Except.ok { Users := [{ ID := "P273W1N", Name := "Caleb Young" }] },
           Except.ok { Users := [] }])).map (fun r => (r.1, r.2.trace)) =
      some ((some ["PWKNFGT"], none),
        [Request.ListUsers { Limit := 100, Offset := 0, Query := "Timur Kalandarov" },
         Request.ListUsers { Limit := 100, Offset := 0, Query := "Timur Kalandarov" }]) := by
  decide

/-! ## C9: a lookup by name that finds nothing returns the zero result and no error -/

theorem GetScheduleIDbyName_scan_no_match (env : Env) (name : String) (acc : String × String) :
    ∀ (l : List Schedule),
      (∀ s ∈ l, EqualFold env.unicode s.Name (env.pdScheduleTitlePrefix ++ " " ++ name) = false) →
      client.GetScheduleIDbyName.scan env name l acc = acc := by
  intro l
  induction l with
  | nil => intro _; rfl
  | cons s rest ih =>
    intro h
    have hs := h s (by simp)
    simp only [client.GetScheduleIDbyName.scan, hs, Bool.false_eq_true, if_false]
    exact ih (fun t ht => h t (by simp [ht]))

theorem GetUserIDbyName_scan_no_match (env : Env) (name : String) (id : String) :
    ∀ (l : List User),
      (∀ u ∈ l, EqualFold env.unicode (normalizeString env.unicode u.Name).1 name = false) →
      client.GetUserIDbyName.scan env name l id = (id, none) := by
  intro l
  induction l with
  | nil => intro _; rfl
  | cons u rest ih =>
    intro h
    have hu := h u (by simp)
    simp only [normalizeString] at hu
    simp only [client.GetUserIDbyName.scan, normalizeString, hu, Bool.false_eq_true, if_false]
    exact ih (fun t ht => h t (by simp [ht]))

theorem GetScheduleIDbyName_loop_no_match {σ : Type} (env : Env) (b : Backend σ)
    (name : String) (last : ListSchedulesResponse) (hlast : last.Schedules = []) :
    ∀ (pages : List ListSchedulesResponse) (off : Nat) (w : World σ) (fuel : Nat),
      (∀ p ∈ pages, p.Schedules ≠ []) →
      (∀ p ∈ pages, ∀ s ∈ p.Schedules,
        EqualFold env.unicode s.Name (env.pdScheduleTitlePrefix ++ " " ++ name) = false) →
      answers b.ListSchedulesWithContext
          ((List.iterate (fun o => uintAdd o env.increase) off (pages.length + 1)).map
            (client.GetScheduleIDbyName.options env))
          w.state = pages.map Except.ok ++ [Except.ok last] →
      pages.length + 1 ≤ fuel →
      ∃ w1, client.GetScheduleIDbyName.loop env b name fuel ("", "") off w =
          some (("", "", none), w1) := by
  intro pages
  induction pages with
  | nil =>
    intro off w fuel _ _ hb hfuel
    obtain ⟨n, rfl⟩ : ∃ n, fuel = n + 1 := ⟨fuel - 1, by simp at hfuel; omega⟩
    simp only [List.length_nil, Nat.zero_add, List.iterate, List.map_cons, List.map_nil,
      answers, List.nil_append, List.cons.injEq, and_true] at hb
    refine ⟨
      { state := (b.ListSchedulesWithContext (client.GetScheduleIDbyName.options env off)
          w.state).2,
        trace := w.trace ++ [Request.ListSchedules (client.GetScheduleIDbyName.options env off)] },
      ?_⟩
    simp [client.GetScheduleIDbyName.loop, issue, hb, hlast]
  | cons p ps ih =>
    intro off w fuel hp hno hb hfuel
    obtain ⟨n, rfl⟩ : ∃ n, fuel = n + 1 := ⟨fuel - 1, by simp at hfuel; omega⟩
    rw [List.length_cons, List.iterate, List.map_cons, answers_cons, List.map_cons,
      List.cons_append, List.cons.injEq] at hb
    obtain ⟨hb1, hb2⟩ := hb
    have hpne : ¬ p.Schedules.length < 1 := by
      have := hp p (by simp)
      have := List.length_pos.mpr this
      omega
    have hscan := GetScheduleIDbyName_scan_no_match env name ("", "") p.Schedules
      (hno p (by simp))
    obtain ⟨w1, hr⟩ := ih (uintAdd off env.increase)
      { state := (b.ListSchedulesWithContext (client.GetScheduleIDbyName.options env off)
          w.state).2,
        trace := w.trace ++ [Request.ListSchedules (client.GetScheduleIDbyName.options env off)] }
      n (fun q hq => hp q (by simp [hq])) (fun q hq => hno q (by simp [hq])) hb2
      (by simp at hfuel; omega)
    refine ⟨w1, ?_⟩
    simp only [client.GetScheduleIDbyName.loop, issue, hb1, hpne, if_false, hscan, ne_eq,
      not_true_eq_false]
    exact hr

theorem GetUserIDbyName_loop_no_match {σ : Type} (env : Env) (b : Backend σ)
    (name : String) (last : ListUsersResponse) (hlast : last.Users = []) :
    ∀ (pages : List ListUsersResponse) (off : Nat) (w : World σ) (fuel : Nat),
      (∀ p ∈ pages, p.Users ≠ []) →
      (∀ p ∈ pages, ∀ u ∈ p.Users,
        EqualFold env.unicode (normalizeString env.unicode u.Name).1 name = false) →
      answers b.ListUsersWithContext
          ((List.iterate (fun o => uintAdd o env.increase) off (pages.length + 1)).map
            (client.GetUserIDbyName.options env))
          w.state = pages.map Except.ok ++ [Except.ok last] →
      pages.length + 1 ≤ fuel →
      ∃ w1, client.GetUserIDbyName.loop env b name fuel "" off w = some (("", none), w1) := by
  intro pages
  induction pages with
  | nil =>
    intro off w fuel _ _ hb hfuel
    obtain ⟨n, rfl⟩ : ∃ n, fuel = n + 1 := ⟨fuel - 1, by simp at hfuel; omega⟩
    simp only [List.length_nil, Nat.zero_add, List.iterate, List.map_cons, List.map_nil,
      answers, List.nil_append, List.cons.injEq, and_true] at hb
    refine ⟨
      { state := (b.ListUsersWithContext (client.GetUserIDbyName.options env off) w.state).2,
        trace := w.trace ++ [Request.ListUsers (client.GetUserIDbyName.options env off)] },
      ?_⟩
    simp [client.GetUserIDbyName.loop, issue, hb, hlast]
  | cons p ps ih =>
    intro off w fuel hp hno hb hfuel
    obtain ⟨n, rfl⟩ : ∃ n, fuel = n + 1 := ⟨fuel - 1, by simp at hfuel; omega⟩
    rw [List.length_cons, List.iterate, List.map_cons, answers_cons, List.map_cons,
      List.cons_append, List.cons.injEq] at hb
    obtain ⟨hb1, hb2⟩ := hb
    have hpne : ¬ p.Users.length < 1 := by
      have := hp p (by simp)
      have := List.length_pos.mpr this
      omega
    have hscan := GetUserIDbyName_scan_no_match env name "" p.Users (hno p (by simp))
    obtain ⟨w1, hr⟩ := ih (uintAdd off env.increase)
      { state := (b.ListUsersWithContext (client.GetUserIDbyName.options env off) w.state).2,
        trace := w.trace ++ [Request.ListUsers (client.GetUserIDbyName.options env off)] }
      n (fun q hq => hp q (by simp [hq])) (fun q hq => hno q (by simp [hq])) hb2
      (by simp at hfuel; omega)
    refine ⟨w1, ?_⟩
    simp only [client.GetUserIDbyName.loop, issue, hb1, hpne, if_false, hscan, ne_eq,
      not_true_eq_false]
    exact hr

theorem range_offsets_eq_iterate {α : Type} (inc n : Nat) (f : Nat → α) :
    (List.range n).map (fun k => f (k * inc % uintSize)) =
      (List.iterate (fun o => uintAdd o inc) 0 n).map f := by
  have hit := iterate_uintAdd_eq inc n 0
  simp only [Nat.zero_mod, Nat.zero_add] at hit
  rw [hit, List.map_map]
  rfl

/-- C9. For every non-blank `name`: when the backend answers the successive requests of the
lookup with non-empty pages and then an empty page, none of them an error, and no listed
schedule (user) matches the name, the real `GetScheduleIDbyName`, given fuel for all the
pages, returns `("", "", nil)` and the real `GetUserIDbyName` returns `("", nil)`: finding
nothing is not an error. -/
theorem lookup_without_match_returns_no_error {σ : Type} (env : Env) (b : Backend σ)
    (name : String) (hname : ¬ Blank name) (w : World σ) :
    (∀ (pages : List ListSchedulesResponse) (last : ListSchedulesResponse),
      (∀ p ∈ pages, p.Schedules ≠ []) → last.Schedules = [] →
      (∀ p ∈ pages, ∀ s ∈ p.Schedules,
        EqualFold env.unicode s.Name (env.pdScheduleTitlePrefix ++ " " ++ name) = false) →
      answers b.ListSchedulesWithContext
          ((List.range (pages.length + 1)).map (fun k =>
            client.GetScheduleIDbyName.options env (k * env.increase % uintSize)))
          w.state = pages.map Except.ok ++ [Except.ok last] →
      ∀ fuel, pages.length + 1 ≤ fuel →
        ∃ w1, client.GetScheduleIDbyName env b name fuel w = some (("", "", none), w1)) ∧
    (∀ (pages : List ListUsersResponse) (last : ListUsersResponse),
      (∀ p ∈ pages, p.Users ≠ []) → last.Users = [] →
      (∀ p ∈ pages, ∀ u ∈ p.Users,
        EqualFold env.unicode (normalizeString env.unicode u.Name).1 name = false) →
      answers b.ListUsersWithContext
          ((List.range (pages.length + 1)).map (fun k =>
            client.GetUserIDbyName.options env (k * env.increase % uintSize)))
          w.state = pages.map Except.ok ++ [Except.ok last] →
      ∀ fuel, pages.length + 1 ≤ fuel →
        ∃ w1, client.GetUserIDbyName env b name fuel w = some (("", none), w1)) := by
  have hn : TrimSpace name ≠ "" := fun h => hname ((TrimSpace_eq_empty_iff name).mp h)
  constructor
  · intro pages last hp hlast hno hb fuel hfuel
    rw [range_offsets_eq_iterate] at hb
    simp only [client.GetScheduleIDbyName, hn, if_false]
    exact GetScheduleIDbyName_loop_no_match env b name last hlast pages 0 w fuel hp hno hb hfuel
  · intro pages last hp hlast hno hb fuel hfuel
    rw [range_offsets_eq_iterate] at hb
    simp only [client.GetUserIDbyName, hn, if_false]
    exact GetUserIDbyName_loop_no_match env b name last hlast pages 0 w fuel hp hno hb hfuel

/-- C9 for the name of the integration tests that matches nothing, on a backend that holds
one schedule and one user, served in one page before the empty page. -/
theorem lookup_without_match_returns_no_error_witness :
    ¬ Blank "DUMMYSTRING" ∧
    (∃ w1, client.GetScheduleIDbyName env100 (pagedBackend oneScheduleOneUser) "DUMMYSTRING" 2
        (World.start ()) = some (("", "", none), w1)) ∧
    (∃ w1, client.GetUserIDbyName env100 (pagedBackend oneScheduleOneUser) "DUMMYSTRING" 2
        (World.start ()) = some (("", none), w1)) :=
  ⟨by decide,
   (lookup_without_match_returns_no_error env100 (pagedBackend oneScheduleOneUser)
      "DUMMYSTRING" (by decide) (World.start ())).1
      [{ Schedules := oneScheduleOneUser.schedules }] { Schedules := [] }
      (by decide) rfl (by decide) rfl 2 (by decide),
   (lookup_without_match_returns_no_error env100 (pagedBackend oneScheduleOneUser)
      "DUMMYSTRING" (by decide) (World.start ())).2
      [{ Users := oneScheduleOneUser.users }] { Users := [] }
      (by decide) rfl (by decide) rfl 2 (by decide)⟩

/-! ## C10: `GetUserIDbyName` strips the diacritics of the stored name only -/

theorem GetUserIDbyName_scan_first_match (env : Env) (q : String) (id : String) (usr : User)
    (post : List User)
    (hmatch : EqualFold env.unicode (normalizeString env.unicode usr.Name).1 q = true) :
    ∀ (pre : List User),
      (∀ u ∈ pre, EqualFold env.unicode (normalizeString env.unicode u.Name).1 q = false) →
      client.GetUserIDbyName.scan env q (pre ++ usr :: post) id = (usr.ID, none) := by
  intro pre
  induction pre with
  | nil =>
    intro _
    simp only [normalizeString] at hmatch
    simp [client.GetUserIDbyName.scan, normalizeString, hmatch]
  | cons u rest ih =>
    intro h
    have hu := h u (by simp)
    simp only [normalizeString] at hu
    simp only [List.cons_append, client.GetUserIDbyName.scan, normalizeString, hu,
      Bool.false_eq_true, if_false]
    exact ih (fun t ht => h t (by simp [ht]))

/-- C10, the code at the failing input. The stored name `José` and the query `José` are the
same string, hence equal once the diacritics are stripped from both, and the user is the only
one of the first page; `GetUserIDbyName` does not match it and returns the empty identifier
with a nil error: `normalizeString` is applied to the stored name, compared as `Jose`, and not
to the query, compared as given. The sibling `GetUsersIDsByNames`, which compares the two
names as they are, returns the identifier of that user for the same query. -/
theorem GetUserIDbyName_query_with_diacritics_not_matched :
    ¬ Blank "José" ∧
    EqualFold latin1 (normalizeString latin1 "José").1 (normalizeString latin1 "José").1 = true ∧
    (client.GetUserIDbyName env100 (pagedBackend { users := [{ ID := "PJ05E01", Name := "José" }] })
        "José" 2 (World.start ())).map (fun r => r.1) = some ("", none) ∧
    (client.GetUsersIDsByNames env100 scriptedUsers (some ["José"]) 2
        (World.start [Except.ok { Users := [{ ID := "PJ05E01", Name := "José" }] }])).map
      (fun r => r.1) = some (some ["PJ05E01"], none) := by
  decide

/-- What `GetUserIDbyName` does match. For every stored user name and every non-blank query
`q` such that the stored name with its diacritics stripped equals `q` when case is ignored
(the query is compared as given), a user of that name on the first page, with a non-empty
identifier and with no matching user before it on the page, is matched and its identifier
returned with a nil error, as soon as there is fuel for one iteration. -/
theorem GetUserIDbyName_matches_stripped_stored_name {σ : Type} (env : Env) (b : Backend σ)
    (q : String) (hq : ¬ Blank q) (w : World σ) (resp : ListUsersResponse)
    (pre post : List User) (usr : User)
    (hfirst : (b.ListUsersWithContext (client.GetUserIDbyName.options env 0) w.state).1 =
      Except.ok resp)
    (hpage : resp.Users = pre ++ usr :: post)
    (hpre : ∀ u ∈ pre, EqualFold env.unicode (normalizeString env.unicode u.Name).1 q = false)
    (hmatch : EqualFold env.unicode (normalizeString env.unicode usr.Name).1 q = true)
    (hid : usr.ID ≠ "") (fuel : Nat) (hfuel : 1 ≤ fuel) :
    ∃ w1, client.GetUserIDbyName env b q fuel w = some ((usr.ID, none), w1) := by
  have hn : TrimSpace q ≠ "" := fun h => hq ((TrimSpace_eq_empty_iff q).mp h)
  obtain ⟨n, rfl⟩ : ∃ n, fuel = n + 1 := ⟨fuel - 1, by omega⟩
  have hscan := GetUserIDbyName_scan_first_match env q "" usr post hmatch pre hpre
  have hlen : ¬ resp.Users.length < 1 := by
    rw [hpage]; simp
  refine ⟨
    { state := (b.ListUsersWithContext (client.GetUserIDbyName.options env 0) w.state).2,
      trace := w.trace ++ [Request.ListUsers (client.GetUserIDbyName.options env 0)] }, ?_⟩
  simp only [client.GetUserIDbyName, hn, if_false, client.GetUserIDbyName.loop, issue, hfirst,
    hlen]
  rw [hpage, hscan]
  simp [hid]

/-- The example of the specification: the stored name `José` is matched by the query
`JOSE`. -/
theorem GetUserIDbyName_matches_stripped_stored_name_witness :
    ¬ Blank "JOSE" ∧
    EqualFold latin1 (normalizeString latin1 "José").1 "JOSE" = true ∧
    (∃ w1, client.GetUserIDbyName env100
        (pagedBackend { users := [{ ID := "PJ05E01", Name := "José" }] }) "JOSE" 1
        (World.start ()) = some (("PJ05E01", none), w1)) :=
  ⟨by decide, by decide,
   GetUserIDbyName_matches_stripped_stored_name env100
     (pagedBackend { users := [{ ID := "PJ05E01", Name := "José" }] }) "JOSE" (by decide)
     (World.start ()) { Users := [{ ID := "PJ05E01", Name := "José" }] } [] []
     { ID := "PJ05E01", Name := "José" } rfl rfl (by decide) (by decide) (by decide) 1
     (by decide)⟩

/-! ## C11: `GetScheduleIDbyName` stops at the first schedule whose name matches -/

theorem equalFoldRunes_length (u : Unicode) :
    ∀ (s t : List Char), equalFoldRunes u s t = true → s.length = t.length := by
  intro s
  induction s with
  | nil =>
    intro t h
    cases t with
    | nil => rfl
    | cons c cs => simp [equalFoldRunes] at h
  | cons a as ih =>
    intro t h
    cases t with
    | nil => simp [equalFoldRunes] at h
    | cons c cs =>
      simp only [equalFoldRunes, Bool.and_eq_true] at h
      simp [ih cs h.2]

theorem GetScheduleIDbyName_scan_first_match (env : Env) (name : String)
    (acc : String × String) (sch : Schedule) (after : List Schedule)
    (hmatch : EqualFold env.unicode sch.Name (env.pdScheduleTitlePrefix ++ " " ++ name) = true) :
    ∀ (before : List Schedule),
      (∀ s ∈ before,
        EqualFold env.unicode s.Name (env.pdScheduleTitlePrefix ++ " " ++ name) = false) →
      client.GetScheduleIDbyName.scan env name (before ++ sch :: after) acc =
        (sch.ID, sch.TimeZone) := by
  intro before
  induction before with
  | nil =>
    intro _
    simp [client.GetScheduleIDbyName.scan, hmatch]
  | cons s rest ih =>
    intro h
    have hs := h s (by simp)
    simp only [List.cons_append, client.GetScheduleIDbyName.scan, hs, Bool.false_eq_true,
      if_false]
    exact ih (fun t ht => h t (by simp [ht]))

theorem GetScheduleIDbyName_loop_first_match {σ : Type} (env : Env) (b : Backend σ)
    (name : String) (resp : ListSchedulesResponse) (before after : List Schedule)
    (sch : Schedule) (hpage : resp.Schedules = before ++ sch :: after)
    (hbefore : ∀ s ∈ before,
      EqualFold env.unicode s.Name (env.pdScheduleTitlePrefix ++ " " ++ name) = false)
    (hmatch : EqualFold env.unicode sch.Name (env.pdScheduleTitlePrefix ++ " " ++ name) = true)
    (hid : sch.ID ≠ "") :
    ∀ (pre : List ListSchedulesResponse) (off : Nat) (w : World σ) (fuel : Nat),
      (∀ p ∈ pre, p.Schedules ≠ []) →
      (∀ p ∈ pre, ∀ s ∈ p.Schedules,
        EqualFold env.unicode s.Name (env.pdScheduleTitlePrefix ++ " " ++ name) = false) →
      answers b.ListSchedulesWithContext
          ((List.iterate (fun o => uintAdd o env.increase) off (pre.length + 1)).map
            (client.GetScheduleIDbyName.options env))
          w.state = pre.map Except.ok ++ [Except.ok resp] →
      pre.length + 1 ≤ fuel →
      ∃ w1, client.GetScheduleIDbyName.loop env b name fuel ("", "") off w =
          some ((sch.ID, sch.TimeZone, none), w1) ∧
        w1.trace = w.trace ++
          (List.iterate (fun o => uintAdd o env.increase) off (pre.length + 1)).map
            (fun o => Request.ListSchedules (client.GetScheduleIDbyName.options env o)) := by
  intro pre
  induction pre with
  | nil =>
    intro off w fuel _ _ hb hfuel
    obtain ⟨n, rfl⟩ : ∃ n, fuel = n + 1 := ⟨fuel - 1, by simp at hfuel; omega⟩
    simp only [List.length_nil, Nat.zero_add, List.iterate, List.map_cons, List.map_nil,
      answers, List.nil_append, List.cons.injEq, and_true] at hb
    have hlen : ¬ resp.Schedules.length < 1 := by
      rw [hpage]; simp
    have hscan := GetScheduleIDbyName_scan_first_match env name ("", "") sch after hmatch
      before hbefore
    refine ⟨
      { state := (b.ListSchedulesWithContext (client.GetScheduleIDbyName.options env off)
          w.state).2,
        trace := w.trace ++ [Request.ListSchedules (client.GetScheduleIDbyName.options env off)] },
      ?_, ?_⟩
    · simp only [client.GetScheduleIDbyName.loop, issue, hb, hlen, if_false]
      rw [hpage, hscan]
      simp [hid]
    · simp [List.iterate]
  | cons p ps ih =>
    intro off w fuel hp hno hb hfuel
    obtain ⟨n, rfl⟩ : ∃ n, fuel = n + 1 := ⟨fuel - 1, by simp at hfuel; omega⟩
    rw [List.length_cons, List.iterate, List.map_cons, answers_cons, List.map_cons,
      List.cons_append, List.cons.injEq] at hb
    obtain ⟨hb1, hb2⟩ := hb
    have hpne : ¬ p.Schedules.length < 1 := by
      have := hp p (by simp)
      have := List.length_pos.mpr this
      omega
    have hscan := GetScheduleIDbyName_scan_no_match env name ("", "") p.Schedules
      (hno p (by simp))
    obtain ⟨w1, hr, ht⟩ := ih (uintAdd off env.increase)
      { state := (b.ListSchedulesWithContext (client.GetScheduleIDbyName.options env off)
          w.state).2,
        trace := w.trace ++ [Request.ListSchedules (client.GetScheduleIDbyName.options env off)] }
      n (fun q hq => hp q (by simp [hq])) (fun q hq => hno q (by simp [hq])) hb2
      (by simp at hfuel; omega)
    refine ⟨w1, ?_, ?_⟩
    · simp only [client.GetScheduleIDbyName.loop, issue, hb1, hpne, if_false, hscan, ne_eq,
        not_true_eq_false]
      exact hr
    · rw [ht]
      simp [List.iterate]

/-- C11. For every non-blank `name` and every error-free sequence of non-empty schedule
pages: when `sch`, with a non-empty ID, is the first schedule in page order and in-page order
whose `Name` equals `pdScheduleTitlePrefix + " " + name` under `strings.EqualFold`, the real
`GetScheduleIDbyName`, given fuel for the pages up to that one, returns `sch.ID`,
`sch.TimeZone` and a nil error, and its requests are exactly those for the pages up to the one
that holds `sch`: no page is requested after it. The match is of the whole name: a matching
name has as many runes as the sought title. -/
theorem GetScheduleIDbyName_returns_first_match {σ : Type} (env : Env) (b : Backend σ)
    (name : String) (hname : ¬ Blank name) (w : World σ)
    (pre : List ListSchedulesResponse) (resp : ListSchedulesResponse)
    (before after : List Schedule) (sch : Schedule)
    (hpre : ∀ p ∈ pre, p.Schedules ≠ [])
    (hno : ∀ p ∈ pre, ∀ s ∈ p.Schedules,
      EqualFold env.unicode s.Name (env.pdScheduleTitlePrefix ++ " " ++ name) = false)
    (hpage : resp.Schedules = before ++ sch :: after)
    (hbefore : ∀ s ∈ before,
      EqualFold env.unicode s.Name (env.pdScheduleTitlePrefix ++ " " ++ name) = false)
    (hmatch : EqualFold env.unicode sch.Name (env.pdScheduleTitlePrefix ++ " " ++ name) = true)
    (hid : sch.ID ≠ "")
    (hb : answers b.ListSchedulesWithContext
        ((List.range (pre.length + 1)).map (fun k =>
          client.GetScheduleIDbyName.options env (k * env.increase % uintSize)))
        w.state = pre.map Except.ok ++ [Except.ok resp])
    (fuel : Nat) (hfuel : pre.length + 1 ≤ fuel) :
    ∃ w1, client.GetScheduleIDbyName env b name fuel w =
        some ((sch.ID, sch.TimeZone, none), w1) ∧
      w1.trace = w.trace ++ (List.range (pre.length + 1)).map (fun k =>
        Request.ListSchedules
          (client.GetScheduleIDbyName.options env (k * env.increase % uintSize))) ∧
      sch.Name.data.length = (env.pdScheduleTitlePrefix ++ " " ++ name).data.length := by
  have hn : TrimSpace name ≠ "" := fun h => hname ((TrimSpace_eq_empty_iff name).mp h)
  rw [range_offsets_eq_iterate] at hb
  obtain ⟨w1, hr, ht⟩ := GetScheduleIDbyName_loop_first_match env b name resp before after sch
    hpage hbefore hmatch hid pre 0 w fuel hpre hno hb hfuel
  refine ⟨w1, ?_, ?_, equalFoldRunes_length env.unicode _ _ hmatch⟩
  · simp only [client.GetScheduleIDbyName, hn, if_false]
    exact hr
  · rw [ht]
    congr 1
    exact (range_offsets_eq_iterate env.increase (pre.length + 1)
      (fun o => Request.ListSchedules (client.GetScheduleIDbyName.options env o))).symm

/-- C11 on a backend that holds three schedules and serves pages of two: the schedule sought
is the third one, alone on the second page; it is found with two requests (offsets 0 and 2),
and the first schedule, whose name only starts with the sought title, is not taken. -/
theorem GetScheduleIDbyName_returns_first_match_witness :
    ¬ Blank "Caleb Young" ∧
    ∃ w1, client.GetScheduleIDbyName env2 (pagedBackend threeSchedules) "Caleb Young" 2
        (World.start ()) = some (("PUHMCXV", "America/Denver", none), w1) ∧
      w1.trace = [Request.ListSchedules (client.GetScheduleIDbyName.options env2 0),
        Request.ListSchedules (client.GetScheduleIDbyName.options env2 2)] := by
  refine ⟨by decide, ?_⟩
  obtain ⟨w1, hr, ht, -⟩ :=
    GetScheduleIDbyName_returns_first_match env2 (pagedBackend threeSchedules) "Caleb Young"
      (by decide) (World.start ())
      [{ Schedules := threeSchedules.schedules.take 2 }]
      { Schedules := threeSchedules.schedules.drop 2 } [] []
      { ID := "PUHMCXV", Name := "gsoc caleb young", TimeZone := "America/Denver" }
      (by decide) (by decide) rfl (by decide) (by decide) (by decide) rfl 2 (by decide)
  exact ⟨w1, hr, ht⟩

/-! ## C12: `GetIndicentsByEscalationPolicy` keeps the incidents of the policy, in order -/

theorem GetIndicentsByEscalationPolicy_scan_elems (id : String) :
    ∀ (l : List Incident) (acc : Option (List Incident) × String),
      elems (client.GetIndicentsByEscalationPolicy.scan id l acc).1 =
        elems acc.1 ++ l.filter (fun i => decide (i.EscalationPolicy.ID = id)) := by
  intro l
  induction l with
  | nil => intro acc; simp [client.GetIndicentsByEscalationPolicy.scan]
  | cons i rest ih =>
    intro acc
    simp only [client.GetIndicentsByEscalationPolicy.scan]
    rw [ih]
    by_cases h : i.EscalationPolicy.ID = id
    · simp [h, elems_goAppend]
    · simp [h]

theorem GetIndicentsByEscalationPolicy_loop_pages {σ : Type} (env : Env) (b : Backend σ)
    (id : String) (last : ListIncidentsResponse) (hlast : last.Incidents = []) :
    ∀ (pages : List ListIncidentsResponse) (acc : Option (List Incident) × String) (off : Nat)
      (w : World σ) (fuel : Nat),
      (∀ p ∈ pages, p.Incidents ≠ []) →
      answers b.ListIncidentsWithContext (incidentRequests env id pages off acc) w.state =
        pages.map Except.ok ++ [Except.ok last] →
      pages.length + 1 ≤ fuel →
      ∃ r w1, client.GetIndicentsByEscalationPolicy.loop env b id fuel acc off w =
          some ((r, none), w1) ∧
        elems r = elems acc.1 ++
          (pages.flatMap (fun p => p.Incidents)).filter
            (fun i => decide (i.EscalationPolicy.ID = id)) := by
  intro pages
  induction pages with
  | nil =>
    intro acc off w fuel _ hb hfuel
    obtain ⟨n, rfl⟩ : ∃ n, fuel = n + 1 := ⟨fuel - 1, by simp at hfuel; omega⟩
    simp only [incidentRequests, answers, List.map_nil, List.nil_append, List.cons.injEq,
      and_true] at hb
    refine ⟨acc.1,
      { state := (b.ListIncidentsWithContext
          (client.GetIndicentsByEscalationPolicy.options env off acc.2) w.state).2,
        trace := w.trace ++ [Request.ListIncidents
          (client.GetIndicentsByEscalationPolicy.options env off acc.2)] },
      ?_, ?_⟩
    · simp [client.GetIndicentsByEscalationPolicy.loop, issue, hb, hlast]
    · simp
  | cons p ps ih =>
    intro acc off w fuel hp hb hfuel
    obtain ⟨n, rfl⟩ : ∃ n, fuel = n + 1 := ⟨fuel - 1, by simp at hfuel; omega⟩
    rw [incidentRequests, answers_cons, List.map_cons, List.cons_append, List.cons.injEq] at hb
    obtain ⟨hb1, hb2⟩ := hb
    have hpne : ¬ p.Incidents.length < 1 := by
      have := hp p (by simp)
      have := List.length_pos.mpr this
      omega
    obtain ⟨r, w1, hr, he⟩ := ih
      (client.GetIndicentsByEscalationPolicy.scan id p.Incidents acc)
      (uintAdd off env.increase)
      { state := (b.ListIncidentsWithContext
          (client.GetIndicentsByEscalationPolicy.options env off acc.2) w.state).2,
        trace := w.trace ++ [Request.ListIncidents
          (client.GetIndicentsByEscalationPolicy.options env off acc.2)] }
      n (fun q hq => hp q (by simp [hq])) hb2 (by simp at hfuel; omega)
    refine ⟨r, w1, ?_, ?_⟩
    · simp only [client.GetIndicentsByEscalationPolicy.loop, issue, hb1, hpne, if_false]
      exact hr
    · rw [he, GetIndicentsByEscalationPolicy_scan_elems]
      simp

/-- C12. For every non-blank `escalationPolicyID` and every sequence of non-empty incident
pages followed by an empty page, none of them an error, that the backend gives to the
successive requests of the operation: the real `GetIndicentsByEscalationPolicy`, given fuel
for all the pages, returns a nil error and exactly the incidents of the concatenated pages
whose `EscalationPolicy.ID` is `escalationPolicyID`, in their order. Every returned incident
has that ID, and no fetched incident with that ID is missing. -/
theorem GetIndicentsByEscalationPolicy_returns_filtered {σ : Type} (env : Env) (b : Backend σ)
    (escalationPolicyID : String) (hid : ¬ Blank escalationPolicyID) (timeRange : Int)
    (pages : List ListIncidentsResponse) (last : ListIncidentsResponse)
    (hpages : ∀ p ∈ pages, p.Incidents ≠ []) (hlast : last.Incidents = [])
    (w : World σ)
    (hb : answers b.ListIncidentsWithContext
        (incidentRequests env escalationPolicyID pages 0 (none, querySince env b timeRange w))
        w.state = pages.map Except.ok ++ [Except.ok last])
    (fuel : Nat) (hfuel : pages.length + 1 ≤ fuel) :
    ∃ r w1, client.GetIndicentsByEscalationPolicy env b escalationPolicyID timeRange fuel w =
        some ((r, none), w1) ∧
      elems r = (pages.flatMap (fun p => p.Incidents)).filter
        (fun i => decide (i.EscalationPolicy.ID = escalationPolicyID)) ∧
      (∀ i ∈ elems r, i.EscalationPolicy.ID = escalationPolicyID) ∧
      (∀ p ∈ pages, ∀ i ∈ p.Incidents, i.EscalationPolicy.ID = escalationPolicyID →
        i ∈ elems r) := by
  have hn : TrimSpace escalationPolicyID ≠ "" :=
    fun h => hid ((TrimSpace_eq_empty_iff escalationPolicyID).mp h)
  obtain ⟨r, w1, hr, he⟩ := GetIndicentsByEscalationPolicy_loop_pages env b escalationPolicyID
    last hlast pages (none, querySince env b timeRange w) 0 w fuel hpages hb hfuel
  have he1 : elems r = (pages.flatMap (fun p => p.Incidents)).filter
      (fun i => decide (i.EscalationPolicy.ID = escalationPolicyID)) := by
    simpa [elems] using he
  refine ⟨r, w1, ?_, he1, ?_, ?_⟩
  · simp only [client.GetIndicentsByEscalationPolicy, hn, if_false, LoadLocationUTC]
    exact hr
  · intro i hi
    rw [he1] at hi
    simpa using (List.mem_filter.mp hi).2
  · intro p hp i hi hie
    rw [he1]
    exact List.mem_filter.mpr ⟨List.mem_flatMap.mpr ⟨p, hp, hi⟩, by simpa using hie⟩

/-- C12 on a backend that holds three incidents, the first and the third of the policy
`PXYKJ4K`, and serves pages of two: both are returned, in order, the second is left out. -/
theorem GetIndicentsByEscalationPolicy_returns_filtered_witness :
    ¬ Blank "PXYKJ4K" ∧
    ∃ r w1, client.GetIndicentsByEscalationPolicy env2 (pagedBackend threeIncidents) "PXYKJ4K"
        (-30) 3 (World.start ()) = some ((r, none), w1) ∧
      elems r = [
        { ID := "Q3XZW6AK6GZ3TZ", CreatedAt := "2022-09-06T03:00:15Z",
          EscalationPolicy := { ID := "PXYKJ4K" } },
        { ID := "Q0HV1FERSUO36A", CreatedAt := "2022-09-06T03:18:04Z",
          EscalationPolicy := { ID := "PXYKJ4K" } }] := by
  refine ⟨by decide, ?_⟩
  obtain ⟨r, w1, hr, he, -, -⟩ :=
    GetIndicentsByEscalationPolicy_returns_filtered env2 (pagedBackend threeIncidents) "PXYKJ4K"
      (by decide) (-30)
      [{ Incidents := threeIncidents.incidents.take 2 },
       { Incidents := threeIncidents.incidents.drop 2 }]
      { Incidents := [] } (by decide) rfl (World.start ()) rfl 3 (by decide)
  exact ⟨r, w1, hr, he⟩

/-! ## C13: `GetIndicentsByTag` indexes the first tag without a length check -/

/-- C13, the code at the failing input. For the tag name `TEST` of the integration test,
which no tag of the backend carries, the tag lookup succeeds with an empty list (one request,
nil error) and `GetIndicentsByTag` then evaluates `tagIdList[0]`: it stops with a run-time
panic instead of returning an error. -/
theorem GetIndicentsByTag_panics_on_unknown_tag :
    client.ListAllTags env100 (pagedBackend {}) { Query := "TEST" } 1 (World.start ()) =
      some ((none, none),
        { state := (),
          trace := [Request.ListTags { Limit := 100, Offset := 0, Query := "TEST" }] }) ∧
    ¬ Blank "TEST" ∧
    client.GetIndicentsByTag env100 (pagedBackend {}) "TEST" (-30) 1 (World.start ()) =
      some (Outcome.panicked "index out of range [0] with length 0",
        { state := (),
          trace := [Request.ListTags { Limit := 100, Offset := 0, Query := "TEST" }] }) := by
  refine ⟨rfl, by decide, ?_⟩
  rfl

/-! ## C14 to C16: the fake `CreateOverride` and the fake `UpdateEscalationPolicy` -/

/-- C14. For all `scheduleID`, `userID`, `start` and `end` that are each non-blank, the fake
`CreateOverride` returns a nil error and a non-nil override whose `Start` is `start` and whose
`End` is `end`, character for character, and whose `User.ID` is `userID`. -/
theorem fake_CreateOverride_echoes_arguments (scheduleID userID start end_ : String)
    (h1 : ¬ Blank scheduleID) (h2 : ¬ Blank userID) (h3 : ¬ Blank start) (h4 : ¬ Blank end_) :
    ∃ o, FakePDClient.CreateOverride scheduleID userID start end_ = (some o, none) ∧
      o.Start = start ∧ o.End = end_ ∧ o.User.ID = userID := by
  have e1 : TrimSpace scheduleID ≠ "" := fun h => h1 ((TrimSpace_eq_empty_iff _).mp h)
  have e2 : TrimSpace userID ≠ "" := fun h => h2 ((TrimSpace_eq_empty_iff _).mp h)
  have e3 : TrimSpace start ≠ "" := fun h => h3 ((TrimSpace_eq_empty_iff _).mp h)
  have e4 : TrimSpace end_ ≠ "" := fun h => h4 ((TrimSpace_eq_empty_iff _).mp h)
  exact ⟨{ ID := "TEST", Start := start, End := end_, User := { ID := userID } },
    by simp only [FakePDClient.CreateOverride, e1, e2, e3, e4, if_false], rfl, rfl, rfl⟩

/-- C14 on times with surrounding blanks: they come back untrimmed. -/
theorem fake_CreateOverride_echoes_arguments_witness :
    ∃ o, FakePDClient.CreateOverride "P10QVCS" "PWKNFGT" " 2022-08-31T14:00:00-06:00"
        "2022-09-01T00:00:00-06:00 " = (some o, none) ∧
      o.Start = " 2022-08-31T14:00:00-06:00" ∧ o.End = "2022-09-01T00:00:00-06:00 " ∧
      o.User.ID = "PWKNFGT" :=
  fake_CreateOverride_echoes_arguments "P10QVCS" "PWKNFGT" " 2022-08-31T14:00:00-06:00"
    "2022-09-01T00:00:00-06:00 " (by decide) (by decide) (by decide) (by decide)

/-- C15. For every non-blank `id`, non-blank `userID`, non-nil escalation list and arbitrary
`serviceID` and `teamID`, the fake `UpdateEscalationPolicy` returns a nil error and a policy
whose `ID` is the `id` argument as given, leading and trailing white space included. -/
theorem fake_UpdateEscalationPolicy_returns_id (id userID serviceID teamID : String)
    (escalation : List APIObject) (h1 : ¬ Blank id) (h2 : ¬ Blank userID) :
    ∃ p, FakePDClient.UpdateEscalationPolicy id userID serviceID teamID (some escalation) =
        (some p, none) ∧ p.ID = id := by
  have e1 : TrimSpace id ≠ "" := fun h => h1 ((TrimSpace_eq_empty_iff _).mp h)
  have e2 : TrimSpace userID ≠ "" := fun h => h2 ((TrimSpace_eq_empty_iff _).mp h)
  exact ⟨{ ID := id, Services := some [{ ID := serviceID }], Teams := some [{ ID := teamID }] },
    by simp [FakePDClient.UpdateEscalationPolicy, e1, e2], rfl⟩

/-- C15 on the identifier with three leading blanks of the unit test. -/
theorem fake_UpdateEscalationPolicy_returns_id_witness :
    ∃ p, FakePDClient.UpdateEscalationPolicy "   P23N6LT" "PWKNFGT" "  " ""
        (some [{ ID := "P273W1N", Type_ := "user_reference" }]) = (some p, none) ∧
      p.ID = "   P23N6LT" :=
  fake_UpdateEscalationPolicy_returns_id "   P23N6LT" "PWKNFGT" "  " ""
    [{ ID := "P273W1N", Type_ := "user_reference" }] (by decide) (by decide)

/-- C16, the claim fails as stated. For the valid arguments of the unit test the policy that
the fake `UpdateEscalationPolicy` returns has no escalation rules at all (`EscalationRules`
is nil): there is no first rule with delay 5 and no second rule with delay 15. -/
theorem fake_UpdateEscalationPolicy_has_no_rules :
    ¬ Blank "P23N6LT" ∧ ¬ Blank "PWKNFGT" ∧
    ∃ p, FakePDClient.UpdateEscalationPolicy "P23N6LT" "PWKNFGT" "P39MEWZ" "P83EOFI"
        (some [{ ID := "P273W1N", Type_ := "user_reference" }]) = (some p, none) ∧
      p.EscalationRules = none ∧
      (elems p.EscalationRules)[0]? = none ∧ (elems p.EscalationRules)[1]? = none := by
  refine ⟨by decide, by decide, _, rfl, rfl, rfl, rfl⟩

/-- C16, amended. For every valid argument tuple, the policy returned by the fake
`UpdateEscalationPolicy` carries the identifier, one service reference with the given
`serviceID` and one team reference with the given `teamID`, and no escalation rules; the
user and the escalation list do not appear in it. -/
theorem fake_UpdateEscalationPolicy_result (id userID serviceID teamID : String)
    (escalation : List APIObject) (h1 : ¬ Blank id) (h2 : ¬ Blank userID) :
    FakePDClient.UpdateEscalationPolicy id userID serviceID teamID (some escalation) =
      (some { ID := id, EscalationRules := none,
              Services := some [{ ID := serviceID }],
              Teams := some [{ ID := teamID }] }, none) := by
  have e1 : TrimSpace id ≠ "" := fun h => h1 ((TrimSpace_eq_empty_iff _).mp h)
  have e2 : TrimSpace userID ≠ "" := fun h => h2 ((TrimSpace_eq_empty_iff _).mp h)
  simp [FakePDClient.UpdateEscalationPolicy, e1, e2]

/-- C16, amended, on the first case of the unit test. -/
theorem fake_UpdateEscalationPolicy_result_witness :
    FakePDClient.UpdateEscalationPolicy "P23N6LT" "PWKNFGT" "P39MEWZ" "P83EOFI"
        (some [{ ID := "P273W1N", Type_ := "user_reference" }]) =
      (some { ID := "P23N6LT", EscalationRules := none,
              Services := some [{ ID := "P39MEWZ" }],
              Teams := some [{ ID := "P83EOFI" }] }, none) :=
  fake_UpdateEscalationPolicy_result "P23N6LT" "PWKNFGT" "P39MEWZ" "P83EOFI"
    [{ ID := "P273W1N", Type_ := "user_reference" }] (by decide) (by decide)

/-! ## C17: the request that the real `CreateIncident` passes to the backend -/

/-- C17. For every non-blank `title` and `serviceID`, the real `CreateIncident` issues exactly
one request, `CreateIncident` on behalf of `nobody@justin.tv`, whose options have `Type`
`incident`, `Title` equal to `title` and the `Service` reference
`{ID: serviceID, Type: "service_reference"}`. Each optional field is absent exactly when its
argument is the empty string and carries the argument unchanged otherwise: `Urgency` is the
zero string iff `urgency` is empty and is `urgency` in any case, `Body` is nil iff `details` is
empty and else holds `details`, `EscalationPolicy` is nil iff `escalationPolicyID` is empty and
else refers to it. -/
theorem CreateIncident_request_options {σ : Type} (b : Backend σ)
    (title serviceID urgency details escalationPolicyID : String)
    (h1 : ¬ Blank title) (h2 : ¬ Blank serviceID) (w : World σ) :
    ∃ o : CreateIncidentOptions,
      (client.CreateIncident b title serviceID urgency details escalationPolicyID w).2.trace =
        w.trace ++ [Request.CreateIncident "nobody@justin.tv" o] ∧
      o.Type_ = "incident" ∧ o.Title = title ∧
      o.Service = some { ID := serviceID, Type_ := "service_reference" } ∧
      (o.Urgency = "" ↔ urgency = "") ∧ o.Urgency = urgency ∧
      (o.Body = none ↔ details = "") ∧
      (details ≠ "" → o.Body = some { Type_ := "incident_body", Details := details }) ∧
      (o.EscalationPolicy = none ↔ escalationPolicyID = "") ∧
      (escalationPolicyID ≠ "" → o.EscalationPolicy =
        some { ID := escalationPolicyID, Type_ := "escalation_policy_reference" }) := by
  have e1 : TrimSpace title ≠ "" := fun h => h1 ((TrimSpace_eq_empty_iff _).mp h)
  have e2 : TrimSpace serviceID ≠ "" := fun h => h2 ((TrimSpace_eq_empty_iff _).mp h)
  refine ⟨
    { Type_ := "incident", Title := title,
      Service := some { ID := serviceID, Type_ := "service_reference" },
      Urgency := urgency,
      Body := if details = "" then none
        else some { Type_ := "incident_body", Details := details },
      EscalationPolicy := if escalationPolicyID = "" then none
        else some { ID := escalationPolicyID, Type_ := "escalation_policy_reference" } },
    ?_, rfl, rfl, rfl, Iff.rfl, rfl, ?_, ?_, ?_, ?_⟩
  · simp only [client.CreateIncident, e1, e2, if_false, strLen_pos_iff]
    by_cases hu : urgency = "" <;> by_cases hd : details = "" <;>
      by_cases he : escalationPolicyID = "" <;>
      · simp only [hu, hd, he, ne_eq, not_true_eq_false, not_false_eq_true, if_true, if_false]
        split <;>
        · rename_i heq
          simp only [issue, Prod.mk.injEq] at heq
          obtain ⟨_, rfl⟩ := heq
          rfl
  · by_cases hd : details = "" <;> simp [hd]
  · intro hd; simp [hd]
  · by_cases he : escalationPolicyID = "" <;> simp [he]
  · intro he; simp [he]

/-- C17 on the two accepted cases of the integration test: all optional arguments given, and
none of them given. -/
theorem CreateIncident_request_options_witness :
    (client.CreateIncident (pagedBackend {}) "The server is on fire" "P03NRF0" "high"
        "Someone call firefighers!" "PXYKJ4K" (World.start ())).2.trace =
      [Request.CreateIncident "nobody@justin.tv"
        { Type_ := "incident", Title := "The server is on fire",
          Service := some { ID := "P03NRF0", Type_ := "service_reference" },
          Urgency := "high",
          Body := some { Type_ := "incident_body", Details := "Someone call firefighers!" },
          EscalationPolicy := some { ID := "PXYKJ4K", Type_ := "escalation_policy_reference" } }] ∧
    ∃ o : CreateIncidentOptions,
      (client.CreateIncident (pagedBackend {}) "The server is on fire" "P03NRF0" "" "" ""
          (World.start ())).2.trace = [Request.CreateIncident "nobody@justin.tv" o] ∧
        o.Urgency = "" ∧ o.Body = none ∧ o.EscalationPolicy = none := by
  refine ⟨by decide, ?_⟩
  obtain ⟨o, ht, -, -, -, hu, -, hb, -, he, -⟩ :=
    CreateIncident_request_options (pagedBackend {}) "The server is on fire" "P03NRF0" "" "" ""
      (by decide) (by decide) (World.start ())
  exact ⟨o, ht, hu.mpr rfl, hb.mpr rfl, he.mpr rfl⟩

/-! ## C18 to C20: the fixed answers of the fake -/

/-- C18. For every non-blank `incidentID`, the fake `SearchIncidentLogs` returns
`Resolved through the API.` for the log type `resolve_log_entry`,
`Assigned to Timur Kalandarov.` for `assign_log_entry`, `Triggered through the API.` for
`trigger_log_entry`, each with a nil error, and for every other non-blank log type a nil
result with a nil error. -/
theorem fake_SearchIncidentLogs_by_type (incidentID : String) (h : ¬ Blank incidentID) :
    FakePDClient.SearchIncidentLogs incidentID "resolve_log_entry" =
      (some "Resolved through the API.", none) ∧
    FakePDClient.SearchIncidentLogs incidentID "assign_log_entry" =
      (some "Assigned to Timur Kalandarov.", none) ∧
    FakePDClient.SearchIncidentLogs incidentID "trigger_log_entry" =
      (some "Triggered through the API.", none) ∧
    (∀ logType, ¬ Blank logType → logType ≠ "resolve_log_entry" →
      logType ≠ "assign_log_entry" → logType ≠ "trigger_log_entry" →
      FakePDClient.SearchIncidentLogs incidentID logType = (none, none)) := by
  have e : TrimSpace incidentID ≠ "" := fun h0 => h ((TrimSpace_eq_empty_iff _).mp h0)
  have r1 : TrimSpace "resolve_log_entry" ≠ "" := by decide
  have r2 : TrimSpace "assign_log_entry" ≠ "" := by decide
  have r3 : TrimSpace "trigger_log_entry" ≠ "" := by decide
  refine ⟨?_, ?_, ?_, ?_⟩
  · simp only [FakePDClient.SearchIncidentLogs, e, r1, if_false, if_true]
  · simp only [FakePDClient.SearchIncidentLogs, e, r2, if_false]
    decide
  · simp only [FakePDClient.SearchIncidentLogs, e, r3, if_false]
    decide
  · intro logType hl n1 n2 n3
    have el : TrimSpace logType ≠ "" := fun h0 => hl ((TrimSpace_eq_empty_iff _).mp h0)
    simp only [FakePDClient.SearchIncidentLogs, e, el, n1, n2, n3, if_false]

/-- C18 on the log types of the specification in another case and with surrounding blanks:
they are not recognised. -/
theorem fake_SearchIncidentLogs_by_type_witness :
    ¬ Blank "Q3XZW6AK6GZ3TZ" ∧
    FakePDClient.SearchIncidentLogs "Q3XZW6AK6GZ3TZ" "resolve_log_entry" =
      (some "Resolved through the API.", none) ∧
    FakePDClient.SearchIncidentLogs "Q3XZW6AK6GZ3TZ" "Resolve_Log_Entry" = (none, none) ∧
    FakePDClient.SearchIncidentLogs "Q3XZW6AK6GZ3TZ" " resolve_log_entry " = (none, none) :=
  ⟨by decide,
   (fake_SearchIncidentLogs_by_type "Q3XZW6AK6GZ3TZ" (by decide)).1,
   (fake_SearchIncidentLogs_by_type "Q3XZW6AK6GZ3TZ" (by decide)).2.2.2 "Resolve_Log_Entry"
     (by decide) (by decide) (by decide) (by decide),
   (fake_SearchIncidentLogs_by_type "Q3XZW6AK6GZ3TZ" (by decide)).2.2.2 " resolve_log_entry "
     (by decide) (by decide) (by decide) (by decide)⟩

/-- C19. For every `ListTagOptions` value, a `Query` filter included, the fake `ListAllTags`
returns a nil error and exactly four tags, whose labels are `ETS`, `GSOC`, `VIDOPS` and `VOR`
in this order. -/
theorem fake_ListAllTags_four_tags (options : ListTagOptions) :
    ∃ tags, FakePDClient.ListAllTags options = (some tags, none) ∧ tags.length = 4 ∧
      tags.map (fun t => t.Label) = ["ETS", "GSOC", "VIDOPS", "VOR"] :=
  ⟨getFakedTags.Tags, rfl, rfl, rfl⟩

/-- C20. For every non-blank `tagID`, the fake `GetEscalationPoliciesByTag` returns a nil
error and exactly three escalation policies, named `Ad Server Escalation`,
`App code validation` and `Browser Grid` in this order. -/
theorem fake_GetEscalationPoliciesByTag_three_policies (tagID : String) (h : ¬ Blank tagID) :
    ∃ r, FakePDClient.GetEscalationPoliciesByTag tagID = (some r, none) ∧
      r.EscalationPolicies.length = 3 ∧
      r.EscalationPolicies.map (fun p => p.Summary) =
        ["Ad Server Escalation", "App code validation", "Browser Grid"] := by
  have e : TrimSpace tagID ≠ "" := fun h0 => h ((TrimSpace_eq_empty_iff _).mp h0)
  exact ⟨
    { EscalationPolicies := [
        { ID := "PP2PMMD", Summary := "Ad Server Escalation" },
        { ID := "PKR3E6F", Summary := "App code validation" },
        { ID := "PGPQHZF", Summary := "Browser Grid" }] },
    by simp only [FakePDClient.GetEscalationPoliciesByTag, e, if_false], rfl, rfl⟩

/-- C20 on the tag identifier `P74RRGF` of the specification. -/
theorem fake_GetEscalationPoliciesByTag_three_policies_witness :
    ∃ r, FakePDClient.GetEscalationPoliciesByTag "P74RRGF" = (some r, none) ∧
      r.EscalationPolicies.length = 3 ∧
      r.EscalationPolicies.map (fun p => p.Summary) =
        ["Ad Server Escalation", "App code validation", "Browser Grid"] :=
  fake_GetEscalationPoliciesByTag_three_policies "P74RRGF" (by decide)

/-! ## C21: the `range` loop of the fake `SearchIncidents` changes copies only -/

theorem fake_SearchIncidents_rangeLoop_eq (serviceQuery : String) (incidents : List Incident) :
    ∀ (rest : List Incident),
      FakePDClient.SearchIncidents.rangeLoop serviceQuery incidents rest = incidents := by
  intro rest
  induction rest with
  | nil => rfl
  | cons i rest ih => simpa [FakePDClient.SearchIncidents.rangeLoop] using ih

/-- C21, the code at the failing input. For the query `Twilight` the fake `SearchIncidents`
returns the three incidents of `getFakedIncidents` as they are: the `Service.Summary` of each
one is still the empty string, which neither ends with nor contains the query. The same
holds for every query, the fake returns `getFakedIncidents` unchanged whenever the query is
not empty, because the loop appends the query to the loop variable, a copy of the element.
For the empty query it returns an empty list and a nil error. -/
theorem fake_SearchIncidents_summaries_unchanged :
    FakePDClient.SearchIncidents "Twilight" (-30) = (some getFakedIncidents, none) ∧
    (∀ i ∈ getFakedIncidents, i.Service.Summary = "" ∧
      ¬ List.IsSuffix "Twilight".data i.Service.Summary.data ∧
      Contains i.Service.Summary "Twilight" = false) ∧
    (∀ serviceQuery timeRange, FakePDClient.SearchIncidents serviceQuery timeRange =
      if serviceQuery = "" then (some [], none) else (some getFakedIncidents, none)) := by
  refine ⟨?_, by decide, ?_⟩
  · simp [FakePDClient.SearchIncidents, fake_SearchIncidents_rangeLoop_eq]
  · intro serviceQuery timeRange
    by_cases h : serviceQuery = ""
    · simp [FakePDClient.SearchIncidents, h]
    · simp [FakePDClient.SearchIncidents, h, fake_SearchIncidents_rangeLoop_eq]

/-! ## C22: the fake `GetUsersIDsByNames` -/

theorem fake_GetUsersIDsByNames_fill_elems :
    ∀ (ns : List String) (resp : Option (List String)),
      elems (FakePDClient.GetUsersIDsByNames.fill ns resp) =
        elems resp ++ List.replicate ns.length existingUserID := by
  intro ns
  induction ns with
  | nil => intro resp; simp [FakePDClient.GetUsersIDsByNames.fill]
  | cons n rest ih =>
    intro resp
    rw [FakePDClient.GetUsersIDsByNames.fill, ih, elems_goAppend]
    simp [List.replicate_succ]

theorem fake_GetUsersIDsByNames_fill_some :
    ∀ (ns : List String) (resp : Option (List String)), ns ≠ [] →
      ∃ l, FakePDClient.GetUsersIDsByNames.fill ns resp = some l := by
  intro ns
  induction ns with
  | nil => intro resp h; exact absurd rfl h
  | cons n rest ih =>
    intro resp _
    rw [FakePDClient.GetUsersIDsByNames.fill]
    cases rest with
    | nil => exact ⟨_, rfl⟩
    | cons m rest1 => exact ih _ (by simp)

/-- C22. For every non-nil, non-empty list `names` without a blank entry, the fake
`GetUsersIDsByNames` returns a nil error and a non-nil list with exactly `len(names)`
elements, each of them the fixed user identifier `PJ6XOVE`. -/
theorem fake_GetUsersIDsByNames_fixed_ids (names : List String) (hne : names ≠ [])
    (hnb : ∀ y ∈ names, ¬ Blank y) :
    ∃ ids, FakePDClient.GetUsersIDsByNames (some names) = (some ids, none) ∧
      ids.length = names.length ∧ (∀ id ∈ ids, id = "PJ6XOVE") ∧
      ids = List.replicate names.length "PJ6XOVE" := by
  have hlen : ¬ names.length < 1 := by
    have := List.length_pos.mpr hne
    omega
  have hent : hasEmptyEntry names = false := by
    rw [Bool.eq_false_iff]
    intro h
    obtain ⟨y, hy, hyb⟩ := (hasEmptyEntry_iff names).mp h
    exact hnb y hy hyb
  obtain ⟨l, hl⟩ := fake_GetUsersIDsByNames_fill_some names none hne
  have he := fake_GetUsersIDsByNames_fill_elems names none
  rw [hl] at he
  have hl1 : l = List.replicate names.length "PJ6XOVE" := by
    simpa [elems, existingUserID] using he
  refine ⟨l, ?_, ?_, ?_, hl1⟩
  · simp only [FakePDClient.GetUsersIDsByNames, hlen, hent, if_false, Bool.false_eq_true, hl]
  · rw [hl1]; simp
  · intro id hid
    rw [hl1] at hid
    exact (List.mem_replicate.mp hid).2

/-- C22 on a list of two names: two identifiers come back, both `PJ6XOVE`. -/
theorem fake_GetUsersIDsByNames_fixed_ids_witness :
    FakePDClient.GetUsersIDsByNames (some ["Timur Kalandarov", "Caleb Young"]) =
      (some ["PJ6XOVE", "PJ6XOVE"], none) := by
  obtain ⟨ids, h, -, -, hl⟩ :=
    fake_GetUsersIDsByNames_fixed_ids ["Timur Kalandarov", "Caleb Young"] (by decide) (by decide)
  rw [h, hl]
  rfl

/-! ## C23: four operations hand the backend error to the caller as it is -/

/-- C23, the claim fails as stated. Against a backend that answers every request with the
error `Not Found`, the real `GetOverrides`, `GetOnCallsWithOptions`,
`GetEscalationPoliciesByTag` and `UpdateEscalationPolicy`, called with valid arguments, return
an error whose message is `Not Found` itself: the error of the SDK is returned as it is, no
description of the operation is put in front of it. -/
theorem pass_through_operations_return_backend_error_unwrapped :
    (client.GetOverrides (failingAfter {} 0 "Not Found") "PUHMCXV" "2022-08-31T14:00:00-06:00"
        "2022-09-30T14:00:00-06:00" false (World.start 0)).1 = (none, some "Not Found") ∧
    (client.GetOnCallsWithOptions (failingAfter {} 0 "Not Found")
        (some { ScheduleIDs := some ["PUHMCXV"] }) (World.start 0)).1 =
      Outcome.returned (none, some "Not Found") ∧
    (client.GetEscalationPoliciesByTag (failingAfter {} 0 "Not Found") "P74RRGF"
        (World.start 0)).1 = (none, some "Not Found") ∧
    (client.UpdateEscalationPolicy (failingAfter {} 0 "Not Found") "P23N6LT" "PWKNFGT" "P39MEWZ"
        "P83EOFI" (some [{ ID := "P273W1N", Type_ := "user_reference" }]) (World.start 0)).1 =
      (none, some "Not Found") := by
  refine ⟨by decide, by decide, by decide, by decide⟩
/-- C23, amended. For every backend, every state of it and every error `e` with which the
backend answers the request of an operation called with valid arguments:
fourteen operations return a new error whose message is a description of the operation
followed by the message of `e` (`GetUsersIDsByNames` puts its description in front of the
one of `ListAllUsers`), in the paginating operations at whatever iteration the failure occurs;
`GetOverrides`, `GetOnCallsWithOptions`, `GetEscalationPoliciesByTag` and
`UpdateEscalationPolicy` return the message of `e` unchanged; `GetIndicentsByTag` returns the
error of the operation it called unchanged, which is wrapped once when the tag listing or
an incident listing failed and not wrapped when `GetEscalationPoliciesByTag` failed. -/
theorem backend_failure_error_message {σ : Type} (env : Env) (b : Backend σ) (e : String)
    (w : World σ) :
    -- operations with one request that wrap the error
    (∀ id o, ¬ Blank id → (b.GetUserWithContext id o w.state).1 = Except.error e →
      (client.GetUserByID b id o w).1 = (none, some ("failed to get pagerduty user: " ++ e))) ∧
    (∀ scheduleID userID start end_, ¬ Blank scheduleID → ¬ Blank userID → ¬ Blank start →
      ¬ Blank end_ →
      (b.CreateOverrideWithContext scheduleID
        { Start := start, End := end_, User := { ID := userID, Type_ := "user" } }
        w.state).1 = Except.error e →
      (client.CreateOverride b scheduleID userID start end_ w).1 =
        (none, some ("error while creating override on PagerDuty: " ++ e))) ∧
    (∀ scheduleID overrideID, ¬ Blank scheduleID → ¬ Blank overrideID →
      (b.DeleteOverrideWithContext scheduleID overrideID w.state).1 = some e →
      (client.RemoveOverride b scheduleID overrideID w).1 =
        some ("error while removing override on PagerDuty: " ++ e)) ∧
    (∀ title serviceID urgency details escalationPolicyID, ¬ Blank title → ¬ Blank serviceID →
      (b.CreateIncidentWithContext "nobody@justin.tv"
        { Type_ := "incident", Title := title,
          Service := some { ID := serviceID, Type_ := "service_reference" },
          Urgency := urgency,
          Body := if details = "" then none
            else some { Type_ := "incident_body", Details := details },
          EscalationPolicy := if escalationPolicyID = "" then none
            else some { ID := escalationPolicyID, Type_ := "escalation_policy_reference" } }
        w.state).1 = Except.error e →
      (client.CreateIncident b title serviceID urgency details escalationPolicyID w).1 =
        (none, some ("API request to create an incident failed: " ++ e))) ∧
    -- operations with one request that return the error as it is
    (∀ scheduleID since until_ f, ¬ Blank scheduleID → ¬ Blank since → ¬ Blank until_ →
      (b.ListOverridesWithContext scheduleID { Since := since, Until := until_, Overflow := f }
        w.state).1 = Except.error e →
      (client.GetOverrides b scheduleID since until_ f w).1 = (none, some e)) ∧
    (∀ o, (b.ListOnCallsWithContext o w.state).1 = Except.error e →
      (client.GetOnCallsWithOptions b (some o) w).1 = Outcome.returned (none, some e)) ∧
    (∀ tagID, ¬ Blank tagID → (b.GetEscalationPoliciesByTag tagID w.state).1 = Except.error e →
      (client.GetEscalationPoliciesByTag b tagID w).1 = (none, some e)) ∧
    (∀ id userID serviceID teamID escalation, ¬ Blank id → ¬ Blank userID →
      (b.UpdateEscalationPolicyWithContext id
        { EscalationRules := some [
            { Delay := 5, Targets := some [{ ID := userID, Type_ := "user_reference" }] },
            { Delay := 15, Targets := some escalation }],
          Services := if serviceID = "" then none
            else some [{ ID := serviceID, Type_ := "service_reference" }],
          Teams := if teamID = "" then none
            else some [{ ID := teamID, Type_ := "team_reference" }] }
        w.state).1 = Except.error e →
      (client.UpdateEscalationPolicy b id userID serviceID teamID (some escalation) w).1 =
        (none, some e)) ∧
    -- the loops, at any iteration
    (∀ ids fuel acc off,
      (b.ListOnCallsWithContext (client.GetOnCallsByScheduleIDs.options env ids off)
        w.state).1 = Except.error e →
      (client.GetOnCallsByScheduleIDs.loop env b ids (fuel + 1) acc off w).map Prod.fst =
        some (none, some ("failed to list on calls: " ++ e))) ∧
    (∀ name fuel acc off,
      (b.ListSchedulesWithContext (client.GetScheduleIDbyName.options env off)
        w.state).1 = Except.error e →
      (client.GetScheduleIDbyName.loop env b name (fuel + 1) acc off w).map Prod.fst =
        some (acc.1, acc.2, some ("error in getting schedules from PagerDuty: " ++ e))) ∧
    (∀ name fuel id off,
      (b.ListUsersWithContext (client.GetUserIDbyName.options env off) w.state).1 =
        Except.error e →
      (client.GetUserIDbyName.loop env b name (fuel + 1) id off w).map Prod.fst =
        some ("", some ("error in getting userID from PagerDuty: " ++ e))) ∧
    (∀ o fuel acc off, (b.ListUsersWithContext o w.state).1 = Except.error e →
      (client.ListAllUsers.loop env b o (fuel + 1) acc off w).map Prod.fst =
        some (none, some ("failed to list users: " ++ e))) ∧
    (∀ o fuel acc off, (b.ListTags o w.state).1 = Except.error e →
      (client.ListAllTags.loop env b o (fuel + 1) acc off w).map Prod.fst =
        some (none, some ("failed to list tags: " ++ e))) ∧
    (∀ id fuel acc off,
      (b.ListIncidentsWithContext (client.GetIndicentsByEscalationPolicy.options env off acc.2)
        w.state).1 = Except.error e →
      (client.GetIndicentsByEscalationPolicy.loop env b id (fuel + 1) acc off w).map Prod.fst =
        some (none, some ("failed to list incidents: " ++ e))) ∧
    (∀ q fuel acc off,
      (b.ListIncidentsWithContext (client.SearchIncidents.options env off acc.2)
        w.state).1 = Except.error e →
      (client.SearchIncidents.loop env b q (fuel + 1) acc off w).map Prod.fst =
        some (none, some ("failed to list incidents: " ++ e))) ∧
    (∀ incidentID logType fuel off,
      (b.ListIncidentLogEntriesWithContext incidentID
        { Limit := env.limit, Offset := off, IsOverview := false } w.state).1 = Except.error e →
      (client.SearchIncidentLogs.loop env b incidentID logType (fuel + 1) off w).map Prod.fst =
        some (none, some ("error getting incident log: " ++ e))) ∧
    (∀ name rest resp fuel,
      (b.ListUsersWithContext { Limit := env.limit, Offset := 0, Query := name } w.state).1 =
        Except.error e →
      (client.GetUsersIDsByNames.loop env b (fuel + 1) (name :: rest) resp w).map Prod.fst =
        some (some [],
          some ("error getting users from PagerDuty: " ++ ("failed to list users: " ++ e)))) ∧
    -- the paginating operations, at their first request
    (∀ ids fuel, ids ≠ [] → (∀ y ∈ ids, ¬ Blank y) →
      (b.ListOnCallsWithContext (client.GetOnCallsByScheduleIDs.options env (some ids) 0)
        w.state).1 = Except.error e →
      (client.GetOnCallsByScheduleIDs env b (some ids) (fuel + 1) w).map Prod.fst =
        some (none, some ("failed to list on calls: " ++ e))) ∧
    (∀ name fuel, ¬ Blank name →
      (b.ListSchedulesWithContext (client.GetScheduleIDbyName.options env 0) w.state).1 =
        Except.error e →
      (client.GetScheduleIDbyName env b name (fuel + 1) w).map Prod.fst =
        some ("", "", some ("error in getting schedules from PagerDuty: " ++ e))) ∧
    (∀ name fuel, ¬ Blank name →
      (b.ListUsersWithContext (client.GetUserIDbyName.options env 0) w.state).1 =
        Except.error e →
      (client.GetUserIDbyName env b name (fuel + 1) w).map Prod.fst =
        some ("", some ("error in getting userID from PagerDuty: " ++ e))) ∧
    (∀ (o : ListUsersOptions) fuel,
      (b.ListUsersWithContext { o with Limit := env.limit, Offset := 0 } w.state).1 =
        Except.error e →
      (client.ListAllUsers env b o (fuel + 1) w).map Prod.fst =
        some (none, some ("failed to list users: " ++ e))) ∧
    (∀ (o : ListTagOptions) fuel,
      (b.ListTags { o with Limit := env.limit, Offset := 0 } w.state).1 = Except.error e →
      (client.ListAllTags env b o (fuel + 1) w).map Prod.fst =
        some (none, some ("failed to list tags: " ++ e))) ∧
    (∀ id t fuel, ¬ Blank id →
      (b.ListIncidentsWithContext
        (client.GetIndicentsByEscalationPolicy.options env 0 (querySince env b t w))
        w.state).1 = Except.error e →
      (client.GetIndicentsByEscalationPolicy env b id t (fuel + 1) w).map Prod.fst =
        some (none, some ("failed to list incidents: " ++ e))) ∧
    (∀ q t fuel,
      (b.ListIncidentsWithContext (client.SearchIncidents.options env 0 (querySince env b t w))
        w.state).1 = Except.error e →
      (client.SearchIncidents env b q t (fuel + 1) w).map Prod.fst =
        some (none, some ("failed to list incidents: " ++ e))) ∧
    (∀ incidentID logType fuel, ¬ Blank incidentID → ¬ Blank logType →
      (b.ListIncidentLogEntriesWithContext incidentID
        { Limit := env.limit, Offset := 0, IsOverview := false } w.state).1 = Except.error e →
      (client.SearchIncidentLogs env b incidentID logType (fuel + 1) w).map Prod.fst =
        some (none, some ("error getting incident log: " ++ e))) ∧
    (∀ name rest fuel, (∀ y ∈ name :: rest, ¬ Blank y) →
      (b.ListUsersWithContext { Limit := env.limit, Offset := 0, Query := name } w.state).1 =
        Except.error e →
      (client.GetUsersIDsByNames env b (some (name :: rest)) (fuel + 1) w).map Prod.fst =
        some (some [],
          some ("error getting users from PagerDuty: " ++ ("failed to list users: " ++ e)))) ∧
    -- `GetIndicentsByTag`
    (∀ tagName t fuel, ¬ Blank tagName →
      (b.ListTags { Limit := env.limit, Offset := 0, Query := tagName } w.state).1 =
        Except.error e →
      (client.GetIndicentsByTag env b tagName t (fuel + 1) w).map Prod.fst =
        some (Outcome.returned (none, some ("failed to list tags: " ++ e)))) ∧
    (∀ tagName t fuel (tag0 : Tag) tags w1, ¬ Blank tagName → ¬ Blank tag0.ID →
      client.ListAllTags env b { Query := tagName } fuel w = some ((some (tag0 :: tags), none), w1) →
      (b.GetEscalationPoliciesByTag tag0.ID w1.state).1 = Except.error e →
      (client.GetIndicentsByTag env b tagName t fuel w).map Prod.fst =
        some (Outcome.returned (none, some e))) ∧
    (∀ t fuel (ep : APIObject) rest incidentList r msg w1,
      client.GetIndicentsByEscalationPolicy env b ep.ID t fuel w = some ((r, some msg), w1) →
      client.GetIndicentsByTag.loop env b t fuel (ep :: rest) incidentList w =
        some ((none, some msg), w1)) := by
  have nb : ∀ {x : String}, ¬ Blank x → TrimSpace x ≠ "" :=
    fun {x} h h0 => h ((TrimSpace_eq_empty_iff x).mp h0)
  have ne : ∀ {ids : List String}, (∀ y ∈ ids, ¬ Blank y) → hasEmptyEntry ids = false := by
    intro ids hnb
    rw [Bool.eq_false_iff]
    intro h
    obtain ⟨y, hy, hyb⟩ := (hasEmptyEntry_iff ids).mp h
    exact hnb y hy hyb
  refine ⟨?_, ?_, ?_, ?_, ?_, ?_, ?_, ?_, ?_, ?_, ?_, ?_, ?_, ?_, ?_, ?_, ?_, ?_, ?_, ?_, ?_,
    ?_, ?_, ?_, ?_, ?_, ?_, ?_, ?_⟩
  · intro id o h1 h
    simp [client.GetUserByID, nb h1, issue, h]
  · intro scheduleID userID start end_ h1 h2 h3 h4 h
    simp [client.CreateOverride, nb h1, nb h2, nb h3, nb h4, issue, h]
  · intro scheduleID overrideID h1 h2 h
    simp [client.RemoveOverride, nb h1, nb h2, issue, h]
  · intro title serviceID urgency details escalationPolicyID h1 h2 h
    simp only [client.CreateIncident, nb h1, nb h2, if_false, strLen_pos_iff]
    by_cases hu : urgency = "" <;> by_cases hd : details = "" <;>
      by_cases he : escalationPolicyID = "" <;>
      · simp only [hu, hd, he, ne_eq, not_true_eq_false, not_false_eq_true, if_true,
          if_false] at h ⊢
        simp [issue, h]
  · intro scheduleID since until_ f h1 h2 h3 h
    simp [client.GetOverrides, nb h1, nb h2, nb h3, issue, h]
  · intro o h
    simp [client.GetOnCallsWithOptions, issue, h, resultPair]
  · intro tagID h1 h
    simp [client.GetEscalationPoliciesByTag, nb h1, issue, h]
  · intro id userID serviceID teamID escalation h1 h2 h
    simp only [client.UpdateEscalationPolicy, nb h1, nb h2, if_false, strLen_pos_iff]
    by_cases hs : serviceID = "" <;> by_cases ht : teamID = "" <;>
      · simp only [hs, ht, ne_eq, not_true_eq_false, not_false_eq_true, if_true, if_false] at h ⊢
        simp [issue, h, resultPair]
  · intro ids fuel acc off h
    simp [client.GetOnCallsByScheduleIDs.loop, issue, h]
  · intro name fuel acc off h
    simp [client.GetScheduleIDbyName.loop, issue, h]
  · intro name fuel id off h
    simp [client.GetUserIDbyName.loop, issue, h]
  · intro o fuel acc off h
    simp [client.ListAllUsers.loop, issue, h]
  · intro o fuel acc off h
    simp [client.ListAllTags.loop, issue, h]
  · intro id fuel acc off h
    simp [client.GetIndicentsByEscalationPolicy.loop, issue, h]
  · intro q fuel acc off h
    simp [client.SearchIncidents.loop, issue, h]
  · intro incidentID logType fuel off h
    simp [client.SearchIncidentLogs.loop, issue, h]
  · intro name rest resp fuel h
    simp [client.GetUsersIDsByNames.loop, client.ListAllUsers, client.ListAllUsers.loop, issue, h]
  · intro ids fuel hne hnb h
    have hlen : ¬ ids.length < 1 := by
      have := List.length_pos.mpr hne
      omega
    simp [client.GetOnCallsByScheduleIDs, hlen, ne hnb, client.GetOnCallsByScheduleIDs.loop,
      issue, h]
  · intro name fuel h1 h
    simp [client.GetScheduleIDbyName, nb h1, client.GetScheduleIDbyName.loop, issue, h]
  · intro name fuel h1 h
    simp [client.GetUserIDbyName, nb h1, client.GetUserIDbyName.loop, issue, h]
  · intro o fuel h
    simp [client.ListAllUsers, client.ListAllUsers.loop, issue, h]
  · intro o fuel h
    simp [client.ListAllTags, client.ListAllTags.loop, issue, h]
  · intro id t fuel h1 h
    simp [client.GetIndicentsByEscalationPolicy, nb h1, LoadLocationUTC,
      client.GetIndicentsByEscalationPolicy.loop, issue, h]
  · intro q t fuel h
    simp [client.SearchIncidents, LoadLocationUTC, client.SearchIncidents.loop, issue, h]
  · intro incidentID logType fuel h1 h2 h
    simp [client.SearchIncidentLogs, nb h1, nb h2, client.SearchIncidentLogs.loop, issue, h]
  · intro name rest fuel hnb h
    simp [client.GetUsersIDsByNames, ne hnb, client.GetUsersIDsByNames.loop, client.ListAllUsers,
      client.ListAllUsers.loop, issue, h]
  · intro tagName t fuel h1 h
    simp [client.GetIndicentsByTag, nb h1, client.ListAllTags, client.ListAllTags.loop, issue, h]
  · intro tagName t fuel tag0 tags w1 h1 h2 hl h
    simp [client.GetIndicentsByTag, nb h1, hl, elems, client.GetEscalationPoliciesByTag, nb h2,
      issue, h]
  · intro t fuel ep rest incidentList r msg w1 h
    simp [client.GetIndicentsByTag.loop, h]

/-- C23, amended, against a backend that answers every request with `Not Found`: the
wrapping `GetUserByID`, `GetOnCallsByScheduleIDs` and `CreateIncident`, and the unwrapped
`GetOverrides` and `UpdateEscalationPolicy`. -/
theorem backend_failure_error_message_witness :
    (client.GetUserByID (failingAfter {} 0 "Not Found") "PJ6XOVE" {} (World.start 0)).1 =
      (none, some "failed to get pagerduty user: Not Found") ∧
    (client.CreateIncident (failingAfter {} 0 "Not Found") "The server is on fire" "P03NRF0"
        "high" "" "PXYKJ4K" (World.start 0)).1 =
      (none, some "API request to create an incident failed: Not Found") ∧
    (client.UpdateEscalationPolicy (failingAfter {} 0 "Not Found") "P23N6LT" "PWKNFGT" ""
        "P83EOFI" (some [{ ID := "P273W1N", Type_ := "user_reference" }]) (World.start 0)).1 =
      (none, some "Not Found") ∧
    (client.GetOnCallsByScheduleIDs env100 (failingAfter {} 0 "Not Found") (some ["PUHMCXV"]) 1
        (World.start 0)).map Prod.fst =
      some (none, some "failed to list on calls: Not Found") ∧
    (client.GetOverrides (failingAfter {} 0 "Not Found") "PUHMCXV" "2022-08-31T14:00:00-06:00"
        "2022-09-30T14:00:00-06:00" false (World.start 0)).1 = (none, some "Not Found") :=
  ⟨(backend_failure_error_message env100 (failingAfter {} 0 "Not Found") "Not Found"
      (World.start 0)).1 "PJ6XOVE" {} (by decide) rfl,
   (backend_failure_error_message env100 (failingAfter {} 0 "Not Found") "Not Found"
      (World.start 0)).2.2.2.1 "The server is on fire" "P03NRF0" "high" "" "PXYKJ4K"
      (by decide) (by decide) rfl,
   (backend_failure_error_message env100 (failingAfter {} 0 "Not Found") "Not Found"
      (World.start 0)).2.2.2.2.2.2.2.1 "P23N6LT" "PWKNFGT" "" "P83EOFI"
      [{ ID := "P273W1N", Type_ := "user_reference" }] (by decide) (by decide) rfl,
   (backend_failure_error_message env100 (failingAfter {} 0 "Not Found") "Not Found"
      (World.start 0)).2.2.2.2.2.2.2.2.2.2.2.2.2.2.2.2.2.1 ["PUHMCXV"] 0 (by decide) (by decide)
      rfl,
   (backend_failure_error_message env100 (failingAfter {} 0 "Not Found") "Not Found"
      (World.start 0)).2.2.2.2.1 "PUHMCXV" "2022-08-31T14:00:00-06:00"
      "2022-09-30T14:00:00-06:00" false (by decide) (by decide) (by decide) rfl⟩

/-! ## C24: what the message of a validation error says about the parameter -/

/-- C24, the claim at a list with a blank entry and at the first parameter of
`SearchIncidentLogs`. The fake and the real `GetOnCallsByScheduleIDs` reject the list
`["P10QVCS", ""]` with a message that does not contain the name `scheduleIDs`; the message of
`GetUsersIDsByNames` for such a list contains `names` only as part of the words `user names`,
it does not contain the quoted name; and `SearchIncidentLogs` names its first parameter
`incidentID`, not `pdIncidentId` as the interface declares it. -/
theorem blank_entry_error_does_not_name_the_list :
    FakePDClient.GetOnCallsByScheduleIDs (some ["P10QVCS", ""]) =
      (none, some "could not get on-calls because the passed array had empty string(s)") ∧
    (client.GetOnCallsByScheduleIDs env100 (pagedBackend threeOnCalls) (some ["P10QVCS", ""]) 1
        (World.start ())).map Prod.fst =
      some (none, some "could not get on-calls because the passed array had empty string(s)") ∧
    mentions (FakePDClient.GetOnCallsByScheduleIDs (some ["P10QVCS", ""])).2 "scheduleIDs" =
      false ∧
    FakePDClient.GetUsersIDsByNames (some ["Timur Kalandarov", ""]) =
      (none, some "could not get user names because the passed array had empty string(s)") ∧
    mentions (FakePDClient.GetUsersIDsByNames (some ["Timur Kalandarov", ""])).2 "'names'" =
      false ∧
    FakePDClient.SearchIncidentLogs "" "resolve_log_entry" =
      (none, some "passed parameter 'incidentID' must be specified") ∧
    mentions (FakePDClient.SearchIncidentLogs "" "resolve_log_entry").2 "pdIncidentId" =
      false := by
  refine ⟨by decide, by decide, by decide, by decide, by decide, by decide, by decide⟩

/-- C24, amended. Let `x` be a blank string, `y1`, `y2`, `y3` strings that are not blank and
`l` a list with a blank entry. For each operation with a validation and each position of `x`
with valid arguments in front of it, the error of the fake contains the quoted name that the
implementation gives to the parameter at that position; `GetOverrides` answers a blank
`since` and a blank `until` with one message that names both; a nil or empty list is answered
with a message that contains `scheduleIDs` or `names`; a nil `escalation` with one that
contains the quoted name. The message for a list with a blank entry does not contain
`scheduleIDs` in `GetOnCallsByScheduleIDs`, and contains `names` in `GetUsersIDsByNames`. At
every one of these inputs the real client returns the result and the error of the fake, and
the world it was started in. -/
theorem validation_error_names_parameter {σ : Type} (env : Env) (b : Backend σ) (fuel : Nat)
    (w : World σ) (x : String) (hx : Blank x) (y1 y2 y3 : String) (h1 : ¬ Blank y1)
    (h2 : ¬ Blank y2) (h3 : ¬ Blank y3) (l : List String) (hl : ∃ z ∈ l, Blank z) :
    -- the messages of the fake
    (mentions (FakePDClient.GetOnCallsByScheduleIDs none).2 "scheduleIDs" = true ∧
     mentions (FakePDClient.GetOnCallsByScheduleIDs (some [])).2 "scheduleIDs" = true ∧
     mentions (FakePDClient.GetOnCallsByScheduleIDs (some l)).2 "scheduleIDs" = false ∧
     (FakePDClient.GetOnCallsByScheduleIDs (some l)).2 =
       some "could not get on-calls because the passed array had empty string(s)" ∧
     mentions (FakePDClient.GetUsersIDsByNames none).2 "names" = true ∧
     mentions (FakePDClient.GetUsersIDsByNames (some [])).2 "names" = true ∧
     mentions (FakePDClient.GetUsersIDsByNames (some l)).2 "names" = true ∧
     (FakePDClient.GetUsersIDsByNames (some l)).2 =
       some "could not get user names because the passed array had empty string(s)" ∧
     mentions (FakePDClient.GetScheduleIDbyName x).2.2 "'name'" = true ∧
     mentions (FakePDClient.GetUserIDbyName x).2 "'name'" = true ∧
     (∀ o, mentions (FakePDClient.GetUserByID x o).2 "'id'" = true) ∧
     (∀ a c f, mentions (FakePDClient.GetOverrides x a c f).2 "'scheduleID'" = true) ∧
     (∀ c f, mentions (FakePDClient.GetOverrides y1 x c f).2 "'since'" = true) ∧
     (∀ f, mentions (FakePDClient.GetOverrides y1 y2 x f).2 "'until'" = true ∧
       mentions (FakePDClient.GetOverrides y1 y2 x f).2 "'since'" = true) ∧
     (∀ a c d, mentions (FakePDClient.CreateOverride x a c d).2 "'scheduleID'" = true) ∧
     (∀ c d, mentions (FakePDClient.CreateOverride y1 x c d).2 "'userID'" = true) ∧
     (∀ d, mentions (FakePDClient.CreateOverride y1 y2 x d).2 "'start'" = true) ∧
     mentions (FakePDClient.CreateOverride y1 y2 y3 x).2 "'end'" = true ∧
     (∀ a, mentions (FakePDClient.RemoveOverride x a) "'scheduleID'" = true) ∧
     mentions (FakePDClient.RemoveOverride y1 x) "'overrideID'" = true ∧
     (∀ t, mentions (FakePDClient.GetIndicentsByEscalationPolicy x t).2 "'escalationPolicyID'" =
       true) ∧
     (∀ t, mentions (FakePDClient.GetIndicentsByTag x t).2 "'tagName'" = true) ∧
     (∀ a c d g, mentions (FakePDClient.CreateIncident x a c d g).2 "'title'" = true) ∧
     (∀ c d g, mentions (FakePDClient.CreateIncident y1 x c d g).2 "'serviceID'" = true) ∧
     (∀ a, mentions (FakePDClient.SearchIncidentLogs x a).2 "'incidentID'" = true) ∧
     mentions (FakePDClient.SearchIncidentLogs y1 x).2 "'logType'" = true ∧
     mentions (FakePDClient.GetEscalationPoliciesByTag x).2 "'tagID'" = true ∧
     (∀ a c d g, mentions (FakePDClient.UpdateEscalationPolicy x a c d g).2 "'id'" = true) ∧
     (∀ c d g, mentions (FakePDClient.UpdateEscalationPolicy y1 x c d g).2 "'userID'" = true) ∧
     (∀ c d,
       mentions (FakePDClient.UpdateEscalationPolicy y1 y2 c d none).2 "'escalation'" = true)) ∧
    -- the real client returns what the fake returns
    (client.GetOnCallsByScheduleIDs env b none fuel w =
       some (FakePDClient.GetOnCallsByScheduleIDs none, w) ∧
     client.GetOnCallsByScheduleIDs env b (some []) fuel w =
       some (FakePDClient.GetOnCallsByScheduleIDs (some []), w) ∧
     client.GetOnCallsByScheduleIDs env b (some l) fuel w =
       some (FakePDClient.GetOnCallsByScheduleIDs (some l), w) ∧
     client.GetUsersIDsByNames env b none fuel w =
       some (FakePDClient.GetUsersIDsByNames none, w) ∧
     client.GetUsersIDsByNames env b (some []) fuel w =
       some (FakePDClient.GetUsersIDsByNames (some []), w) ∧
     client.GetUsersIDsByNames env b (some l) fuel w =
       some (FakePDClient.GetUsersIDsByNames (some l), w) ∧
     client.GetScheduleIDbyName env b x fuel w = some (FakePDClient.GetScheduleIDbyName x, w) ∧
     client.GetUserIDbyName env b x fuel w = some (FakePDClient.GetUserIDbyName x, w) ∧
     (∀ o, client.GetUserByID b x o w = (FakePDClient.GetUserByID x o, w)) ∧
     (∀ a c f, client.GetOverrides b x a c f w = (FakePDClient.GetOverrides x a c f, w)) ∧
     (∀ c f, client.GetOverrides b y1 x c f w = (FakePDClient.GetOverrides y1 x c f, w)) ∧
     (∀ f, client.GetOverrides b y1 y2 x f w = (FakePDClient.GetOverrides y1 y2 x f, w)) ∧
     (∀ a c d, client.CreateOverride b x a c d w = (FakePDClient.CreateOverride x a c d, w)) ∧
     (∀ c d, client.CreateOverride b y1 x c d w = (FakePDClient.CreateOverride y1 x c d, w)) ∧
     (∀ d, client.CreateOverride b y1 y2 x d w = (FakePDClient.CreateOverride y1 y2 x d, w)) ∧
     client.CreateOverride b y1 y2 y3 x w = (FakePDClient.CreateOverride y1 y2 y3 x, w) ∧
     (∀ a, client.RemoveOverride b x a w = (FakePDClient.RemoveOverride x a, w)) ∧
     client.RemoveOverride b y1 x w = (FakePDClient.RemoveOverride y1 x, w) ∧
     (∀ t, client.GetIndicentsByEscalationPolicy env b x t fuel w =
       some (FakePDClient.GetIndicentsByEscalationPolicy x t, w)) ∧
     (∀ t, client.GetIndicentsByTag env b x t fuel w =
       some (Outcome.returned (FakePDClient.GetIndicentsByTag x t), w)) ∧
     (∀ a c d g, client.CreateIncident b x a c d g w =
       (FakePDClient.CreateIncident x a c d g, w)) ∧
     (∀ c d g, client.CreateIncident b y1 x c d g w =
       (FakePDClient.CreateIncident y1 x c d g, w)) ∧
     (∀ a, client.SearchIncidentLogs env b x a fuel w =
       some (FakePDClient.SearchIncidentLogs x a, w)) ∧
     client.SearchIncidentLogs env b y1 x fuel w =
       some (FakePDClient.SearchIncidentLogs y1 x, w) ∧
     client.GetEscalationPoliciesByTag b x w = (FakePDClient.GetEscalationPoliciesByTag x, w) ∧
     (∀ a c d g, client.UpdateEscalationPolicy b x a c d g w =
       (FakePDClient.UpdateEscalationPolicy x a c d g, w)) ∧
     (∀ c d g, client.UpdateEscalationPolicy b y1 x c d g w =
       (FakePDClient.UpdateEscalationPolicy y1 x c d g, w)) ∧
     (∀ c d, client.UpdateEscalationPolicy b y1 y2 c d none w =
       (FakePDClient.UpdateEscalationPolicy y1 y2 c d none, w))) := by
  have h : TrimSpace x = "" := (TrimSpace_eq_empty_iff x).mpr hx
  have n1 : ¬ TrimSpace y1 = "" := fun e => h1 ((TrimSpace_eq_empty_iff y1).mp e)
  have n2 : ¬ TrimSpace y2 = "" := fun e => h2 ((TrimSpace_eq_empty_iff y2).mp e)
  have n3 : ¬ TrimSpace y3 = "" := fun e => h3 ((TrimSpace_eq_empty_iff y3).mp e)
  have hent : hasEmptyEntry l = true := (hasEmptyEntry_iff l).mpr hl
  have hlen : ¬ l.length < 1 := by
    obtain ⟨z, hz, -⟩ := hl
    have := List.length_pos_of_mem hz
    omega
  have m1 : mentions (some "passed parameter 'scheduleID' must be specified") "'scheduleID'" =
      true := by decide
  have m2 : mentions (some "passed parameters 'since' and 'until' dates must be specified")
      "'since'" = true := by decide
  have m3 : mentions (some "passed parameters 'since' and 'until' dates must be specified")
      "'until'" = true := by decide
  have m4 : mentions (some "passed parameter 'userID' must be specified") "'userID'" = true := by
    decide
  have m5 : mentions (some "passed parameter 'id' must be specified") "'id'" = true := by decide
  have m6 : mentions (some "passed parameter 'name' must be specified") "'name'" = true := by
    decide
  refine ⟨⟨by decide, by decide, ?_, ?_, by decide, by decide, ?_, ?_, ?_, ?_, ?_, ?_, ?_, ?_,
    ?_, ?_, ?_, ?_, ?_, ?_, ?_, ?_, ?_, ?_, ?_, ?_, ?_, ?_, ?_, ?_⟩,
    ⟨?_, ?_, ?_, ?_, ?_, ?_, ?_, ?_, ?_, ?_, ?_, ?_, ?_, ?_, ?_, ?_, ?_, ?_, ?_, ?_, ?_, ?_, ?_,
    ?_, ?_, ?_, ?_, ?_⟩⟩
  -- the fake
  · simp only [FakePDClient.GetOnCallsByScheduleIDs, hlen, hent, if_true, if_false]; decide
  · simp only [FakePDClient.GetOnCallsByScheduleIDs, hlen, hent, if_true, if_false]
  · simp only [FakePDClient.GetUsersIDsByNames, hlen, hent, if_true, if_false]; decide
  · simp only [FakePDClient.GetUsersIDsByNames, hlen, hent, if_true, if_false]
  · simp only [FakePDClient.GetScheduleIDbyName, h, if_true]; exact m6
  · simp only [FakePDClient.GetUserIDbyName, h, if_true]; exact m6
  · intro o; simp only [FakePDClient.GetUserByID, h, if_true]; exact m5
  · intro a c f; simp only [FakePDClient.GetOverrides, h, if_true]; exact m1
  · intro c f; simp [FakePDClient.GetOverrides, h, n1, m2]
  · intro f; simp [FakePDClient.GetOverrides, h, n1, n2, m2, m3]
  · intro a c d; simp only [FakePDClient.CreateOverride, h, if_true]; exact m1
  · intro c d; simp [FakePDClient.CreateOverride, h, n1, m4]
  · intro d; simp [FakePDClient.CreateOverride, h, n1, n2]; decide
  · simp [FakePDClient.CreateOverride, h, n1, n2, n3]; decide
  · intro a; simp only [FakePDClient.RemoveOverride, h, if_true]; exact m1
  · simp [FakePDClient.RemoveOverride, h, n1]; decide
  · intro t; simp only [FakePDClient.GetIndicentsByEscalationPolicy, h, if_true]; decide
  · intro t; simp only [FakePDClient.GetIndicentsByTag, h, if_true]; decide
  · intro a c d g; simp only [FakePDClient.CreateIncident, h, if_true]; decide
  · intro c d g; simp [FakePDClient.CreateIncident, h, n1]; decide
  · intro a; simp only [FakePDClient.SearchIncidentLogs, h, if_true]; decide
  · simp [FakePDClient.SearchIncidentLogs, h, n1]; decide
  · simp only [FakePDClient.GetEscalationPoliciesByTag, h, if_true]; decide
  · intro a c d g; simp only [FakePDClient.UpdateEscalationPolicy, h, if_true]; exact m5
  · intro c d g; simp [FakePDClient.UpdateEscalationPolicy, h, n1, m4]
  · intro c d; simp [FakePDClient.UpdateEscalationPolicy, n1, n2]; decide
  -- the real client
  · rfl
  · rfl
  · simp only [client.GetOnCallsByScheduleIDs, FakePDClient.GetOnCallsByScheduleIDs, hlen, hent,
      if_true, if_false]
  · rfl
  · rfl
  · simp only [client.GetUsersIDsByNames, FakePDClient.GetUsersIDsByNames, hlen, hent,
      if_true, if_false]
  · simp [client.GetScheduleIDbyName, FakePDClient.GetScheduleIDbyName, h]
  · simp [client.GetUserIDbyName, FakePDClient.GetUserIDbyName, h]
  · intro o; simp [client.GetUserByID, FakePDClient.GetUserByID, h]
  · intro a c f; simp [client.GetOverrides, FakePDClient.GetOverrides, h]
  · intro c f; simp [client.GetOverrides, FakePDClient.GetOverrides, h, n1]
  · intro f; simp [client.GetOverrides, FakePDClient.GetOverrides, h, n1, n2]
  · intro a c d; simp [client.CreateOverride, FakePDClient.CreateOverride, h]
  · intro c d; simp [client.CreateOverride, FakePDClient.CreateOverride, h, n1]
  · intro d; simp [client.CreateOverride, FakePDClient.CreateOverride, h, n1, n2]
  · simp [client.CreateOverride, FakePDClient.CreateOverride, h, n1, n2, n3]
  · intro a; simp [client.RemoveOverride, FakePDClient.RemoveOverride, h]
  · simp [client.RemoveOverride, FakePDClient.RemoveOverride, h, n1]
  · intro t
    simp [client.GetIndicentsByEscalationPolicy, FakePDClient.GetIndicentsByEscalationPolicy, h]
  · intro t; simp [client.GetIndicentsByTag, FakePDClient.GetIndicentsByTag, h]
  · intro a c d g; simp [client.CreateIncident, FakePDClient.CreateIncident, h]
  · intro c d g; simp [client.CreateIncident, FakePDClient.CreateIncident, h, n1]
  · intro a; simp [client.SearchIncidentLogs, FakePDClient.SearchIncidentLogs, h]
  · simp [client.SearchIncidentLogs, FakePDClient.SearchIncidentLogs, h, n1]
  · simp [client.GetEscalationPoliciesByTag, FakePDClient.GetEscalationPoliciesByTag, h]
  · intro a c d g; simp [client.UpdateEscalationPolicy, FakePDClient.UpdateEscalationPolicy, h]
  · intro c d g
    simp [client.UpdateEscalationPolicy, FakePDClient.UpdateEscalationPolicy, h, n1]
  · intro c d
    simp [client.UpdateEscalationPolicy, FakePDClient.UpdateEscalationPolicy, n1, n2]

/-- C24 on inputs of the unit tests: a blank user identifier after a valid schedule
identifier is answered by both clients with the message that names `userID`, and the list
with an empty entry with the message that does not name `scheduleIDs`. -/
theorem validation_error_names_parameter_witness :
    Blank "     " ∧ ¬ Blank "PUHMCXV" ∧ (∃ z ∈ ["P10QVCS", ""], Blank z) ∧
    (∀ c d, mentions (FakePDClient.CreateOverride "PUHMCXV" "     " c d).2 "'userID'" = true) ∧
    (∀ c d, client.CreateOverride (pagedBackend {}) "PUHMCXV" "     " c d (World.start ()) =
      (FakePDClient.CreateOverride "PUHMCXV" "     " c d, World.start ())) ∧
    mentions (FakePDClient.GetOnCallsByScheduleIDs (some ["P10QVCS", ""])).2 "scheduleIDs" =
      false :=
  ⟨by decide, by decide, ⟨"", by simp, by decide⟩,
   (validation_error_names_parameter env100 (pagedBackend {}) 0 (World.start ()) "     "
      (by decide) "PUHMCXV" "2022-08-31T14:00:00-06:00" "2022-09-30T14:00:00-06:00" (by decide)
      (by decide) (by decide) ["P10QVCS", ""]
      ⟨"", by simp, by decide⟩).1.2.2.2.2.2.2.2.2.2.2.2.2.2.2.2.1,
   (validation_error_names_parameter env100 (pagedBackend {}) 0 (World.start ()) "     "
      (by decide) "PUHMCXV" "2022-08-31T14:00:00-06:00" "2022-09-30T14:00:00-06:00" (by decide)
      (by decide) (by decide) ["P10QVCS", ""]
      ⟨"", by simp, by decide⟩).2.2.2.2.2.2.2.2.2.2.2.2.2.2.1,
   (validation_error_names_parameter env100 (pagedBackend {}) 0 (World.start ()) "     "
      (by decide) "PUHMCXV" "2022-08-31T14:00:00-06:00" "2022-09-30T14:00:00-06:00" (by decide)
      (by decide) (by decide) ["P10QVCS", ""]
      ⟨"", by simp, by decide⟩).1.2.2.1⟩

/-! ## C25: the request that the real `UpdateEscalationPolicy` passes to the backend -/

/-- C25. For every non-blank `id` and `userID` and every non-nil `escalation` list, the real
`UpdateEscalationPolicy` issues exactly one request, `UpdateEscalationPolicy` for the
identifier `id`, whose policy has exactly two escalation rules in this order: the first
with `Delay` 5 and the single target `{ID: userID, Type: "user_reference"}`, the second with
`Delay` 15 and the `escalation` argument as its targets. `Services` is the single reference
`{serviceID, "service_reference"}` when `serviceID` is not empty and nil otherwise, `Teams`
is the single reference `{teamID, "team_reference"}` when `teamID` is not empty and nil
otherwise. -/
theorem UpdateEscalationPolicy_request_policy {σ : Type} (b : Backend σ)
    (id userID serviceID teamID : String) (escalation : List APIObject)
    (h1 : ¬ Blank id) (h2 : ¬ Blank userID) (w : World σ) :
    ∃ ep : EscalationPolicy,
      (client.UpdateEscalationPolicy b id userID serviceID teamID (some escalation) w).2.trace =
        w.trace ++ [Request.UpdateEscalationPolicy id ep] ∧
      ep.EscalationRules = some [
        { Delay := 5, Targets := some [{ ID := userID, Type_ := "user_reference" }] },
        { Delay := 15, Targets := some escalation }] ∧
      (serviceID ≠ "" →
        ep.Services = some [{ ID := serviceID, Type_ := "service_reference" }]) ∧
      (serviceID = "" → ep.Services = none) ∧
      (teamID ≠ "" → ep.Teams = some [{ ID := teamID, Type_ := "team_reference" }]) ∧
      (teamID = "" → ep.Teams = none) := by
  have e1 : TrimSpace id ≠ "" := fun h => h1 ((TrimSpace_eq_empty_iff _).mp h)
  have e2 : TrimSpace userID ≠ "" := fun h => h2 ((TrimSpace_eq_empty_iff _).mp h)
  refine ⟨
    { EscalationRules := some [
        { Delay := 5, Targets := some [{ ID := userID, Type_ := "user_reference" }] },
        { Delay := 15, Targets := some escalation }],
      Services := if serviceID = "" then none
        else some [{ ID := serviceID, Type_ := "service_reference" }],
      Teams := if teamID = "" then none
        else some [{ ID := teamID, Type_ := "team_reference" }] },
    ?_, rfl, ?_, ?_, ?_, ?_⟩
  · simp only [client.UpdateEscalationPolicy, e1, e2, if_false, strLen_pos_iff]
    by_cases hs : serviceID = "" <;> by_cases ht : teamID = "" <;>
      simp [hs, ht, issue]
  · intro hs; simp [hs]
  · intro hs; simp [hs]
  · intro ht; simp [ht]
  · intro ht; simp [ht]

/-- C25 on the first case of the integration test, and on the same case without a service
and a team. -/
theorem UpdateEscalationPolicy_request_policy_witness :
    (client.UpdateEscalationPolicy (pagedBackend {}) "P23N6LT" "PWKNFGT" "P39MEWZ" "P83EOFI"
        (some [{ ID := "P273W1N", Type_ := "user_reference" }]) (World.start ())).2.trace =
      [Request.UpdateEscalationPolicy "P23N6LT"
        { EscalationRules := some [
            { Delay := 5, Targets := some [{ ID := "PWKNFGT", Type_ := "user_reference" }] },
            { Delay := 15, Targets := some [{ ID := "P273W1N", Type_ := "user_reference" }] }],
          Services := some [{ ID := "P39MEWZ", Type_ := "service_reference" }],
          Teams := some [{ ID := "P83EOFI", Type_ := "team_reference" }] }] ∧
    ∃ ep : EscalationPolicy,
      (client.UpdateEscalationPolicy (pagedBackend {}) "P23N6LT" "PWKNFGT" "" ""
          (some [{ ID := "P273W1N", Type_ := "user_reference" }]) (World.start ())).2.trace =
        [Request.UpdateEscalationPolicy "P23N6LT" ep] ∧
      (elems ep.EscalationRules).length = 2 ∧ ep.Services = none ∧ ep.Teams = none := by
  refine ⟨by decide, ?_⟩
  obtain ⟨ep, ht, hr, -, hs, -, htm⟩ :=
    UpdateEscalationPolicy_request_policy (pagedBackend {}) "P23N6LT" "PWKNFGT" "" ""
      [{ ID := "P273W1N", Type_ := "user_reference" }] (by decide) (by decide) (World.start ())
  exact ⟨ep, ht, by rw [hr]; rfl, hs rfl, htm rfl⟩

/-! ## The runs of the two incident loops, page by page -/

theorem GetIndicentsByEscalationPolicy_scan_since (id : String) :
    ∀ (l : List Incident) (acc : Option (List Incident) × String),
      (client.GetIndicentsByEscalationPolicy.scan id l acc).2 =
        (l.getLast?.map (fun i => i.CreatedAt)).getD acc.2 := by
  intro l
  induction l with
  | nil => intro acc; rfl
  | cons i rest ih =>
    intro acc
    simp only [client.GetIndicentsByEscalationPolicy.scan]
    rw [ih]
    cases rest with
    | nil => rfl
    | cons j rest1 =>
      rw [List.getLast?_cons_cons]
      cases hk : (j :: rest1).getLast? with
      | none => exact absurd (List.getLast?_eq_none_iff.mp hk) (by simp)
      | some k => rfl

theorem SearchIncidents_scan_since (q : String) :
    ∀ (l : List Incident) (acc : Option (List Incident) × String),
      (client.SearchIncidents.scan q l acc).2 =
        (l.getLast?.map (fun i => i.CreatedAt)).getD acc.2 := by
  intro l
  induction l with
  | nil => intro acc; rfl
  | cons i rest ih =>
    intro acc
    simp only [client.SearchIncidents.scan]
    rw [ih]
    cases rest with
    | nil => rfl
    | cons j rest1 =>
      rw [List.getLast?_cons_cons]
      cases hk : (j :: rest1).getLast? with
      | none => exact absurd (List.getLast?_eq_none_iff.mp hk) (by simp)
      | some k => rfl

theorem SearchIncidents_scan_elems (q : String) :
    ∀ (l : List Incident) (acc : Option (List Incident) × String),
      elems (client.SearchIncidents.scan q l acc).1 =
        elems acc.1 ++ l.filter (fun i => Contains i.Service.Summary q) := by
  intro l
  induction l with
  | nil => intro acc; simp [client.SearchIncidents.scan]
  | cons i rest ih =>
    intro acc
    simp only [client.SearchIncidents.scan]
    rw [ih]
    by_cases h : Contains i.Service.Summary q = true
    · simp [h, elems_goAppend]
    · simp [h]

theorem getLast_createdAt_of_ne_nil (l : List Incident) (d : String) (h : l ≠ []) :
    some ((l.getLast?.map (fun i => i.CreatedAt)).getD d) =
      l.getLast?.map (fun i => i.CreatedAt) := by
  cases hl : l.getLast? with
  | none => exact absurd (List.getLast?_eq_none_iff.mp hl) h
  | some i => rfl

theorem incidentRequests_spec (env : Env) (id : String) :
    ∀ (pages : List ListIncidentsResponse) (off : Nat) (acc : Option (List Incident) × String),
      (∀ p ∈ pages, p.Incidents ≠ []) →
      (incidentRequests env id pages off acc).map (fun o => o.Offset) =
          List.iterate (fun o => uintAdd o env.increase) off (pages.length + 1) ∧
        (incidentRequests env id pages off acc).map (fun o => some o.Since) =
          some acc.2 :: pages.map (fun p => p.Incidents.getLast?.map (fun i => i.CreatedAt)) ∧
        (∀ o ∈ incidentRequests env id pages off acc,
          o.Limit = env.limit ∧ o.TimeZone = "UTC") := by
  intro pages
  induction pages with
  | nil =>
    intro off acc _
    simp [incidentRequests, client.GetIndicentsByEscalationPolicy.options, List.iterate]
  | cons p ps ih =>
    intro off acc hp
    obtain ⟨h1, h2, h3⟩ := ih (uintAdd off env.increase)
      (client.GetIndicentsByEscalationPolicy.scan id p.Incidents acc)
      (fun q hq => hp q (by simp [hq]))
    rw [GetIndicentsByEscalationPolicy_scan_since,
      getLast_createdAt_of_ne_nil _ _ (hp p (by simp))] at h2
    refine ⟨?_, ?_, ?_⟩
    · rw [incidentRequests, List.map_cons, h1, List.length_cons, List.iterate]
      rfl
    · rw [incidentRequests, List.map_cons, h2]
      rfl
    · intro o ho
      rw [incidentRequests, List.mem_cons] at ho
      rcases ho with rfl | ho
      · exact ⟨rfl, rfl⟩
      · exact h3 o ho

theorem searchRequests_spec (env : Env) (q : String) :
    ∀ (pages : List ListIncidentsResponse) (off : Nat) (acc : Option (List Incident) × String),
      (∀ p ∈ pages, p.Incidents ≠ []) →
      (searchRequests env q pages off acc).map (fun o => o.Offset) =
          List.iterate (fun o => uintAdd o env.increase) off (pages.length + 1) ∧
        (searchRequests env q pages off acc).map (fun o => some o.Since) =
          some acc.2 :: pages.map (fun p => p.Incidents.getLast?.map (fun i => i.CreatedAt)) ∧
        (∀ o ∈ searchRequests env q pages off acc,
          o.Limit = env.limit ∧ o.TimeZone = "UTC") := by
  intro pages
  induction pages with
  | nil =>
    intro off acc _
    simp [searchRequests, client.SearchIncidents.options, List.iterate]
  | cons p ps ih =>
    intro off acc hp
    obtain ⟨h1, h2, h3⟩ := ih (uintAdd off env.increase)
      (client.SearchIncidents.scan q p.Incidents acc)
      (fun r hr => hp r (by simp [hr]))
    rw [SearchIncidents_scan_since,
      getLast_createdAt_of_ne_nil _ _ (hp p (by simp))] at h2
    refine ⟨?_, ?_, ?_⟩
    · rw [searchRequests, List.map_cons, h1, List.length_cons, List.iterate]
      rfl
    · rw [searchRequests, List.map_cons, h2]
      rfl
    · intro o ho
      rw [searchRequests, List.mem_cons] at ho
      rcases ho with rfl | ho
      · exact ⟨rfl, rfl⟩
      · exact h3 o ho

theorem GetIndicentsByEscalationPolicy_loop_run {σ : Type} (env : Env) (b : Backend σ)
    (id : String) (last : Except String ListIncidentsResponse)
    (hlast : ∀ r, last = Except.ok r → r.Incidents = []) :
    ∀ (pages : List ListIncidentsResponse) (acc : Option (List Incident) × String) (off : Nat)
      (w : World σ) (fuel : Nat),
      (∀ p ∈ pages, p.Incidents ≠ []) →
      answers b.ListIncidentsWithContext (incidentRequests env id pages off acc) w.state =
        pages.map Except.ok ++ [last] →
      pages.length + 1 ≤ fuel →
      ∃ r w1, client.GetIndicentsByEscalationPolicy.loop env b id fuel acc off w =
          some (r, w1) ∧
        w1.trace = w.trace ++
          (incidentRequests env id pages off acc).map Request.ListIncidents ∧
        (∀ e, last = Except.error e → r = (none, some ("failed to list incidents: " ++ e))) ∧
        (∀ resp, last = Except.ok resp → r.2 = none ∧
          elems r.1 = elems acc.1 ++
            (pages.flatMap (fun p => p.Incidents)).filter
              (fun i => decide (i.EscalationPolicy.ID = id))) := by
  intro pages
  induction pages with
  | nil =>
    intro acc off w fuel _ hb hfuel
    obtain ⟨n, rfl⟩ : ∃ n, fuel = n + 1 := ⟨fuel - 1, by simp at hfuel; omega⟩
    simp only [incidentRequests, answers, List.map_nil, List.nil_append, List.cons.injEq,
      and_true] at hb
    cases last with
    | error e =>
      refine ⟨(none, some ("failed to list incidents: " ++ e)),
        { state := (b.ListIncidentsWithContext
            (client.GetIndicentsByEscalationPolicy.options env off acc.2) w.state).2,
          trace := w.trace ++ [Request.ListIncidents
            (client.GetIndicentsByEscalationPolicy.options env off acc.2)] },
        ?_, ?_, ?_, ?_⟩
      · simp [client.GetIndicentsByEscalationPolicy.loop, issue, hb]
      · simp [incidentRequests]
      · intro e1 he1
        cases he1
        rfl
      · intro resp hresp
        cases hresp
    | ok resp =>
      have hempty := hlast resp rfl
      refine ⟨(acc.1, none),
        { state := (b.ListIncidentsWithContext
            (client.GetIndicentsByEscalationPolicy.options env off acc.2) w.state).2,
          trace := w.trace ++ [Request.ListIncidents
            (client.GetIndicentsByEscalationPolicy.options env off acc.2)] },
        ?_, ?_, ?_, ?_⟩
      · simp [client.GetIndicentsByEscalationPolicy.loop, issue, hb, hempty]
      · simp [incidentRequests]
      · intro e1 he1
        cases he1
      · intro resp1 _
        simp
  | cons p ps ih =>
    intro acc off w fuel hp hb hfuel
    obtain ⟨n, rfl⟩ : ∃ n, fuel = n + 1 := ⟨fuel - 1, by simp at hfuel; omega⟩
    rw [incidentRequests, answers_cons, List.map_cons, List.cons_append, List.cons.injEq] at hb
    obtain ⟨hb1, hb2⟩ := hb
    have hpne : ¬ p.Incidents.length < 1 := by
      have := hp p (by simp)
      have := List.length_pos.mpr this
      omega
    obtain ⟨r, w1, hr, ht, hfail, hok⟩ := ih
      (client.GetIndicentsByEscalationPolicy.scan id p.Incidents acc)
      (uintAdd off env.increase)
      { state := (b.ListIncidentsWithContext
          (client.GetIndicentsByEscalationPolicy.options env off acc.2) w.state).2,
        trace := w.trace ++ [Request.ListIncidents
          (client.GetIndicentsByEscalationPolicy.options env off acc.2)] }
      n (fun q hq => hp q (by simp [hq])) hb2 (by simp at hfuel; omega)
    refine ⟨r, w1, ?_, ?_, hfail, ?_⟩
    · simp only [client.GetIndicentsByEscalationPolicy.loop, issue, hb1, hpne, if_false]
      exact hr
    · rw [ht, incidentRequests]
      simp
    · intro resp hresp
      obtain ⟨h1, h2⟩ := hok resp hresp
      refine ⟨h1, ?_⟩
      rw [h2, GetIndicentsByEscalationPolicy_scan_elems]
      simp

theorem SearchIncidents_loop_run {σ : Type} (env : Env) (b : Backend σ)
    (q : String) (last : Except String ListIncidentsResponse)
    (hlast : ∀ r, last = Except.ok r → r.Incidents = []) :
    ∀ (pages : List ListIncidentsResponse) (acc : Option (List Incident) × String) (off : Nat)
      (w : World σ) (fuel : Nat),
      (∀ p ∈ pages, p.Incidents ≠ []) →
      answers b.ListIncidentsWithContext (searchRequests env q pages off acc) w.state =
        pages.map Except.ok ++ [last] →
      pages.length + 1 ≤ fuel →
      ∃ r w1, client.SearchIncidents.loop env b q fuel acc off w = some (r, w1) ∧
        w1.trace = w.trace ++ (searchRequests env q pages off acc).map Request.ListIncidents ∧
        (∀ e, last = Except.error e → r = (none, some ("failed to list incidents: " ++ e))) ∧
        (∀ resp, last = Except.ok resp → r.2 = none ∧
          elems r.1 = elems acc.1 ++
            (pages.flatMap (fun p => p.Incidents)).filter
              (fun i => Contains i.Service.Summary q)) := by
  intro pages
  induction pages with
  | nil =>
    intro acc off w fuel _ hb hfuel
    obtain ⟨n, rfl⟩ : ∃ n, fuel = n + 1 := ⟨fuel - 1, by simp at hfuel; omega⟩
    simp only [searchRequests, answers, List.map_nil, List.nil_append, List.cons.injEq,
      and_true] at hb
    cases last with
    | error e =>
      refine ⟨(none, some ("failed to list incidents: " ++ e)),
        { state := (b.ListIncidentsWithContext
            (client.SearchIncidents.options env off acc.2) w.state).2,
          trace := w.trace ++ [Request.ListIncidents
            (client.SearchIncidents.options env off acc.2)] },
        ?_, ?_, ?_, ?_⟩
      · simp [client.SearchIncidents.loop, issue, hb]
      · simp [searchRequests]
      · intro e1 he1
        cases he1
        rfl
      · intro resp hresp
        cases hresp
    | ok resp =>
      have hempty := hlast resp rfl
      refine ⟨(acc.1, none),
        { state := (b.ListIncidentsWithContext
            (client.SearchIncidents.options env off acc.2) w.state).2,
          trace := w.trace ++ [Request.ListIncidents
            (client.SearchIncidents.options env off acc.2)] },
        ?_, ?_, ?_, ?_⟩
      · simp [client.SearchIncidents.loop, issue, hb, hempty]
      · simp [searchRequests]
      · intro e1 he1
        cases he1
      · intro resp1 _
        simp
  | cons p ps ih =>
    intro acc off w fuel hp hb hfuel
    obtain ⟨n, rfl⟩ : ∃ n, fuel = n + 1 := ⟨fuel - 1, by simp at hfuel; omega⟩
    rw [searchRequests, answers_cons, List.map_cons, List.cons_append, List.cons.injEq] at hb
    obtain ⟨hb1, hb2⟩ := hb
    have hpne : ¬ p.Incidents.length < 1 := by
      have := hp p (by simp)
      have := List.length_pos.mpr this
      omega
    obtain ⟨r, w1, hr, ht, hfail, hok⟩ := ih
      (client.SearchIncidents.scan q p.Incidents acc)
      (uintAdd off env.increase)
      { state := (b.ListIncidentsWithContext
          (client.SearchIncidents.options env off acc.2) w.state).2,
        trace := w.trace ++ [Request.ListIncidents
          (client.SearchIncidents.options env off acc.2)] }
      n (fun r hr => hp r (by simp [hr])) hb2 (by simp at hfuel; omega)
    refine ⟨r, w1, ?_, ?_, hfail, ?_⟩
    · simp only [client.SearchIncidents.loop, issue, hb1, hpne, if_false]
      exact hr
    · rw [ht, searchRequests]
      simp
    · intro resp hresp
      obtain ⟨h1, h2⟩ := hok resp hresp
      refine ⟨h1, ?_⟩
      rw [h2, SearchIncidents_scan_elems]
      simp

/-! ## C26: the cursor `since` and the offset of the incident requests -/

/-- C26. Let the backend answer the successive requests of the real
`GetIndicentsByEscalationPolicy` (called with a non-blank identifier) or of the real
`SearchIncidents` with `N` non-empty pages and then with `last`, an error or an empty page.
Given fuel for `N + 1` iterations the operation returns after exactly `N + 1` requests
`reqs`, and: the `since` of the first request is the current time plus `timeRange`
multiplied by `time.Minute` (in `int64` arithmetic, which is `timeRange` minutes as long as
the product fits), rendered in UTC; the `since` of request `k + 1` is the `CreatedAt` of the
last incident of page `k`, whatever that incident's escalation policy or service is; the
offset of request `k` is `k * increase` in `uint` arithmetic, which is `k * increase` itself
as long as `N * increase` fits a `uint`; every request carries the fixed limit and the time
zone `UTC`. -/
theorem incident_requests_since_and_offset {σ : Type} (env : Env) (b : Backend σ)
    (escalationPolicyID serviceQuery : String) (hid : ¬ Blank escalationPolicyID)
    (timeRange : Int) (pages : List ListIncidentsResponse)
    (last : Except String ListIncidentsResponse)
    (hpages : ∀ p ∈ pages, p.Incidents ≠ [])
    (hlast : ∀ r, last = Except.ok r → r.Incidents = [])
    (w : World σ) (fuel : Nat) (hfuel : pages.length + 1 ≤ fuel) :
    (answers b.ListIncidentsWithContext
        (incidentRequests env escalationPolicyID pages 0 (none, querySince env b timeRange w))
        w.state = pages.map Except.ok ++ [last] →
      ∃ r w1, ∃ reqs : List ListIncidentsOptions,
        client.GetIndicentsByEscalationPolicy env b escalationPolicyID timeRange fuel w =
          some (r, w1) ∧
        w1.trace = w.trace ++ reqs.map Request.ListIncidents ∧
        reqs.map (fun o => some o.Since) =
          some (env.formatUTC (b.now w.state + wrapInt64 (timeRange * Minute))) ::
            pages.map (fun p => p.Incidents.getLast?.map (fun i => i.CreatedAt)) ∧
        reqs.map (fun o => o.Offset) =
          (List.range (pages.length + 1)).map (fun k => k * env.increase % uintSize) ∧
        (pages.length * env.increase < uintSize →
          reqs.map (fun o => o.Offset) =
            (List.range (pages.length + 1)).map (fun k => k * env.increase)) ∧
        (∀ o ∈ reqs, o.Limit = env.limit ∧ o.TimeZone = "UTC")) ∧
    (answers b.ListIncidentsWithContext
        (searchRequests env serviceQuery pages 0 (none, querySince env b timeRange w))
        w.state = pages.map Except.ok ++ [last] →
      ∃ r w1, ∃ reqs : List ListIncidentsOptions,
        client.SearchIncidents env b serviceQuery timeRange fuel w = some (r, w1) ∧
        w1.trace = w.trace ++ reqs.map Request.ListIncidents ∧
        reqs.map (fun o => some o.Since) =
          some (env.formatUTC (b.now w.state + wrapInt64 (timeRange * Minute))) ::
            pages.map (fun p => p.Incidents.getLast?.map (fun i => i.CreatedAt)) ∧
        reqs.map (fun o => o.Offset) =
          (List.range (pages.length + 1)).map (fun k => k * env.increase % uintSize) ∧
        (pages.length * env.increase < uintSize →
          reqs.map (fun o => o.Offset) =
            (List.range (pages.length + 1)).map (fun k => k * env.increase)) ∧
        (∀ o ∈ reqs, o.Limit = env.limit ∧ o.TimeZone = "UTC")) ∧
    ((- 2 ^ 63 ≤ timeRange * Minute ∧ timeRange * Minute < 2 ^ 63) →
      querySince env b timeRange w = env.formatUTC (b.now w.state + timeRange * Minute)) := by
  have hn : TrimSpace escalationPolicyID ≠ "" :=
    fun h => hid ((TrimSpace_eq_empty_iff escalationPolicyID).mp h)
  have hit := iterate_uintAdd_eq env.increase (pages.length + 1) 0
  simp only [Nat.zero_mod, Nat.zero_add] at hit
  have hsmall : pages.length * env.increase < uintSize →
      (List.range (pages.length + 1)).map (fun k => k * env.increase % uintSize) =
        (List.range (pages.length + 1)).map (fun k => k * env.increase) := by
    intro hs
    apply List.map_congr_left
    intro k hk
    have hk1 : k < pages.length + 1 := List.mem_range.mp hk
    have : k * env.increase < uintSize :=
      lt_of_le_of_lt (Nat.mul_le_mul_right _ (by omega)) hs
    rw [Nat.mod_eq_of_lt this]
  refine ⟨?_, ?_, ?_⟩
  · intro hb
    obtain ⟨r, w1, hr, ht, -, -⟩ := GetIndicentsByEscalationPolicy_loop_run env b
      escalationPolicyID last hlast pages (none, querySince env b timeRange w) 0 w fuel hpages
      hb hfuel
    obtain ⟨h1, h2, h3⟩ := incidentRequests_spec env escalationPolicyID pages 0
      (none, querySince env b timeRange w) hpages
    refine ⟨r, w1, _, ?_, ht, h2, ?_, ?_, h3⟩
    · simp only [client.GetIndicentsByEscalationPolicy, hn, if_false, LoadLocationUTC]
      exact hr
    · rw [h1, hit]
    · intro hs
      rw [h1, hit, hsmall hs]
  · intro hb
    obtain ⟨r, w1, hr, ht, -, -⟩ := SearchIncidents_loop_run env b
      serviceQuery last hlast pages (none, querySince env b timeRange w) 0 w fuel hpages
      hb hfuel
    obtain ⟨h1, h2, h3⟩ := searchRequests_spec env serviceQuery pages 0
      (none, querySince env b timeRange w) hpages
    refine ⟨r, w1, _, ?_, ht, h2, ?_, ?_, h3⟩
    · simp only [client.SearchIncidents, LoadLocationUTC]
      exact hr
    · rw [h1, hit]
    · intro hs
      rw [h1, hit, hsmall hs]
  · rintro ⟨hlo, hhi⟩
    unfold querySince wrapInt64
    congr 2
    omega

/-- C26 on a backend that holds three incidents and serves pages of two, at clock reading
0 with `timeRange = -30`: three requests; the first carries the instant thirty minutes before
0, the second the `CreatedAt` of the second incident, which is not of the policy asked for,
the third the `CreatedAt` of the third incident; the offsets are 0, 2 and 4. -/
theorem incident_requests_since_and_offset_witness :
    ∃ r w1, ∃ reqs : List ListIncidentsOptions,
      client.GetIndicentsByEscalationPolicy env2 (pagedBackend threeIncidents) "PXYKJ4K" (-30) 3
        (World.start ()) = some (r, w1) ∧
      w1.trace = reqs.map Request.ListIncidents ∧
      reqs.map (fun o => some o.Since) =
        [some "-1800000000000", some "2022-09-06T03:04:51Z", some "2022-09-06T03:18:04Z"] ∧
      reqs.map (fun o => o.Offset) = [0, 2, 4] := by
  obtain ⟨r, w1, reqs, hr, ht, hs, -, ho, -⟩ :=
    (incident_requests_since_and_offset env2 (pagedBackend threeIncidents) "PXYKJ4K" "Ad Server"
      (by decide) (-30)
      [{ Incidents := threeIncidents.incidents.take 2 },
       { Incidents := threeIncidents.incidents.drop 2 }]
      (Except.ok { Incidents := [] }) (by decide)
      (by intro r h; cases h; rfl) (World.start ()) 3 (by decide)).1 rfl
  exact ⟨r, w1, reqs, hr, by simpa [World.start] using ht, hs, ho (by decide)⟩

/-! ## C27: a failure after `k` pages discards what was fetched -/

theorem GetOnCallsByScheduleIDs_loop_fails {σ : Type} (env : Env) (b : Backend σ)
    (ids : Option (List String)) (e : String) :
    ∀ (pages : List ListOnCallsResponse) (acc : Option (List OnCall)) (off : Nat)
      (w : World σ) (fuel : Nat),
      (∀ p ∈ pages, p.OnCalls ≠ []) →
      answers b.ListOnCallsWithContext
          ((List.iterate (fun o => uintAdd o env.increase) off (pages.length + 1)).map
            (client.GetOnCallsByScheduleIDs.options env ids))
          w.state = pages.map Except.ok ++ [Except.error e] →
      pages.length + 1 ≤ fuel →
      ∃ w1, client.GetOnCallsByScheduleIDs.loop env b ids fuel acc off w =
          some ((none, some ("failed to list on calls: " ++ e)), w1) ∧
        w1.trace = w.trace ++
          (List.iterate (fun o => uintAdd o env.increase) off (pages.length + 1)).map
            (fun o => Request.ListOnCalls (client.GetOnCallsByScheduleIDs.options env ids o)) := by
  intro pages
  induction pages with
  | nil =>
    intro acc off w fuel _ hb hfuel
    obtain ⟨n, rfl⟩ : ∃ n, fuel = n + 1 := ⟨fuel - 1, by simp at hfuel; omega⟩
    simp only [List.length_nil, Nat.zero_add, List.iterate, List.map_cons, List.map_nil,
      answers, List.nil_append, List.cons.injEq, and_true] at hb
    refine ⟨
      { state := (b.ListOnCallsWithContext
          (client.GetOnCallsByScheduleIDs.options env ids off) w.state).2,
        trace := w.trace ++
          [Request.ListOnCalls (client.GetOnCallsByScheduleIDs.options env ids off)] },
      ?_, ?_⟩
    · simp [client.GetOnCallsByScheduleIDs.loop, issue, hb]
    · simp [List.iterate]
  | cons p ps ih =>
    intro acc off w fuel hp hb hfuel
    obtain ⟨n, rfl⟩ : ∃ n, fuel = n + 1 := ⟨fuel - 1, by simp at hfuel; omega⟩
    rw [List.length_cons, List.iterate, List.map_cons, answers_cons, List.map_cons,
      List.cons_append, List.cons.injEq] at hb
    obtain ⟨hb1, hb2⟩ := hb
    have hpne : ¬ p.OnCalls.length < 1 := by
      have := hp p (by simp)
      have := List.length_pos.mpr this
      omega
    obtain ⟨w1, hr, ht⟩ := ih (goAppend acc p.OnCalls) (uintAdd off env.increase)
      { state := (b.ListOnCallsWithContext
          (client.GetOnCallsByScheduleIDs.options env ids off) w.state).2,
        trace := w.trace ++
          [Request.ListOnCalls (client.GetOnCallsByScheduleIDs.options env ids off)] }
      n (fun q hq => hp q (by simp [hq])) hb2 (by simp at hfuel; omega)
    refine ⟨w1, ?_, ?_⟩
    · simp only [client.GetOnCallsByScheduleIDs.loop, issue, hb1, hpne, if_false]
      exact hr
    · rw [ht]
      simp [List.iterate]

theorem ListAllUsers_loop_fails {σ : Type} (env : Env) (b : Backend σ)
    (o : ListUsersOptions) (e : String) :
    ∀ (pages : List ListUsersResponse) (acc : Option (List User)) (off : Nat)
      (w : World σ) (fuel : Nat),
      (∀ p ∈ pages, p.Users ≠ []) →
      answers b.ListUsersWithContext (List.replicate (pages.length + 1) o) w.state =
        pages.map Except.ok ++ [Except.error e] →
      pages.length + 1 ≤ fuel →
      ∃ w1, client.ListAllUsers.loop env b o fuel acc off w =
          some ((none, some ("failed to list users: " ++ e)), w1) ∧
        w1.trace = w.trace ++ List.replicate (pages.length + 1) (Request.ListUsers o) := by
  intro pages
  induction pages with
  | nil =>
    intro acc off w fuel _ hb hfuel
    obtain ⟨n, rfl⟩ : ∃ n, fuel = n + 1 := ⟨fuel - 1, by simp at hfuel; omega⟩
    simp only [List.length_nil, Nat.zero_add, List.replicate, answers, List.map_nil,
      List.nil_append, List.cons.injEq, and_true] at hb
    refine ⟨
      { state := (b.ListUsersWithContext o w.state).2,
        trace := w.trace ++ [Request.ListUsers o] }, ?_, ?_⟩
    · simp [client.ListAllUsers.loop, issue, hb]
    · simp [List.replicate]
  | cons p ps ih =>
    intro acc off w fuel hp hb hfuel
    obtain ⟨n, rfl⟩ : ∃ n, fuel = n + 1 := ⟨fuel - 1, by simp at hfuel; omega⟩
    rw [List.length_cons, List.replicate_succ, answers_cons, List.map_cons,
      List.cons_append, List.cons.injEq] at hb
    obtain ⟨hb1, hb2⟩ := hb
    have hpne : ¬ p.Users.length < 1 := by
      have := hp p (by simp)
      have := List.length_pos.mpr this
      omega
    obtain ⟨w1, hr, ht⟩ := ih (goAppend acc p.Users) (uintAdd off env.increase)
      { state := (b.ListUsersWithContext o w.state).2,
        trace := w.trace ++ [Request.ListUsers o] }
      n (fun q hq => hp q (by simp [hq])) hb2 (by simp at hfuel; omega)
    refine ⟨w1, ?_, ?_⟩
    · simp only [client.ListAllUsers.loop, issue, hb1, hpne, if_false]
      exact hr
    · rw [ht]
      simp [List.replicate_succ]

theorem ListAllTags_loop_fails {σ : Type} (env : Env) (b : Backend σ)
    (o : ListTagOptions) (e : String) :
    ∀ (pages : List ListTagResponse) (acc : Option (List Tag)) (off : Nat)
      (w : World σ) (fuel : Nat),
      (∀ p ∈ pages, p.Tags ≠ []) →
      answers b.ListTags (List.replicate (pages.length + 1) o) w.state =
        pages.map Except.ok ++ [Except.error e] →
      pages.length + 1 ≤ fuel →
      ∃ w1, client.ListAllTags.loop env b o fuel acc off w =
          some ((none, some ("failed to list tags: " ++ e)), w1) ∧
        w1.trace = w.trace ++ List.replicate (pages.length + 1) (Request.ListTags o) := by
  intro pages
  induction pages with
  | nil =>
    intro acc off w fuel _ hb hfuel
    obtain ⟨n, rfl⟩ : ∃ n, fuel = n + 1 := ⟨fuel - 1, by simp at hfuel; omega⟩
    simp only [List.length_nil, Nat.zero_add, List.replicate, answers, List.map_nil,
      List.nil_append, List.cons.injEq, and_true] at hb
    refine ⟨
      { state := (b.ListTags o w.state).2,
        trace := w.trace ++ [Request.ListTags o] }, ?_, ?_⟩
    · simp [client.ListAllTags.loop, issue, hb]
    · simp [List.replicate]
  | cons p ps ih =>
    intro acc off w fuel hp hb hfuel
    obtain ⟨n, rfl⟩ : ∃ n, fuel = n + 1 := ⟨fuel - 1, by simp at hfuel; omega⟩
    rw [List.length_cons, List.replicate_succ, answers_cons, List.map_cons,
      List.cons_append, List.cons.injEq] at hb
    obtain ⟨hb1, hb2⟩ := hb
    have hpne : ¬ p.Tags.length < 1 := by
      have := hp p (by simp)
      have := List.length_pos.mpr this
      omega
    obtain ⟨w1, hr, ht⟩ := ih (goAppend acc p.Tags) (uintAdd off env.increase)
      { state := (b.ListTags o w.state).2,
        trace := w.trace ++ [Request.ListTags o] }
      n (fun q hq => hp q (by simp [hq])) hb2 (by simp at hfuel; omega)
    refine ⟨w1, ?_, ?_⟩
    · simp only [client.ListAllTags.loop, issue, hb1, hpne, if_false]
      exact hr
    · rw [ht]
      simp [List.replicate_succ]

theorem incidentRequests_length (env : Env) (id : String) :
    ∀ (pages : List ListIncidentsResponse) (off : Nat) (acc : Option (List Incident) × String),
      (incidentRequests env id pages off acc).length = pages.length + 1 := by
  intro pages
  induction pages with
  | nil => intro off acc; rfl
  | cons p ps ih => intro off acc; simp [incidentRequests, ih]

theorem searchRequests_length (env : Env) (q : String) :
    ∀ (pages : List ListIncidentsResponse) (off : Nat) (acc : Option (List Incident) × String),
      (searchRequests env q pages off acc).length = pages.length + 1 := by
  intro pages
  induction pages with
  | nil => intro off acc; rfl
  | cons p ps ih => intro off acc; simp [searchRequests, ih]

/-- C27. For each of the five paginating operations of the real client, called with valid
arguments and fuel for `k + 1` iterations: when the backend answers the successive requests
of the operation with `k` non-empty pages (`k` may be 0) and the next request with the error
`e`, the operation returns: its result is nil, its error is not nil (the description of the
operation followed by the message of `e`), and it has issued exactly `k + 1` requests, the
failed one being the last. Nothing of the `k` pages is returned. -/
theorem pagination_failure_discards_pages {σ : Type} (env : Env) (b : Backend σ) (e : String)
    (w : World σ) (fuel : Nat) :
    (∀ (ids : List String) (pages : List ListOnCallsResponse), ids ≠ [] →
      (∀ y ∈ ids, ¬ Blank y) → (∀ p ∈ pages, p.OnCalls ≠ []) → pages.length + 1 ≤ fuel →
      answers b.ListOnCallsWithContext
        ((List.range (pages.length + 1)).map (fun k =>
          client.GetOnCallsByScheduleIDs.options env (some ids) (k * env.increase % uintSize)))
        w.state = pages.map Except.ok ++ [Except.error e] →
      ∃ w1, client.GetOnCallsByScheduleIDs env b (some ids) fuel w =
          some ((none, some ("failed to list on calls: " ++ e)), w1) ∧
        w1.trace = w.trace ++ (List.range (pages.length + 1)).map (fun k =>
          Request.ListOnCalls (client.GetOnCallsByScheduleIDs.options env (some ids)
            (k * env.increase % uintSize))) ∧
        w1.trace.length = w.trace.length + (pages.length + 1)) ∧
    (∀ (o : ListUsersOptions) (pages : List ListUsersResponse),
      (∀ p ∈ pages, p.Users ≠ []) → pages.length + 1 ≤ fuel →
      answers b.ListUsersWithContext
        (List.replicate (pages.length + 1) { o with Limit := env.limit, Offset := 0 })
        w.state = pages.map Except.ok ++ [Except.error e] →
      ∃ w1, client.ListAllUsers env b o fuel w =
          some ((none, some ("failed to list users: " ++ e)), w1) ∧
        w1.trace = w.trace ++ List.replicate (pages.length + 1)
          (Request.ListUsers { o with Limit := env.limit, Offset := 0 }) ∧
        w1.trace.length = w.trace.length + (pages.length + 1)) ∧
    (∀ (o : ListTagOptions) (pages : List ListTagResponse),
      (∀ p ∈ pages, p.Tags ≠ []) → pages.length + 1 ≤ fuel →
      answers b.ListTags
        (List.replicate (pages.length + 1) { o with Limit := env.limit, Offset := 0 })
        w.state = pages.map Except.ok ++ [Except.error e] →
      ∃ w1, client.ListAllTags env b o fuel w =
          some ((none, some ("failed to list tags: " ++ e)), w1) ∧
        w1.trace = w.trace ++ List.replicate (pages.length + 1)
          (Request.ListTags { o with Limit := env.limit, Offset := 0 }) ∧
        w1.trace.length = w.trace.length + (pages.length + 1)) ∧
    (∀ (escalationPolicyID : String) (timeRange : Int) (pages : List ListIncidentsResponse),
      ¬ Blank escalationPolicyID → (∀ p ∈ pages, p.Incidents ≠ []) → pages.length + 1 ≤ fuel →
      answers b.ListIncidentsWithContext
        (incidentRequests env escalationPolicyID pages 0 (none, querySince env b timeRange w))
        w.state = pages.map Except.ok ++ [Except.error e] →
      ∃ w1, client.GetIndicentsByEscalationPolicy env b escalationPolicyID timeRange fuel w =
          some ((none, some ("failed to list incidents: " ++ e)), w1) ∧
        w1.trace = w.trace ++
          (incidentRequests env escalationPolicyID pages 0
            (none, querySince env b timeRange w)).map Request.ListIncidents ∧
        w1.trace.length = w.trace.length + (pages.length + 1)) ∧
    (∀ (serviceQuery : String) (timeRange : Int) (pages : List ListIncidentsResponse),
      (∀ p ∈ pages, p.Incidents ≠ []) → pages.length + 1 ≤ fuel →
      answers b.ListIncidentsWithContext
        (searchRequests env serviceQuery pages 0 (none, querySince env b timeRange w))
        w.state = pages.map Except.ok ++ [Except.error e] →
      ∃ w1, client.SearchIncidents env b serviceQuery timeRange fuel w =
          some ((none, some ("failed to list incidents: " ++ e)), w1) ∧
        w1.trace = w.trace ++
          (searchRequests env serviceQuery pages 0
            (none, querySince env b timeRange w)).map Request.ListIncidents ∧
        w1.trace.length = w.trace.length + (pages.length + 1)) := by
  refine ⟨?_, ?_, ?_, ?_, ?_⟩
  · intro ids pages hne hnb hpages hfuel hb
    rw [range_offsets_eq_iterate env.increase (pages.length + 1)
      (client.GetOnCallsByScheduleIDs.options env (some ids))] at hb
    obtain ⟨w1, hr, ht⟩ := GetOnCallsByScheduleIDs_loop_fails env b (some ids) e
      pages none 0 w fuel hpages hb hfuel
    have hlen : ¬ ids.length < 1 := by
      have := List.length_pos.mpr hne
      omega
    have hent : hasEmptyEntry ids = false := by
      rw [Bool.eq_false_iff]
      intro h
      obtain ⟨y, hy, hyb⟩ := (hasEmptyEntry_iff ids).mp h
      exact hnb y hy hyb
    have ht1 : w1.trace = w.trace ++ (List.range (pages.length + 1)).map (fun k =>
        Request.ListOnCalls (client.GetOnCallsByScheduleIDs.options env (some ids)
          (k * env.increase % uintSize))) := by
      rw [ht, range_offsets_eq_iterate env.increase (pages.length + 1)
        (fun o => Request.ListOnCalls (client.GetOnCallsByScheduleIDs.options env (some ids) o))]
    refine ⟨w1, ?_, ht1, ?_⟩
    · simp only [client.GetOnCallsByScheduleIDs, hlen, hent, if_false, Bool.false_eq_true]
      exact hr
    · rw [ht1]
      simp
  · intro o pages hpages hfuel hb
    obtain ⟨w1, hr, ht⟩ := ListAllUsers_loop_fails env b
      { o with Limit := env.limit, Offset := 0 } e pages none 0 w fuel hpages hb hfuel
    refine ⟨w1, hr, ht, ?_⟩
    rw [ht]
    simp
  · intro o pages hpages hfuel hb
    obtain ⟨w1, hr, ht⟩ := ListAllTags_loop_fails env b
      { o with Limit := env.limit, Offset := 0 } e pages none 0 w fuel hpages hb hfuel
    refine ⟨w1, hr, ht, ?_⟩
    rw [ht]
    simp
  · intro id timeRange pages hid hpages hfuel hb
    have hn : TrimSpace id ≠ "" := fun h => hid ((TrimSpace_eq_empty_iff id).mp h)
    obtain ⟨r, w1, hr, ht, hfail, -⟩ := GetIndicentsByEscalationPolicy_loop_run env b id
      (Except.error e) (by intro r h; cases h) pages (none, querySince env b timeRange w) 0 w
      fuel hpages hb hfuel
    rw [hfail e rfl] at hr
    refine ⟨w1, ?_, ht, ?_⟩
    · simp only [client.GetIndicentsByEscalationPolicy, hn, if_false, LoadLocationUTC]
      exact hr
    · rw [ht]
      simp [incidentRequests_length]
  · intro q timeRange pages hpages hfuel hb
    obtain ⟨r, w1, hr, ht, hfail, -⟩ := SearchIncidents_loop_run env b q
      (Except.error e) (by intro r h; cases h) pages (none, querySince env b timeRange w) 0 w
      fuel hpages hb hfuel
    rw [hfail e rfl] at hr
    refine ⟨w1, ?_, ht, ?_⟩
    · simp only [client.SearchIncidents, LoadLocationUTC]
      exact hr
    · rw [ht]
      simp [searchRequests_length]

/-- C27 on a backend that holds three on-calls, serves pages of two and fails from its second
request on: `GetOnCallsByScheduleIDs` returns a nil list and the wrapped error after two
requests; the two on-calls of the first page are not returned. The same backend with three
incidents makes `SearchIncidents` return a nil list and the wrapped error. -/
theorem pagination_failure_discards_pages_witness :
    (∃ w1, client.GetOnCallsByScheduleIDs env2
        (failingAfter threeOnCalls 1 "Internal Server Error") (some ["PUY4P9O"]) 2
        (World.start 0) =
        some ((none, some "failed to list on calls: Internal Server Error"), w1) ∧
      w1.trace.length = 2) ∧
    (∃ w1, client.SearchIncidents env2
        (failingAfter incidentsOfThreeServices 1 "Internal Server Error") "Ad Server" (-30) 2
        (World.start 0) =
        some ((none, some "failed to list incidents: Internal Server Error"), w1) ∧
      w1.trace.length = 2) := by
  refine ⟨?_, ?_⟩
  · obtain ⟨w1, hr, -, hl⟩ :=
      (pagination_failure_discards_pages env2
        (failingAfter threeOnCalls 1 "Internal Server Error") "Internal Server Error"
        (World.start 0) 2).1 ["PUY4P9O"] [{ OnCalls := threeOnCalls.onCalls.take 2 }]
        (by decide) (by decide) (by decide) (by decide) rfl
    exact ⟨w1, hr, by simpa [World.start] using hl⟩
  · obtain ⟨w1, hr, -, hl⟩ :=
      (pagination_failure_discards_pages env2
        (failingAfter incidentsOfThreeServices 1 "Internal Server Error")
        "Internal Server Error" (World.start 0) 2).2.2.2.2 "Ad Server" (-30)
        [{ Incidents := incidentsOfThreeServices.incidents.take 2 }]
        (by decide) (by decide) rfl
    exact ⟨w1, hr, by simpa [World.start] using hl⟩

/-! ## C28: the real `SearchIncidents` keeps the incidents whose summary contains the query -/

theorem containsRunes_nil : ∀ (l : List Char), containsRunes [] l = true := by
  intro l
  cases l with
  | nil => rfl
  | cons c rest => simp [containsRunes]

theorem Contains_empty (s : String) : Contains s "" = true :=
  containsRunes_nil s.data

/-- C28. For every `serviceQuery` and every sequence of non-empty incident pages followed
by an empty page, none of them an error, that the backend gives to the successive requests of
the operation: the real `SearchIncidents`, given fuel for all the pages, returns a nil error
and exactly the incidents of the concatenated pages whose `Service.Summary` contains
`serviceQuery`, in their order, a sub-sequence of what was fetched. For the empty query that
is every fetched incident, because the empty string is contained in every summary, whereas
the fake returns an empty list for the empty query: as soon as one page was fetched the two
results differ. -/
theorem SearchIncidents_real_filters_fake_returns_nothing {σ : Type} (env : Env)
    (b : Backend σ) (serviceQuery : String) (timeRange : Int)
    (pages : List ListIncidentsResponse) (last : ListIncidentsResponse)
    (hpages : ∀ p ∈ pages, p.Incidents ≠ []) (hlast : last.Incidents = [])
    (w : World σ)
    (hb : answers b.ListIncidentsWithContext
        (searchRequests env serviceQuery pages 0 (none, querySince env b timeRange w))
        w.state = pages.map Except.ok ++ [Except.ok last])
    (fuel : Nat) (hfuel : pages.length + 1 ≤ fuel) :
    ∃ r w1, client.SearchIncidents env b serviceQuery timeRange fuel w = some ((r, none), w1) ∧
      elems r = (pages.flatMap (fun p => p.Incidents)).filter
        (fun i => Contains i.Service.Summary serviceQuery) ∧
      List.Sublist (elems r) (pages.flatMap (fun p => p.Incidents)) ∧
      (∀ i ∈ elems r, Contains i.Service.Summary serviceQuery = true) ∧
      (∀ p ∈ pages, ∀ i ∈ p.Incidents, Contains i.Service.Summary serviceQuery = true →
        i ∈ elems r) ∧
      (serviceQuery = "" →
        elems r = pages.flatMap (fun p => p.Incidents) ∧
        FakePDClient.SearchIncidents serviceQuery timeRange = (some [], none) ∧
        (pages ≠ [] → elems r ≠ elems (FakePDClient.SearchIncidents serviceQuery timeRange).1)) := by
  obtain ⟨r, w1, hr, -, -, hok⟩ := SearchIncidents_loop_run env b serviceQuery
    (Except.ok last) (by intro r h; cases h; exact hlast) pages
    (none, querySince env b timeRange w) 0 w fuel hpages hb hfuel
  obtain ⟨hnone, he⟩ := hok last rfl
  have he1 : elems r.1 = (pages.flatMap (fun p => p.Incidents)).filter
      (fun i => Contains i.Service.Summary serviceQuery) := by
    simpa [elems] using he
  have hall : serviceQuery = "" → elems r.1 = pages.flatMap (fun p => p.Incidents) := by
    intro hq
    rw [he1, hq]
    apply List.filter_eq_self.mpr
    intro i _
    exact Contains_empty _
  refine ⟨r.1, w1, ?_, he1, ?_, ?_, ?_, ?_⟩
  · simp only [client.SearchIncidents, LoadLocationUTC]
    rw [hr]
    congr 2
    exact Prod.ext rfl hnone
  · rw [he1]
    exact List.filter_sublist _
  · intro i hi
    rw [he1] at hi
    exact (List.mem_filter.mp hi).2
  · intro p hp i hi hc
    rw [he1]
    exact List.mem_filter.mpr ⟨List.mem_flatMap.mpr ⟨p, hp, hi⟩, hc⟩
  · intro hq
    refine ⟨hall hq, ?_, ?_⟩
    · simp [FakePDClient.SearchIncidents, hq]
    · intro hne
      rw [hall hq]
      simp only [FakePDClient.SearchIncidents, hq, if_true, elems, Option.getD_some]
      cases pages with
      | nil => exact absurd rfl hne
      | cons p ps =>
        have hp := hpages p (by simp)
        intro h
        rw [List.flatMap_cons, List.append_eq_nil] at h
        exact hp h.1

/-- C28 on a backend that holds three incidents of three services and serves pages of two:
for the query `Ad Server` the real client returns the first and the third incident, for the
empty query all three, where the fake returns none. -/
theorem SearchIncidents_real_filters_fake_returns_nothing_witness :
    (∃ r w1, client.SearchIncidents env2 (pagedBackend incidentsOfThreeServices) "Ad Server"
        (-30) 3 (World.start ()) = some ((r, none), w1) ∧
      elems r = [
        { ID := "Q3XZW6AK6GZ3TZ", CreatedAt := "2022-09-06T03:00:15Z",
          Service := { ID := "P03NRF0", Summary := "Ad Server" } },
        { ID := "Q0HV1FERSUO36A", CreatedAt := "2022-09-06T03:18:04Z",
          Service := { ID := "PGPQHZF", Summary := "Staging Ad Server" } }]) ∧
    (∃ r w1, client.SearchIncidents env2 (pagedBackend incidentsOfThreeServices) "" (-30) 3
        (World.start ()) = some ((r, none), w1) ∧
      elems r = incidentsOfThreeServices.incidents ∧
      FakePDClient.SearchIncidents "" (-30) = (some [], none)) := by
  refine ⟨?_, ?_⟩
  · obtain ⟨r, w1, hr, he, -⟩ :=
      SearchIncidents_real_filters_fake_returns_nothing env2
        (pagedBackend incidentsOfThreeServices) "Ad Server" (-30)
        [{ Incidents := incidentsOfThreeServices.incidents.take 2 },
         { Incidents := incidentsOfThreeServices.incidents.drop 2 }]
        { Incidents := [] } (by decide) rfl (World.start ()) rfl 3 (by decide)
    exact ⟨r, w1, hr, he⟩
  · obtain ⟨r, w1, hr, -, -, -, -, hq⟩ :=
      SearchIncidents_real_filters_fake_returns_nothing env2
        (pagedBackend incidentsOfThreeServices) "" (-30)
        [{ Incidents := incidentsOfThreeServices.incidents.take 2 },
         { Incidents := incidentsOfThreeServices.incidents.drop 2 }]
        { Incidents := [] } (by decide) rfl (World.start ()) rfl 3 (by decide)
    obtain ⟨h1, h2, -⟩ := hq rfl
    exact ⟨r, w1, hr, h1, h2⟩

end MPagerDuty
